import Mathlib

/-!
# The notify worker and its neighbours: a watch-driven handler under supervision

The repository's `worker` package runs a `NotifyWatchHandler` against the
`NotifyWatcher` it sets up.  Its test suite (`worker/notifyworker_test.go`)
supplies two test doubles, `notifyHandler` and `testNotifyWatcher`, which are
embedded here function by function.  The worker itself (`worker/notifyworker.go`,
together with `watcher.MustErr` and `watcher.Stop`) is not among these sources;
it is modelled from the specification and every such definition says so.

Go values are embedded as follows.

* A Go `error` returned by the handler or given to `Kill` is an
  `Option Error`: `none` is `nil`, `some e` a concrete error.
* A watcher's termination reason is a `Reason`: `nil`, the sentinel
  `tomb.ErrStillAlive`, or a concrete error (the tagged type of §9 of the
  specification).  The specification keeps the sentinel to watcher reasons and
  to the classifier that echoes them (§4.2, §4.4); what a supervisor would do
  with a handler that returned the sentinel itself is not specified and not
  modelled.
* A goroutine is a state machine.  The test goroutine's calls are the
  stimuli (`Stim`); the worker's background task runs to its next blocking
  point whenever it is given the chance (`notifyWorker.task`).

## The other packages

`juju/osenv/vars.go`, `apiserver/debuglog_db.go`,
`apiserver/crossmodel/offeredservices.go` and `cmd/juju/status/formatted.go` are
among the sources and are embedded function by function, each in the namespace of
its package (`osenv`, `apiserver`, `crossmodel`, `status`).  What they call and the sources do not contain is an argument of
the embedded function: `version.GetOSFromSeries`, the text of a `loggo.Level`, the
constructor of the log tailer, `common.ServerError`, the offered-service lister,
`common.Resources.Register`, `watcher.EnsureErr`, `AuthEnvironManager` of the
authorizer, `common.ErrPerm` and `json.Marshal`.  The fragments of Go's `fmt`
and `time` that the sources rely on are embedded in the namespaces `fmt` and
`time`.

* A Go `uint` is a natural number below `2 ^ 64`, a Go `int` an integer from
  `-2 ^ 63` up to `2 ^ 63 - 1`; a conversion between the two wraps.
* What a goroutine meets on the channels it selects on is a list of events, in
  the order it meets them.
* A receive that blocks for ever makes the embedded function return `none`.
-/

namespace worker

/-- A concrete error value, as made by `fmt.Errorf`. -/
structure Error where
  msg : String
deriving DecidableEq, Repr

/-- The termination reason a watcher reports: Go `nil`, the sentinel
`tomb.ErrStillAlive` ("not yet finalized"), or a concrete error. -/
inductive Reason where
  | nil
  | ErrStillAlive
  | err (e : Error)
deriving DecidableEq, Repr

/-- The concrete error carried by a reason, if any: `nil` and the sentinel carry none. -/
def Reason.concrete : Reason → Option Error
  | .err e => some e
  | _ => none

/-- A handler error seen as a Go `error` value. -/
def Reason.ofError : Option Error → Reason
  | none => .nil
  | some e => .err e

/-- An unbuffered Go channel of `struct{}`: the only state it carries is whether
it has been closed. -/
structure Chan where
  closed : Bool
deriving DecidableEq, Repr

/-- `make(chan struct{})`. -/
def Chan.make : Chan := { closed := false }

/-- `close(ch)`. -/
def Chan.close (_ch : Chan) : Chan := { closed := true }

/-! ## `testNotifyWatcher` (notifyworker_test.go, lines 120-159) -/

/-- The test watcher.  The mutex `mu` only serialises access and is not embedded. -/
structure testNotifyWatcher where
  changes : Chan
  stopped : Bool
  stopError : Reason
deriving DecidableEq, Repr

/-- `Changes()` returns the channel. -/
def testNotifyWatcher.Changes (tnw : testNotifyWatcher) : Chan := tnw.changes

/-- `Err()` returns `stopError`. -/
def testNotifyWatcher.Err (tnw : testNotifyWatcher) : Reason := tnw.stopError

/-- `Stop()`: close `changes` unless already stopped, mark stopped, return `stopError`. -/
def testNotifyWatcher.Stop (tnw : testNotifyWatcher) : testNotifyWatcher × Reason :=
  let tnw1 := if !tnw.stopped then { tnw with changes := tnw.changes.close } else tnw
  ({ tnw1 with stopped := true }, tnw1.stopError)

/-- `SetStopError(err)`. -/
def testNotifyWatcher.SetStopError (tnw : testNotifyWatcher) (err : Reason) : testNotifyWatcher :=
  { tnw with stopError := err }

/-! ## `notifyHandler` (notifyworker_test.go, lines 47-102) -/

/-- The `handled` channel of the handler (`make(chan struct{}, 1)`): the number of
signals sent on it and whether it has been closed.  The test receives every
signal (`waitForHandledNotify`) before it triggers the next change, so a send
never blocks. -/
structure handledChan where
  sent : Nat
  closed : Bool
deriving DecidableEq, Repr

/-- The test handler.  The mutex `mu` only serialises access and is not embedded.
The `watcher` field is a pointer shared with the test, which is why the worker
reaches the live watcher through the handler. -/
structure notifyHandler where
  actions : List String
  handled : Option handledChan
  setupError : Option Error
  teardownError : Option Error
  handlerError : Option Error
  watcher : Option testNotifyWatcher
  description : String
deriving DecidableEq, Repr

/-- `SetUp()`: record "setup", return the watcher (nil if there is none) and `setupError`. -/
def notifyHandler.SetUp (nh : notifyHandler) :
    notifyHandler × Option testNotifyWatcher × Option Error :=
  let nh1 := { nh with actions := nh.actions ++ ["setup"] }
  match nh1.watcher with
  | none => (nh1, none, nh1.setupError)
  | some w => (nh1, some w, nh1.setupError)

/-- `TearDown()`: record "teardown", close `handled` if there is one, return `teardownError`. -/
def notifyHandler.TearDown (nh : notifyHandler) : notifyHandler × Option Error :=
  let nh1 := { nh with actions := nh.actions ++ ["teardown"] }
  let nh2 :=
    match nh1.handled with
    | some ch => { nh1 with handled := some { ch with closed := true } }
    | none => nh1
  (nh2, nh2.teardownError)

/-- `Handle()`: record "handler", signal on `handled` if there is one, return `handlerError`. -/
def notifyHandler.Handle (nh : notifyHandler) : notifyHandler × Option Error :=
  let nh1 := { nh with actions := nh.actions ++ ["handler"] }
  let nh2 :=
    match nh1.handled with
    | some ch => { nh1 with handled := some { ch with sent := ch.sent + 1 } }
    | none => nh1
  (nh2, nh2.handlerError)

/-- `String()` returns the description. -/
def notifyHandler.String (nh : notifyHandler) : String := nh.description

/-- `CannedErrer` (lines 317-323): an `Errer` with a fixed answer. -/
structure CannedErrer where
  err : Reason
deriving DecidableEq, Repr

/-- `CannedErrer.Err()`. -/
def CannedErrer.Err (c : CannedErrer) : Reason := c.err

/-! ## The worker, modelled from the specification -/

/-- What a channel-closed classifier does with a termination reason: it either
raises a fault (a Go panic, with its message) or returns a verdict. -/
inductive Verdict where
  | fault (msg : String)
  | ok (r : Reason)
deriving DecidableEq, Repr

/-- A classifier is a `func(watcher.Errer) error`; all it can do with the `Errer`
is read its `Err()`, so it is a function of that reason. -/
abbrev ClosedHandler := Reason → Verdict

/-- `noopHandler` (lines 313-315) returns nil. -/
def noopHandler : ClosedHandler := fun _ => .ok .nil

/-- The handler the closed-channel tests install (`triggeredHandler`, lines
346-349 and 366-369): it returns the watcher's reason unchanged.  What it saw
(`foundErr`) is the reason kept in the `Classify` entry of the trace. -/
def triggeredHandler : ClosedHandler := fun r => .ok r

/-- Modelled from the spec: `watcher.MustErr`, the default channel-closed
classifier (§4.2).  A nil reason and the not-yet-finalized sentinel raise a
fault; any other error is returned verbatim.  The fault messages are the ones
`TestDefaultClosedHandler` expects. -/
def MustErr : ClosedHandler
  | .nil => .fault "watcher was stopped cleanly"
  | .ErrStillAlive => .fault "watcher is still running"
  | .err e => .ok (.err e)

/-- Modelled from the spec: the lifecycle states of the supervisor (§3). -/
inductive Lifecycle where
  | Alive
  | Dying
  | Dead
deriving DecidableEq, Repr

/-- Modelled from the spec: the operations a supervisor performs (§3, §4.1), each
with the value it offers to the death-reason race.  A run's `trace` lists them in
order of occurrence. -/
inductive Op where
  | Kill (cause : Option Error)
  | Acquire (err : Option Error)
  | React (err : Option Error)
  | Classify (r : Reason) (verdict : Verdict)
  | WatcherStop (r : Reason)
  | Release (err : Option Error)
deriving DecidableEq, Repr

/-- Modelled from the spec: the supervisor (`notifyWorker` of
`worker/notifyworker.go`), §3 and §4.1.  `reason` is the write-once death
reason, `started` says whether the background task has run Acquire, `fault`
holds the message of an implementation fault raised by the classifier, and
`trace` is the record of the operations performed so far. -/
structure notifyWorker where
  state : Lifecycle
  reason : Option Error
  started : Bool
  fault : Option String
  handler : notifyHandler
  closedHandler : ClosedHandler
  trace : List Op

/-- Modelled from the spec: the compare-and-commit of §9, "set only if currently
empty". -/
def commit (reason candidate : Option Error) : Option Error :=
  match reason with
  | some e => some e
  | none => candidate

/-- Modelled from the spec: `NewNotifyWorker` (`Start` of §4.1).  The background
task is started; Acquire is the first thing it does when it runs.  The default
classifier is `MustErr`. -/
def NewNotifyWorker (handler : notifyHandler) : notifyWorker :=
  { state := .Alive, reason := none, started := false, fault := none,
    handler := handler, closedHandler := MustErr, trace := [] }

/-- Modelled from the spec: `Kill(reason)` (§4.1): non-blocking, offers its cause
to the race and requests termination.  Once the supervisor is Dead the recorded
reason is final, and after a fault nothing runs any more. -/
def notifyWorker.Kill (nw : notifyWorker) (cause : Option Error) : notifyWorker :=
  if nw.fault.isSome then nw else
  match nw.state with
  | .Dead => nw
  | _ =>
    { nw with state := .Dying, reason := commit nw.reason cause,
              trace := nw.trace ++ [.Kill cause] }

/-- Modelled from the spec: first step of the termination sequence (§4.1): stop
the watcher and fold its returned reason into the race, a not-yet-finalized
reason counting as nil. -/
def notifyWorker.stopWatcher (nw : notifyWorker) : notifyWorker :=
  match nw.handler.watcher with
  | none => nw
  | some w =>
    let (w1, r) := w.Stop
    { nw with handler := { nw.handler with watcher := some w1 },
              reason := commit nw.reason r.concrete,
              trace := nw.trace ++ [.WatcherStop r] }

/-- Modelled from the spec: second step of the termination sequence: call Release
and fold its result into the race. -/
def notifyWorker.release (nw : notifyWorker) : notifyWorker :=
  let (h1, err) := nw.handler.TearDown
  { nw with handler := h1, reason := commit nw.reason err,
            trace := nw.trace ++ [.Release err] }

/-- Modelled from the spec: the termination sequence (§4.1): Dying, stop the
watcher, Release, Dead. -/
def notifyWorker.terminate (nw : notifyWorker) : notifyWorker :=
  let nw1 := (notifyWorker.stopWatcher { nw with state := .Dying }).release
  { nw1 with state := .Dead }

/-- Modelled from the spec: Acquire, the first step of the background task
(§4.1).  A failure is offered to the race and the supervisor goes to Dying. -/
def notifyWorker.acquire (nw : notifyWorker) : notifyWorker :=
  let (h1, _, err) := nw.handler.SetUp
  let nw1 := { nw with handler := h1, started := true, trace := nw.trace ++ [.Acquire err] }
  match err with
  | none => nw1
  | some e => { nw1 with state := .Dying, reason := commit nw1.reason (some e) }

/-- Modelled from the spec: the event channel closed without the supervisor
having asked for it (§4.1): the classifier is given the watcher's termination
reason; a fault halts the task, a verdict is offered to the race (the sentinel
counting as nil) and termination begins. -/
def notifyWorker.closed (nw : notifyWorker) (w : testNotifyWatcher) : notifyWorker :=
  match nw.closedHandler w.Err with
  | .fault msg =>
    { nw with fault := some msg, trace := nw.trace ++ [.Classify w.Err (.fault msg)] }
  | .ok v =>
    notifyWorker.terminate
      { nw with reason := commit nw.reason v.concrete,
                trace := nw.trace ++ [.Classify w.Err (.ok v)] }

/-- Modelled from the spec: the background task runs until it blocks or ends
(§4.1).  It runs Acquire if it has not yet; a termination request is served
first, without consulting the channel; otherwise a closed channel is
classified; otherwise the task blocks waiting for an event. -/
def notifyWorker.task (nw : notifyWorker) : notifyWorker :=
  if nw.fault.isSome then nw else
  match nw.state with
  | .Dead => nw
  | _ =>
    let nw1 := if nw.started then nw else nw.acquire
    match nw1.state with
    | .Dead => nw1
    | .Dying => nw1.terminate
    | .Alive =>
      match nw1.handler.watcher with
      | none => nw1
      | some w => if w.Changes.closed then nw1.closed w else nw1

/-- Modelled from the spec: one event was received (§4.1): call React; a non-nil
result is offered to the race and termination begins. -/
def notifyWorker.react (nw : notifyWorker) : notifyWorker :=
  let (h1, err) := nw.handler.Handle
  let nw1 := { nw with handler := h1, trace := nw.trace ++ [.React err] }
  match err with
  | none => nw1
  | some e => notifyWorker.terminate { nw1 with reason := commit nw1.reason (some e) }

/-- The task is blocked in its event loop with an open channel to receive from. -/
def notifyWorker.selecting (nw : notifyWorker) : Bool :=
  nw.fault.isNone && nw.started && (nw.state == Lifecycle.Alive) &&
    (match nw.handler.watcher with
     | some w => !w.Changes.closed
     | none => false)

/-- `TriggerChange` of the test watcher (lines 153-159), seen from the worker: the
send is a rendezvous with the event loop, so the task first runs to its blocking
point; if it is then receiving, the event is delivered and React runs, otherwise
the send times out and nothing happens. -/
def notifyWorker.TriggerChange (nw : notifyWorker) : notifyWorker :=
  let nw1 := nw.task
  if nw1.selecting then nw1.react else nw1

/-- Modelled from the spec: `Wait()` (§4.1): blocks until Dead and returns the
recorded reason.  The outer `none` is a Wait that does not return. -/
def notifyWorker.Wait (nw : notifyWorker) : notifyWorker × Option (Option Error) :=
  let nw1 := nw.task
  (nw1, match nw1.state with
        | .Dead => some nw1.reason
        | _ => none)

/-- Modelled from the spec: `Stop()` (§4.1) is `Kill(nil)` then `Wait()`. -/
def notifyWorker.Stop (nw : notifyWorker) : notifyWorker × Option (Option Error) :=
  (nw.Kill none).Wait

/-- Modelled from the spec: `String()` forwards the handler's label. -/
def notifyWorker.String (nw : notifyWorker) : String := nw.handler.String

/-- Modelled from the spec: `SetClosedHandler` (the `closerHandler` interface of
lines 325-327) installs a classifier and returns the previous one. -/
def notifyWorker.SetClosedHandler (nw : notifyWorker) (handler : ClosedHandler) :
    notifyWorker × ClosedHandler :=
  ({ nw with closedHandler := handler }, nw.closedHandler)

/-- The test calls `Stop()` on the handler's watcher (`s.actor.watcher.Stop()`). -/
def notifyWorker.watcherStop (nw : notifyWorker) : notifyWorker :=
  match nw.handler.watcher with
  | none => nw
  | some w => { nw with handler := { nw.handler with watcher := some w.Stop.1 } }

/-- The test calls `SetStopError` on the handler's watcher. -/
def notifyWorker.watcherSetStopError (nw : notifyWorker) (err : Reason) : notifyWorker :=
  match nw.handler.watcher with
  | none => nw
  | some w => { nw with handler := { nw.handler with watcher := some (w.SetStopError err) } }

/-- What the test goroutine can do to a running worker. -/
inductive Stim where
  | Kill (cause : Option Error)
  | Stop
  | Wait
  | Yield
  | TriggerChange
  | WatcherStop
  | SetStopError (err : Reason)
  | SetClosedHandler (handler : ClosedHandler)

/-- One stimulus.  `Yield` lets the background task run to its next blocking point. -/
def step (nw : notifyWorker) : Stim → notifyWorker
  | .Kill cause => nw.Kill cause
  | .Stop => nw.Stop.1
  | .Wait => nw.Wait.1
  | .Yield => nw.task
  | .TriggerChange => nw.TriggerChange
  | .WatcherStop => nw.watcherStop
  | .SetStopError err => nw.watcherSetStopError err
  | .SetClosedHandler handler => (nw.SetClosedHandler handler).1

/-- A run: the stimuli in the order the test issues them. -/
def run (nw : notifyWorker) (stims : List Stim) : notifyWorker :=
  stims.foldl step nw

/-- The values offered to the death-reason race by the operations of a trace, in
order of occurrence, as Go `error` values. -/
def candidate : Op → Reason
  | .Kill cause => .ofError cause
  | .Acquire err => .ofError err
  | .React err => .ofError err
  | .Classify _ (.ok v) => v
  | .Classify _ (.fault _) => .nil
  | .WatcherStop r => r
  | .Release err => .ofError err

/-- The first concrete error of a list of candidates. -/
def firstConcrete : List Reason → Option Error
  | [] => none
  | r :: rs =>
    match r.concrete with
    | some e => some e
    | none => firstConcrete rs

/-- The first non-nil value of a list of candidates (nil if there is none). -/
def firstNonNil : List Reason → Reason
  | [] => .nil
  | .nil :: rs => firstNonNil rs
  | r :: _ => r

/-- The handler of the test suite's `SetUpTest` (lines 31-38), with the given errors. -/
def testHandler (setupError teardownError handlerError : Option Error)
    (stopError : Reason) : notifyHandler :=
  { actions := [], handled := some { sent := 0, closed := false },
    setupError := setupError, teardownError := teardownError,
    handlerError := handlerError,
    watcher := some { changes := Chan.make, stopped := false, stopError := stopError },
    description := "test notify handler" }

/-! ## Invariants of a run -/

/-- The shape of the handler's recorded actions in each phase of a run started
from a handler whose record was `A0`. -/
def Shape (A0 : List String) (nw : notifyWorker) : Prop :=
  match nw.state, nw.started with
  | .Dead, _ =>
    ∃ k, nw.handler.actions = A0 ++ "setup" :: (List.replicate k "handler" ++ ["teardown"])
  | _, false => nw.handler.actions = A0
  | _, true => ∃ k, nw.handler.actions = A0 ++ "setup" :: List.replicate k "handler"

/-- The recorded reason is the first concrete error among the candidates offered
so far, and a failed React is always the recorded reason. -/
def RaceCore (nw : notifyWorker) : Prop :=
  nw.reason = firstConcrete (nw.trace.map candidate) ∧
  (∀ e, Op.React (some e) ∈ nw.trace → nw.reason = some e)

/-- The death-reason race: `RaceCore`, and nothing is recorded while the
supervisor is Alive. -/
def Race (nw : notifyWorker) : Prop :=
  RaceCore nw ∧ (nw.state = .Alive → nw.reason = none)

/-- The background task is blocked in its event loop after `k` events, all handled
without error, on the open channel of watcher `w`. -/
def Looping (h : notifyHandler) (w : testNotifyWatcher) (k : Nat) (nw : notifyWorker) : Prop :=
  nw.state = .Alive ∧ nw.reason = none ∧ nw.started = true ∧ nw.fault = none ∧
  nw.handler.actions = h.actions ++ "setup" :: List.replicate k "handler" ∧
  nw.handler.setupError = h.setupError ∧ nw.handler.teardownError = h.teardownError ∧
  nw.handler.handlerError = h.handlerError ∧
  nw.handler.watcher = some w ∧ w.changes.closed = false

/-- The errors a handler is configured to return. -/
def notifyHandler.cfg (nh : notifyHandler) : Option Error × Option Error × Option Error :=
  (nh.setupError, nh.teardownError, nh.handlerError)

/-- The run is over: the supervisor is Dead with reason `r`, trace `tr` and handler
record `acts`, and the handler's watcher, if any, is stopped. -/
def Finished (r : Option Error) (tr : List Op) (acts : List String) (nw : notifyWorker) :
    Prop :=
  nw.state = .Dead ∧ nw.reason = r ∧ nw.trace = tr ∧ nw.handler.actions = acts ∧
  (∀ w, nw.handler.watcher = some w → w.stopped = true)

/-- While the supervisor is Alive and no event has been handled, the handler's
record and the trace hold at most the Acquire. -/
def Fresh (A0 : List String) (nw : notifyWorker) : Prop :=
  nw.state = .Alive → nw.fault = none →
    (nw.started = false → nw.handler.actions = A0 ∧ nw.trace = []) ∧
    (nw.started = true → nw.handler.actions = A0 ++ ["setup"] ∧ nw.trace = [.Acquire none])

/-- While the supervisor is Alive, the handler's record and the trace hold the
Acquire and the events handled so far, and nothing else. -/
def Events (A0 : List String) (nw : notifyWorker) : Prop :=
  nw.state = .Alive → nw.fault = none →
    (nw.started = false → nw.handler.actions = A0 ∧ nw.trace = []) ∧
    (nw.started = true → ∃ k, nw.handler.actions = A0 ++ "setup" :: List.replicate k "handler" ∧
      nw.trace = .Acquire none :: List.replicate k (.React none))

/-- A run whose Acquire fails with `e` and in which no Kill brings a cause: before
Acquire nothing is recorded; after it the run is over, with reason `e`, no React,
the handler's record extended by setup, teardown, and the watcher stopped. -/
def SetupFailed (A0 : List String) (e : Error) (nw : notifyWorker) : Prop :=
  nw.fault = none ∧ nw.handler.setupError = some e ∧
  (nw.started = false →
    nw.state ≠ .Dead ∧ nw.reason = none ∧ nw.handler.actions = A0 ∧
      (∀ op ∈ nw.trace, op = .Kill none)) ∧
  (nw.started = true →
    nw.state = .Dead ∧ nw.reason = some e ∧ nw.handler.actions = A0 ++ ["setup", "teardown"] ∧
      (∀ err, Op.React err ∉ nw.trace) ∧
      (∀ w, nw.handler.watcher = some w → w.stopped = true))

end worker

namespace osenv

/-! ## `juju/osenv/vars.go` -/

/-- `version.OSType`.  Its declaration is in package `version`, which is not among
these sources; `osVal` names its constants `Windows` and `Ubuntu`, and every other
value is an `other`. -/
inductive OSType where
  | Ubuntu
  | Windows
  | other (n : Nat)
deriving DecidableEq, Repr

/-- The errors `osVal` returns: the one `version.GetOSFromSeries` reported, or
`fmt.Errorf("Unknown OS: %q", os)`. -/
inductive Error (E : Type) where
  | fromSeries (err : E)
  | Errorf (format : String) (os : OSType)
deriving DecidableEq, Repr

/-- `osVarType` is an `int`. -/
abbrev osVarType := Int

/-- The constant `tmpDir` (iota 0). -/
def tmpDir : osVarType := 0

/-- The constant `logDir` (iota 1). -/
def logDir : osVarType := 1

/-- The constant `dataDir` (iota 2). -/
def dataDir : osVarType := 2

/-- The constant `jujuRun` (iota 3). -/
def jujuRun : osVarType := 3

/-- A Go `map[osVarType]string` literal, as its list of entries. -/
abbrev ValMap := List (osVarType × String)

/-- Indexing a Go map: the value of the key, or the zero value `""` when the key
is absent. -/
def ValMap.index (m : ValMap) (k : osVarType) : String :=
  match m.find? (fun kv => kv.1 == k) with
  | some kv => kv.2
  | none => ""

/-- The table `linuxVals`. -/
def linuxVals : ValMap :=
  [(tmpDir, "/tmp"), (logDir, "/var/log"), (dataDir, "/var/lib/juju"),
   (jujuRun, "/usr/local/bin/juju-run")]

/-- The table `winVals`. -/
def winVals : ValMap :=
  [(tmpDir, "C:/Juju/tmp"), (logDir, "C:/Juju/log"), (dataDir, "C:/Juju/lib/juju"),
   (jujuRun, "C:/Juju/bin/juju-run")]

/-- `osVal(series, valname)`.  `GetOSFromSeries` stands for
`version.GetOSFromSeries`, which is not among these sources: it returns an OS
and an error, nil (`none`) on success. -/
def osVal {E : Type} (GetOSFromSeries : String → OSType × Option E)
    (series : String) (valname : osVarType) : String × Option (Error E) :=
  match GetOSFromSeries series with
  | (_, some err) => ("", some (.fromSeries err))
  | (os, none) =>
    match os with
    | .Windows => (winVals.index valname, none)
    | .Ubuntu => (linuxVals.index valname, none)
    | _ => ("", some (.Errorf "Unknown OS: %q" os))

/-- `TempDir(series)`. -/
def TempDir {E : Type} (GetOSFromSeries : String → OSType × Option E) (series : String) :
    String × Option (Error E) :=
  osVal GetOSFromSeries series tmpDir

/-- `LogDir(series)`. -/
def LogDir {E : Type} (GetOSFromSeries : String → OSType × Option E) (series : String) :
    String × Option (Error E) :=
  osVal GetOSFromSeries series logDir

/-- `DataDir(series)`. -/
def DataDir {E : Type} (GetOSFromSeries : String → OSType × Option E) (series : String) :
    String × Option (Error E) :=
  osVal GetOSFromSeries series dataDir

/-- `JujuRun(series)`. -/
def JujuRun {E : Type} (GetOSFromSeries : String → OSType × Option E) (series : String) :
    String × Option (Error E) :=
  osVal GetOSFromSeries series jujuRun

/-- A series lookup for examples: "trusty" is Ubuntu, "win8" is Windows, "osx" is
some other OS, anything else is an error. -/
def sampleSeries (series : String) : OSType × Option String :=
  if series = "trusty" then (.Ubuntu, none)
  else if series = "win8" then (.Windows, none)
  else if series = "osx" then (.other 3, none)
  else (.other 0, some "invalid series")

end osenv

namespace fmt

/-! ## The fragment of Go's `fmt` the sources use -/

/-- What `Sprintf` appends when operands are left over: `%!(EXTRA string=a, string=b)`. -/
def extra : List String → List Char
  | [] => []
  | a :: rest =>
    "%!(EXTRA ".toList ++ "string=".toList ++ a.toList ++
      (rest.map (fun b => ", string=".toList ++ b.toList)).flatten ++ [')']

/-- `Sprintf` on the characters of the format, for string operands and verbs
without flags or width: `%s` prints the next operand, `%%` a percent sign, any
other verb `%!c(string=operand)`; a verb without operand prints `%!c(MISSING)`,
a trailing `%` prints `%!(NOVERB)`, and operands left over are reported at the
end. -/
def sprintf : List Char → List String → List Char
  | [], args => extra args
  | ['%'], args => "%!(NOVERB)".toList ++ extra args
  | '%' :: '%' :: rest, args => '%' :: sprintf rest args
  | '%' :: 's' :: rest, a :: args => a.toList ++ sprintf rest args
  | '%' :: c :: rest, a :: args =>
    "%!".toList ++ [c] ++ "(string=".toList ++ a.toList ++ [')'] ++ sprintf rest args
  | '%' :: c :: rest, [] => "%!".toList ++ [c] ++ "(MISSING)".toList ++ sprintf rest []
  | c :: rest, args => c :: sprintf rest args

/-- `fmt.Sprintf(format, args...)` for string operands. -/
def Sprintf (format : String) (args : List String) : String :=
  String.mk (sprintf format.toList args)

end fmt

namespace time

/-! ## The fragment of Go's `time` the sources use -/

/-- A `*time.Location`: a name and, for each instant (in Unix seconds), the offset
of its wall clock east of UTC, in seconds. -/
structure Location where
  name : String
  offset : Int → Int

/-- `time.UTC`. -/
def UTC : Location := { name := "UTC", offset := fun _ => 0 }

/-- Go's conversion `int64(x)`: the value with the same 64 bits. -/
def int64 (x : Int) : Int :=
  (x + 9223372036854775808) % 18446744073709551616 - 9223372036854775808

/-- Go's conversion `uint64(x)`: the value with the same 64 bits. -/
def uint64 (x : Int) : Nat := (x % 18446744073709551616).toNat

/-- `secondsPerDay`. -/
def secondsPerDay : Int := 86400

/-- `unixToInternal`: the seconds from January 1 of the year 1 to the Unix epoch. -/
def unixToInternal : Int :=
  (1969 * 365 + 1969 / 4 - 1969 / 100 + 1969 / 400) * secondsPerDay

/-- `internalToAbsolute`, which is `(absoluteYears*365.2425 + marchThruDecember) *
secondsPerDay` with `absoluteYears = 292277022400` and `marchThruDecember = 306`:
absolute time starts on March 1 of the year -292277022400.  (Releases of Go before
1.23 start it 306 days later, on January 1 of the year -292277022399; from that
day on the two give the same dates.) -/
def internalToAbsolute : Int :=
  (292277022400 * 3652425 / 10000 + 306) * secondsPerDay

/-- `unixToAbsolute`. -/
def unixToAbsolute : Int := unixToInternal + internalToAbsolute

/-- A `time.Time`: an instant, as seconds since the Unix epoch (an `int64`) and
nanoseconds within the second, with the location its wall clock is read in. -/
structure Time where
  sec : Int
  nsec : Nat
  loc : Location

/-- `t.In(loc)`: the same instant, read in `loc`. -/
def Time.In (t : Time) (loc : Location) : Time := { t with loc := loc }

/-- `t.Equal(u)`: the two values denote the same instant. -/
def Time.Equal (t u : Time) : Bool := t.sec == u.sec && t.nsec == u.nsec

/-- A date of the proleptic Gregorian calendar. -/
structure Date where
  year : Int
  month : Int
  day : Int
deriving DecidableEq, Repr

/-- The civil date of a day, counted from 1970-01-01, computed over 400-year
eras that start on the first of March. -/
def civil (days : Int) : Date :=
  let z := days + 719468
  let era := z / 146097
  let doe := z % 146097
  let yoe := (doe - doe / 1460 + doe / 36524 - doe / 146096) / 365
  let doy := doe - (365 * yoe + yoe / 4 - yoe / 100)
  let mp := (5 * doy + 2) / 153
  let d := doy - (153 * mp + 2) / 5 + 1
  let m := if mp < 10 then mp + 3 else mp - 9
  let y := yoe + era * 400
  { year := if m ≤ 2 then y + 1 else y, month := m, day := d }

/-- `t.abs()`: the seconds of the wall clock of `t` (the instant shifted by the
offset of its location) since the start of absolute time, as the `uint64` Go
computes: the sum wraps at `2^64`. -/
def Time.abs (t : Time) : Nat := uint64 (t.sec + t.loc.offset t.sec + unixToAbsolute)

/-- `t.Date()`, as a `Date`: the date of the day `t.abs() / secondsPerDay` of
absolute time. -/
def Time.Date (t : Time) : Date :=
  civil ((t.abs : Int) / secondsPerDay - unixToAbsolute / secondsPerDay)

/-- `t.Hour()`. -/
def Time.Hour (t : Time) : Int := (t.abs : Int) % secondsPerDay / 3600

/-- `t.Minute()`. -/
def Time.Minute (t : Time) : Int := (t.abs : Int) % 3600 / 60

/-- `t.Second()`. -/
def Time.Second (t : Time) : Int := (t.abs : Int) % 60

/-- `appendInt(b, x, width)` of package time: the decimal digits of `x`, after a
minus sign if it is negative, padded with zeros to `width` digits. -/
def appendInt (x : Int) (width : Nat) : List Char :=
  let digits := Nat.toDigits 10 x.natAbs
  (if x < 0 then ['-'] else []) ++ List.replicate (width - digits.length) '0' ++ digits

/-- `t.Format(layout)` on the characters of the layout, for layouts made of the
reference-time fields `2006`, `01`, `02`, `15`, `04`, `05` and separators that
stand for themselves, such as `-`, a blank and `:`. -/
def Time.format (t : Time) : List Char → List Char
  | '2' :: '0' :: '0' :: '6' :: rest => appendInt t.Date.year 4 ++ t.format rest
  | '0' :: '1' :: rest => appendInt t.Date.month 2 ++ t.format rest
  | '0' :: '2' :: rest => appendInt t.Date.day 2 ++ t.format rest
  | '1' :: '5' :: rest => appendInt t.Hour 2 ++ t.format rest
  | '0' :: '4' :: rest => appendInt t.Minute 2 ++ t.format rest
  | '0' :: '5' :: rest => appendInt t.Second 2 ++ t.format rest
  | c :: rest => c :: t.format rest
  | [] => []

/-- `t.Format(layout)`. -/
def Time.Format (t : Time) (layout : String) : String :=
  String.mk (t.format layout.toList)

/-- `time.Unix(sec, nsec)` read in `loc`: nanoseconds outside `[0, 999999999]`
are carried into the seconds, which wrap as an `int64` does. -/
def Unix (sec nsec : Int) (loc : Location) : Time :=
  if nsec < 0 ∨ nsec ≥ 1000000000 then
    let n := nsec.tdiv 1000000000
    let sec1 := int64 (sec + n)
    let nsec1 := nsec - n * 1000000000
    if nsec1 < 0 then
      { sec := int64 (sec1 - 1), nsec := (nsec1 + 1000000000).toNat, loc := loc }
    else
      { sec := sec1, nsec := nsec1.toNat, loc := loc }
  else
    { sec := int64 sec, nsec := nsec.toNat, loc := loc }

end time

namespace apiserver

/-! ## `apiserver/debuglog_db.go` -/

/-- `formatTime(t)`. -/
def formatTime (t : time.Time) : String :=
  (t.In time.UTC).Format "2006-01-02 15:04:05"

/-- A Go `error` value of this package, built with `github.com/juju/errors`: an
error reported by a collaborator, or one wrapped by `errors.Trace` or
`errors.Annotate`. -/
inductive Error where
  | New (msg : String)
  | traced (cause : Error)
  | annotated (cause : Error) (msg : String)
deriving DecidableEq, Repr

/-- The text `err.Error()` returns: an annotated error prints its message, a colon
and its cause. -/
def Error.message : Error → String
  | .New msg => msg
  | .traced cause => cause.message
  | .annotated cause msg => msg ++ ": " ++ cause.message

/-- `errors.Cause(err)`: the error at the bottom of the wrapping. -/
def Error.Cause : Error → Error
  | .New msg => .New msg
  | .traced cause => cause.Cause
  | .annotated cause _ => cause.Cause

/-- `errors.Trace(err)`: nil for nil, else the error wrapped. -/
def Trace (err : Option Error) : Option Error :=
  match err with
  | none => none
  | some e => some (.traced e)

/-- `errors.Annotate(err, message)`: nil for nil, else the error wrapped with the
message. -/
def Annotate (err : Option Error) (message : String) : Option Error :=
  match err with
  | none => none
  | some e => some (.annotated e message)

/-- Go's `uint` holds the values below `2^64` (a 64-bit platform). -/
def uintRange : Nat := 2 ^ 64

/-- The conversion `int(x)` of a `uint`: the value with the same 64 bits. -/
def int (x : Nat) : Int :=
  if x % uintRange < 2 ^ 63 then ((x % uintRange : Nat) : Int)
  else ((x % uintRange : Nat) : Int) - (uintRange : Int)

/-- `debugLogParams`.  Its declaration is not among these sources; the fields are
the ones this file reads.  `maxLines` is compared with the `uint` line count and
`backlog` is converted with `int(...)`: both are `uint`s.  `L` is the type of
`loggo.Level`. -/
structure debugLogParams (L : Type) where
  maxLines : Nat
  fromTheStart : Bool
  noTail : Bool
  backlog : Nat
  filterLevel : L
  includeEntity : List String
  excludeEntity : List String
  includeModule : List String
  excludeModule : List String

/-- `state.LogTailerParams`, with the fields `makeLogTailerParams` sets. -/
structure LogTailerParams (L : Type) where
  MinLevel : L
  NoTail : Bool
  InitialLines : Int
  IncludeEntity : List String
  ExcludeEntity : List String
  IncludeModule : List String
  ExcludeModule : List String

/-- `makeLogTailerParams(reqParams)`. -/
def makeLogTailerParams {L : Type} (reqParams : debugLogParams L) : LogTailerParams L :=
  let params : LogTailerParams L :=
    { MinLevel := reqParams.filterLevel
      NoTail := reqParams.noTail
      InitialLines := int reqParams.backlog
      IncludeEntity := reqParams.includeEntity
      ExcludeEntity := reqParams.excludeEntity
      IncludeModule := reqParams.includeModule
      ExcludeModule := reqParams.excludeModule }
  if reqParams.fromTheStart then { params with InitialLines := 0 } else params

/-- `state.LogRecord`, with the fields `formatLogRecord` reads. -/
structure LogRecord (L : Type) where
  Time : time.Time
  Entity : String
  Module : String
  Location : String
  Level : L
  Message : String

/-- `formatLogRecord(r)`.  `levelString` stands for the `String()` method of
`loggo.Level`. -/
def formatLogRecord {L : Type} (levelString : L → String) (r : LogRecord L) : String :=
  fmt.Sprintf "%s: %s %s %s %s %s\n"
    [r.Entity, formatTime r.Time, levelString r.Level, r.Module, r.Location, r.Message]

/-- The `debugLogSocket` as the handler uses it: the number of `sendOk` calls, the
lines given to `Write` in order, and, for each write by its position, the error
it comes back with (nil for a write that succeeds). -/
structure Socket where
  okSent : Nat
  writes : List String
  writeErr : Nat → Option Error

/-- `socket.sendOk()`. -/
def Socket.sendOk (s : Socket) : Socket := { s with okSent := s.okSent + 1 }

/-- `socket.Write([]byte(line))`: the line is handed to the socket and the write
reports its error. -/
def Socket.Write (s : Socket) (line : String) : Socket × Option Error :=
  ({ s with writes := s.writes ++ [line] }, s.writeErr s.writes.length)

/-- The `state.LogTailer` as the handler uses it: what `Err()` reports once the
log channel is closed, and whether `Stop()` has been called. -/
structure LogTailer where
  err : Option Error
  stopped : Bool
deriving DecidableEq, Repr

/-- `tailer.Stop()`. -/
def LogTailer.Stop (t : LogTailer) : LogTailer := { t with stopped := true }

/-- What one `select` of the handler's loop receives: the stop signal, a record
from `tailer.Logs()`, or the closure of that channel. -/
inductive Select (L : Type) where
  | stop
  | log (rec : LogRecord L)
  | closed

/-- The loop of `handleDebugLogDBRequest` over the `select` outcomes in order.  The
result is the socket and what the function returns; `none` is a loop still
waiting in its `select`. -/
def loop {L : Type} (levelString : L → String) (maxLines : Nat) (tailer : LogTailer) :
    Nat → Socket → List (Select L) → Socket × Option (Option Error)
  | _, socket, [] => (socket, none)
  | _, socket, .stop :: _ => (socket, some none)
  | _, socket, .closed :: _ => (socket, some (Annotate tailer.err "tailer stopped"))
  | lineCount, socket, .log rec :: rest =>
    let line := formatLogRecord levelString rec
    match socket.Write line with
    | (socket1, some err) => (socket1, some (Annotate (some err) "sending failed"))
    | (socket1, none) =>
      let lineCount1 := (lineCount + 1) % uintRange
      if maxLines > 0 && lineCount1 == maxLines then (socket1, some none)
      else loop levelString maxLines tailer lineCount1 socket1 rest

/-- What a call of `handleDebugLogDBRequest` leaves behind. -/
structure Outcome where
  ret : Option (Option Error)
  socket : Socket
  tailer : Option LogTailer

/-- `handleDebugLogDBRequest(st, reqParams, socket, stop)`.  `newLogTailer` is the
package variable of that name; `events` lists what the `select`s of the loop
receive, from the stop channel and from the tailer.  The deferred `tailer.Stop()`
runs when the function returns. -/
def handleDebugLogDBRequest {L S : Type} (levelString : L → String)
    (newLogTailer : S → LogTailerParams L → Except Error LogTailer)
    (st : S) (reqParams : debugLogParams L) (socket : Socket) (events : List (Select L)) :
    Outcome :=
  let params := makeLogTailerParams reqParams
  match newLogTailer st params with
  | .error err => { ret := some (Trace (some err)), socket := socket, tailer := none }
  | .ok tailer =>
    let socket1 := socket.sendOk
    match loop levelString reqParams.maxLines tailer 0 socket1 events with
    | (socket2, none) => { ret := none, socket := socket2, tailer := some tailer }
    | (socket2, some r) => { ret := some r, socket := socket2, tailer := some tailer.Stop }

/-- The records among the `select` outcomes, in order. -/
def delivered {L : Type} : List (Select L) → List (LogRecord L)
  | [] => []
  | .log rec :: rest => rec :: delivered rest
  | _ :: rest => delivered rest

/-- A level type for examples: the number of the level and its name. -/
def sampleLevelString (level : Nat) : String :=
  if level = 3 then "INFO" else "DEBUG"

/-- A record for examples, logged `sec` seconds after the Unix epoch. -/
def sampleRecord (sec : Int) (message : String) : LogRecord Nat :=
  { Time := time.Unix sec 0 time.UTC, Entity := "machine-0", Module := "juju.worker",
    Location := "worker.go:42", Level := 3, Message := message }

/-- Request parameters for examples, with the given line limit and backlog. -/
def sampleParams (maxLines backlog : Nat) : debugLogParams Nat :=
  { maxLines := maxLines, fromTheStart := false, noTail := false, backlog := backlog,
    filterLevel := 0, includeEntity := [], excludeEntity := [], includeModule := [],
    excludeModule := [] }

/-- A fresh socket for examples whose writes fail from position `failFrom` on. -/
def sampleSocket (failFrom : Nat) : Socket :=
  { okSent := 0, writes := [],
    writeErr := fun i => if i < failFrom then none else some (.New "broken pipe") }

/-- A `newLogTailer` for examples: it succeeds with a tailer reporting `err`. -/
def sampleNewLogTailer (err : Option Error) (_st : Unit) (_params : LogTailerParams Nat) :
    Except Error LogTailer :=
  .ok { err := err, stopped := false }

end apiserver

namespace crossmodel

/-! ## `apiserver/crossmodel/offeredservices.go` -/

/-- A Go `error` value of this package: an error reported by a collaborator, or
one made here with `errors.NotFoundf(format, arg)` or `errors.Errorf(format, arg)`. -/
inductive Error where
  | New (msg : String)
  | NotFoundf (format : String) (arg : String)
  | Errorf (format : String) (arg : Int)
deriving DecidableEq, Repr

/-- `crossmodel.OfferedService` of package `model/crossmodel`, with the fields this
file reads.  `Ep` is the type of `Endpoints`. -/
structure OfferedService (Ep : Type) where
  ServiceURL : String
  ServiceName : String
  CharmName : String
  Description : String
  Registered : Bool
  Endpoints : Ep
deriving DecidableEq, Repr

/-- `crossmodel.OfferedServiceFilter`, with the one field this file sets. -/
structure OfferedServiceFilter where
  ServiceURL : String
deriving DecidableEq, Repr

/-- `params.OfferedService`. -/
structure params.OfferedService (Ep : Type) where
  ServiceURL : String
  ServiceName : String
  CharmName : String
  Description : String
  Registered : Bool
  Endpoints : Ep
deriving DecidableEq, Repr

/-- The zero value of `params.OfferedService`; `default` is the nil `Endpoints`. -/
def params.OfferedService.zero {Ep : Type} [Inhabited Ep] : params.OfferedService Ep :=
  { ServiceURL := "", ServiceName := "", CharmName := "", Description := "",
    Registered := false, Endpoints := default }

/-- `params.OfferedServiceResult`.  `PE` is the type of `params.Error`; a nil
`Error` is `none`. -/
structure params.OfferedServiceResult (Ep PE : Type) where
  Result : params.OfferedService Ep
  Error : Option PE
deriving DecidableEq, Repr

/-- The zero value of `params.OfferedServiceResult`. -/
def params.OfferedServiceResult.zero {Ep PE : Type} [Inhabited Ep] :
    params.OfferedServiceResult Ep PE :=
  { Result := params.OfferedService.zero, Error := none }

/-- `params.OfferedServiceResults`. -/
structure params.OfferedServiceResults (Ep PE : Type) where
  Results : List (params.OfferedServiceResult Ep PE)
deriving DecidableEq, Repr

/-- `params.OfferedServiceQueryParams`. -/
structure params.OfferedServiceQueryParams where
  ServiceUrls : List String
deriving DecidableEq, Repr

/-- `params.StringsWatchResult`, with the fields this file sets. -/
structure params.StringsWatchResult where
  StringsWatcherId : String
  Changes : List String
deriving DecidableEq, Repr

/-- The zero value `params.StringsWatchResult{}`. -/
def params.StringsWatchResult.zero : params.StringsWatchResult :=
  { StringsWatcherId := "", Changes := [] }

/-- `OfferedServiceAPI`: the state access, the lister, the resources (the struct
holds a pointer to them, so a method may change them) and the authorizer. -/
structure OfferedServiceAPI (St Li Res Au : Type) where
  st : St
  offeredServices : Li
  resources : Res
  authorizer : Au
deriving DecidableEq, Repr

/-- The collaborators of `OfferedServices`, which are not among these sources:
`ListOffers` of the `OfferedServiceLister` (it may change the lister, of type
`Li`), and `common.ServerError`. -/
structure Env (Li Ep PE : Type) where
  ListOffers : Li → OfferedServiceFilter → Li × List (OfferedService Ep) × Option Error
  ServerError : Error → Option PE

/-- The body of the loop of `OfferedServices` for index `i` and `url`, on the
lister and the slice `offers`. -/
def offerFor {Li Ep PE : Type} (env : Env Li Ep PE)
    (acc : Li × List (params.OfferedServiceResult Ep PE)) (i : Nat) (url : String) :
    Li × List (params.OfferedServiceResult Ep PE) :=
  match env.ListOffers acc.1 { ServiceURL := url } with
  | (lister, _, some err) =>
    (lister, acc.2.modify (fun o => { o with Error := env.ServerError err }) i)
  | (lister, offerResults, none) =>
    if offerResults.length = 0 then
      (lister, acc.2.modify (fun o =>
        { o with Error := env.ServerError (.NotFoundf "offered service at %q" url) }) i)
    else if offerResults.length ≠ 1 then
      (lister, acc.2.modify (fun o =>
        { o with Error := env.ServerError (.Errorf "expected 1 result, got %d"
            offerResults.length) }) i)
    else
      match offerResults with
      | offer :: _ =>
        (lister, acc.2.modify (fun o =>
          { o with Result :=
              { ServiceURL := offer.ServiceURL, ServiceName := offer.ServiceName,
                CharmName := offer.CharmName, Description := offer.Description,
                Registered := offer.Registered, Endpoints := offer.Endpoints } }) i)
      | [] => (lister, acc.2)

/-- `(s *OfferedServiceAPI) OfferedServices(filter)`: the facade afterwards, the
results and the top-level error. -/
def OfferedServiceAPI.OfferedServices {St Li Res Au Ep PE : Type} [Inhabited Ep]
    (env : Env Li Ep PE) (s : OfferedServiceAPI St Li Res Au)
    (filter : params.OfferedServiceQueryParams) :
    OfferedServiceAPI St Li Res Au × params.OfferedServiceResults Ep PE × Option Error :=
  let offers : List (params.OfferedServiceResult Ep PE) :=
    List.replicate filter.ServiceUrls.length params.OfferedServiceResult.zero
  let out := filter.ServiceUrls.enum.foldl
    (fun acc iu => offerFor env acc iu.1 iu.2) (s.offeredServices, offers)
  ({ s with offeredServices := out.1 }, { Results := out.2 }, none)

/-- The entry for one URL, given what `ListOffers` answered for it. -/
def entry {Ep PE : Type} [Inhabited Ep] (ServerError : Error → Option PE) (url : String)
    (answer : List (OfferedService Ep) × Option Error) : params.OfferedServiceResult Ep PE :=
  match answer with
  | (_, some err) => { Result := params.OfferedService.zero, Error := ServerError err }
  | ([], none) =>
    { Result := params.OfferedService.zero,
      Error := ServerError (.NotFoundf "offered service at %q" url) }
  | ([offer], none) =>
    { Result :=
        { ServiceURL := offer.ServiceURL, ServiceName := offer.ServiceName,
          CharmName := offer.CharmName, Description := offer.Description,
          Registered := offer.Registered, Endpoints := offer.Endpoints },
      Error := none }
  | (offers, none) =>
    { Result := params.OfferedService.zero,
      Error := ServerError (.Errorf "expected 1 result, got %d" offers.length) }

/-- The calls of `ListOffers` made one after the other for the URLs, each on the
lister the previous call left: the filters given and the answers received. -/
def calls {Li Ep PE : Type} (env : Env Li Ep PE) :
    Li → List String → List (OfferedServiceFilter × (List (OfferedService Ep) × Option Error))
  | _, [] => []
  | lister, url :: urls =>
    ({ ServiceURL := url }, (env.ListOffers lister { ServiceURL := url }).2) ::
      calls env (env.ListOffers lister { ServiceURL := url }).1 urls

/-- A lister for examples: it knows one offer at "local:/u/me/db", two at
"local:/u/me/twice", fails for "broken" and has nothing elsewhere. -/
def sampleEnv : Env Unit (List (String × String)) Error :=
  { ListOffers := fun _ f =>
      if f.ServiceURL = "local:/u/me/db" then
        ((), [{ ServiceURL := "local:/u/me/db", ServiceName := "db", CharmName := "mysql",
                Description := "a database", Registered := true,
                Endpoints := [("db", "mysql")] }], none)
      else if f.ServiceURL = "local:/u/me/twice" then
        ((), [{ ServiceURL := "local:/u/me/twice", ServiceName := "a", CharmName := "a",
                Description := "", Registered := false, Endpoints := [] },
              { ServiceURL := "local:/u/me/twice", ServiceName := "b", CharmName := "b",
                Description := "", Registered := false, Endpoints := [] }], none)
      else if f.ServiceURL = "broken" then ((), [], some (.New "lister failed"))
      else ((), [], none)
    ServerError := fun e => some e }

/-- A receive-only channel of `[]string` as the receiver meets it: the values it
will deliver, in order, and whether it is closed once they are delivered. -/
structure Chan where
  pending : List (List String)
  closed : Bool
deriving DecidableEq, Repr

/-- The receive `v, ok := <-c`: the next value with `ok = true`; on a closed and
drained channel the zero value with `ok = false`; `none` when nothing is ever
delivered and the channel is never closed, so that the receive blocks for ever. -/
def Chan.recv : Chan → Option ((List String × Bool) × Chan)
  | { pending := v :: rest, closed := c } => some ((v, true), { pending := rest, closed := c })
  | { pending := [], closed := true } => some (([], false), { pending := [], closed := true })
  | { pending := [], closed := false } => none

/-- A `state.StringsWatcher`: its `Changes()` channel and the rest of it (of type
`K`), which this file only hands on. -/
structure StringsWatcher (K : Type) where
  changes : Chan
  rest : K
deriving DecidableEq, Repr

/-- The collaborators of `WatchOfferedServices`, which are not among these sources:
`WatchOfferedServices` of the state access, `Register` of `common.Resources` and
`watcher.EnsureErr`. -/
structure WatchEnv (St Res K : Type) where
  WatchOfferedServices : St → St × StringsWatcher K
  Register : Res → StringsWatcher K → Res × String
  EnsureErr : StringsWatcher K → Option Error

/-- `(s *OfferedServiceAPI) WatchOfferedServices()`: the facade afterwards, the
result and the error; `none` when the receive blocks for ever. -/
def OfferedServiceAPI.WatchOfferedServices {St Li Res Au K : Type} (env : WatchEnv St Res K)
    (s : OfferedServiceAPI St Li Res Au) :
    Option (OfferedServiceAPI St Li Res Au × params.StringsWatchResult × Option Error) :=
  let nothing := params.StringsWatchResult.zero
  let (st, watch) := env.WatchOfferedServices s.st
  match watch.changes.recv with
  | none => none
  | some ((changes, true), c) =>
    let (resources, id) := env.Register s.resources { watch with changes := c }
    some ({ s with st := st, resources := resources },
      { StringsWatcherId := id, Changes := changes }, none)
  | some ((_, false), c) =>
    some ({ s with st := st }, nothing, env.EnsureErr { watch with changes := c })

/-- A state access, resources and watcher for examples: the state is the channel
of the watcher it hands out, the resources are the list of registered watchers, the
id is the number of the registration, and `EnsureErr` reports a fixed error. -/
def sampleWatchEnv : WatchEnv Chan (List (StringsWatcher Unit)) Unit :=
  { WatchOfferedServices := fun st => (st, { changes := st, rest := () })
    Register := fun res w => (res ++ [w], toString (res.length + 1))
    EnsureErr := fun _ => some (.New "watcher was stopped") }

/-- A facade for examples over `sampleWatchEnv`, whose watcher has channel `c`. -/
def sampleAPI (c : Chan) : OfferedServiceAPI Chan Unit (List (StringsWatcher Unit)) Unit :=
  { st := c, offeredServices := (), resources := [], authorizer := () }

/-- The facade `s` with another lister in the place of its own. -/
def OfferedServiceAPI.withLister {St Li Res Au Li1 : Type} (s : OfferedServiceAPI St Li Res Au)
    (lister : Li1) : OfferedServiceAPI St Li1 Res Au :=
  { st := s.st, offeredServices := lister, resources := s.resources,
    authorizer := s.authorizer }

/-- A lister that also keeps the list of the filters it has been called with, the
latest last. -/
def recording {Li Ep PE : Type} (env : Env Li Ep PE) :
    Env (Li × List OfferedServiceFilter) Ep PE :=
  { ListOffers := fun l f =>
      ((( env.ListOffers l.1 f).1, l.2 ++ [f]), (env.ListOffers l.1 f).2)
    ServerError := env.ServerError }

/-- A lister without state that answers by the function `answer`. -/
def stateless {Ep PE : Type}
    (answer : OfferedServiceFilter → List (OfferedService Ep) × Option Error)
    (ServerError : Error → Option PE) : Env Unit Ep PE :=
  { ListOffers := fun _ f => ((), answer f)
    ServerError := ServerError }

/-- `createOfferedServiceAPI(st, offeredServiceLister, resources, authorizer)`: the
facade (`none` is the nil pointer) and the error.  `AuthEnvironManager` of the
`common.Authorizer` and the value of `common.ErrPerm` are not among these sources
and are arguments. -/
def createOfferedServiceAPI {St Li Res Au E : Type} (AuthEnvironManager : Au → Bool)
    (ErrPerm : Option E) (st : St) (offeredServiceLister : Li) (resources : Res)
    (authorizer : Au) : Option (OfferedServiceAPI St Li Res Au) × Option E :=
  if !AuthEnvironManager authorizer then
    (none, ErrPerm)
  else
    (some { st := st, offeredServices := offeredServiceLister, authorizer := authorizer,
            resources := resources }, none)

end crossmodel

namespace status

/-! ## `cmd/juju/status/formatted.go` -/

/-- A Go `error` value, as far as this file uses it: the text `Error()` returns. -/
structure GoError where
  text : String
deriving DecidableEq, Repr

/-- `err.Error()`. -/
def GoError.Error (err : GoError) : String := err.text

/-- `errorStatus`. -/
structure errorStatus where
  StatusError : String
deriving DecidableEq, Repr

/-- `statusInfoContents`; `status.Status` is a string type. -/
structure statusInfoContents where
  Err : Option GoError
  Current : String
  Message : String
  Since : String
  Version : String
  Life : String
deriving DecidableEq, Repr

/-- `machineStatus`; `instance.Id` is a string type, and a Go map is the list of
its entries. -/
structure machineStatus where
  Err : Option GoError
  JujuStatus : statusInfoContents
  DNSName : String
  InstanceId : String
  MachineStatus : statusInfoContents
  Series : String
  Id : String
  Containers : List (String × machineStatus)
  Hardware : String
  HAStatus : String

/-- `meterStatus`. -/
structure meterStatus where
  Color : String
  Message : String
deriving DecidableEq, Repr

/-- `unitStatus`; the nil `*meterStatus` is `none`. -/
structure unitStatus where
  WorkloadStatusInfo : statusInfoContents
  JujuStatusInfo : statusInfoContents
  MeterStatus : Option meterStatus
  Charm : String
  Machine : String
  OpenedPorts : List String
  PublicAddress : String
  Subordinates : List (String × unitStatus)
  WorkloadVersion : String

/-- `applicationStatus`. -/
structure applicationStatus where
  Err : Option GoError
  Charm : String
  Series : String
  OS : String
  CharmOrigin : String
  CharmName : String
  CharmRev : Int
  CanUpgradeTo : String
  Exposed : Bool
  Life : String
  StatusInfo : statusInfoContents
  Relations : List (String × List String)
  SubordinateTo : List String
  Units : List (String × unitStatus)
  WorkloadVersion : String

/-- The `interface{}` values this file hands to `json.Marshal` or returns from
`MarshalYAML`, by their dynamic type: an `errorStatus`, or one of the structs
converted to its `...NoMarshal` type, which has the same fields and none of the
marshalling methods. -/
inductive Value where
  | errorStatus (v : errorStatus)
  | machineStatusNoMarshal (s : machineStatus)
  | applicationStatusNoMarshal (s : applicationStatus)
  | statusInfoContentsNoMarshal (s : statusInfoContents)
  | unitStatusNoMarshal (s : unitStatus)

/-- Whether a value is an `errorStatus`. -/
def Value.isErrorStatus : Value → Bool
  | .errorStatus _ => true
  | _ => false

/-- `(s machineStatus) MarshalJSON()`; `Marshal` is `json.Marshal`, with whatever
it returns. -/
def machineStatus.MarshalJSON {R : Type} (Marshal : Value → R) (s : machineStatus) : R :=
  match s.Err with
  | some err => Marshal (.errorStatus { StatusError := err.Error })
  | none => Marshal (.machineStatusNoMarshal s)

/-- `(s machineStatus) MarshalYAML()`. -/
def machineStatus.MarshalYAML (s : machineStatus) : Value × Option GoError :=
  match s.Err with
  | some err => (.errorStatus { StatusError := err.Error }, none)
  | none => (.machineStatusNoMarshal s, none)

/-- `(s applicationStatus) MarshalJSON()`. -/
def applicationStatus.MarshalJSON {R : Type} (Marshal : Value → R) (s : applicationStatus) :
    R :=
  match s.Err with
  | some err => Marshal (.errorStatus { StatusError := err.Error })
  | none => Marshal (.applicationStatusNoMarshal s)

/-- `(s applicationStatus) MarshalYAML()`. -/
def applicationStatus.MarshalYAML (s : applicationStatus) : Value × Option GoError :=
  match s.Err with
  | some err => (.errorStatus { StatusError := err.Error }, none)
  | none => (.applicationStatusNoMarshal s, none)

/-- `(s statusInfoContents) MarshalJSON()`. -/
def statusInfoContents.MarshalJSON {R : Type} (Marshal : Value → R)
    (s : statusInfoContents) : R :=
  match s.Err with
  | some err => Marshal (.errorStatus { StatusError := err.Error })
  | none => Marshal (.statusInfoContentsNoMarshal s)

/-- `(s statusInfoContents) MarshalYAML()`. -/
def statusInfoContents.MarshalYAML (s : statusInfoContents) : Value × Option GoError :=
  match s.Err with
  | some err => (.errorStatus { StatusError := err.Error }, none)
  | none => (.statusInfoContentsNoMarshal s, none)

/-- `(s unitStatus) MarshalJSON()`. -/
def unitStatus.MarshalJSON {R : Type} (Marshal : Value → R) (s : unitStatus) : R :=
  match s.WorkloadStatusInfo.Err with
  | some err => Marshal (.errorStatus { StatusError := err.Error })
  | none => Marshal (.unitStatusNoMarshal s)

/-- `(s unitStatus) MarshalYAML()`. -/
def unitStatus.MarshalYAML (s : unitStatus) : Value × Option GoError :=
  match s.WorkloadStatusInfo.Err with
  | some err => (.errorStatus { StatusError := err.Error }, none)
  | none => (.unitStatusNoMarshal s, none)

/-- A `statusInfoContents` for examples, with the given `Err`. -/
def sampleInfo (err : Option GoError) : statusInfoContents :=
  { Err := err, Current := "active", Message := "ready", Since := "01 Nov 2016",
    Version := "2.0.0", Life := "" }

/-- A `machineStatus` for examples, with the given `Err`. -/
def sampleMachine (err : Option GoError) : machineStatus :=
  { Err := err, JujuStatus := sampleInfo none, DNSName := "10.0.0.1", InstanceId := "i-1",
    MachineStatus := sampleInfo none, Series := "xenial", Id := "0", Containers := [],
    Hardware := "arch=amd64", HAStatus := "" }

/-- A `unitStatus` for examples, with the given `Err` of its workload status and of
its juju status. -/
def sampleUnit (workload juju : Option GoError) : unitStatus :=
  { WorkloadStatusInfo := sampleInfo workload, JujuStatusInfo := sampleInfo juju,
    MeterStatus := none, Charm := "", Machine := "0", OpenedPorts := ["80/tcp"],
    PublicAddress := "10.0.0.1", Subordinates := [], WorkloadVersion := "" }

/-- An `applicationStatus` for examples, with the given `Err`. -/
def sampleApplication (err : Option GoError) : applicationStatus :=
  { Err := err, Charm := "cs:xenial/mysql-1", Series := "xenial", OS := "ubuntu",
    CharmOrigin := "jujucharms", CharmName := "mysql", CharmRev := 1, CanUpgradeTo := "",
    Exposed := true, Life := "", StatusInfo := sampleInfo none, Relations := [],
    SubordinateTo := [], Units := [("mysql/0", sampleUnit none none)],
    WorkloadVersion := "" }

end status

/-! ## Theorems -/

namespace worker


/-! ### The test suite against the model -/

/-- The expectations of the test suite hold in the model: `TestKill`, `TestStop`,
`TestWait` and `TestStringForwardsHandlerString`. -/
theorem suite_kill_stop_wait :
    ((NewNotifyWorker (testHandler none none none .nil)).Kill none).Wait.2 = some none ∧
    (NewNotifyWorker (testHandler none none none .nil)).Stop.2 = some none ∧
    (NewNotifyWorker (testHandler none none none .nil)).Stop.1.Wait.2 = some none ∧
    (NewNotifyWorker (testHandler none none none .nil)).Wait.2 = none ∧
    ((NewNotifyWorker (testHandler none none none .nil)).Wait.1.Kill none).Wait.2 = some none ∧
    (NewNotifyWorker (testHandler none none none .nil)).String = "test notify handler" := by
  decide

/-- The expectations of `TestCallSetUpAndTearDown` and `TestChangesTriggerHandler`
hold in the model. -/
theorem suite_setup_changes_teardown :
    (run (NewNotifyWorker (testHandler none none none .nil)) [.Yield]).handler.actions =
      ["setup"] ∧
    (run (NewNotifyWorker (testHandler none none none .nil))
      [.Yield, .Kill none, .Wait]).handler.actions = ["setup", "teardown"] ∧
    (run (NewNotifyWorker (testHandler none none none .nil))
      [.Yield, .Kill none, .Wait]).handler.watcher =
      some { changes := { closed := true }, stopped := true, stopError := .nil } ∧
    (run (NewNotifyWorker (testHandler none none none .nil))
      [.Yield, .TriggerChange]).handler.actions = ["setup", "handler"] ∧
    (run (NewNotifyWorker (testHandler none none none .nil))
      [.Yield, .TriggerChange, .TriggerChange, .TriggerChange]).handler.actions =
      ["setup", "handler", "handler", "handler"] ∧
    (run (NewNotifyWorker (testHandler none none none .nil))
      [.Yield, .TriggerChange, .TriggerChange, .TriggerChange]).Stop.2 = some none ∧
    (run (NewNotifyWorker (testHandler none none none .nil))
      [.Yield, .TriggerChange, .TriggerChange, .TriggerChange]).Stop.1.handler.actions =
      ["setup", "handler", "handler", "handler", "teardown"] := by
  decide

/-- The expectations of `TestSetUpFailureStopsWithTearDown`,
`TestWatcherStopFailurePropagates`, `TestCleanRunNoticesTearDownError` and
`TestHandleErrorStopsWorkerAndWatcher` hold in the model. -/
theorem suite_failures :
    (NewNotifyWorker (testHandler (some ⟨"my special error"⟩) none none .nil)).Wait.2 =
      some (some ⟨"my special error"⟩) ∧
    (NewNotifyWorker (testHandler (some ⟨"my special error"⟩) none none
      .nil)).Wait.1.handler.actions = ["setup", "teardown"] ∧
    (run (NewNotifyWorker (testHandler none none none .nil))
      [.Yield, .SetStopError (.err ⟨"error while stopping watcher"⟩), .Kill none]).Wait.2 =
      some (some ⟨"error while stopping watcher"⟩) ∧
    (run (NewNotifyWorker (testHandler none (some ⟨"failed to tear down watcher"⟩) none .nil))
      [.Yield, .Kill none]).Wait.2 = some (some ⟨"failed to tear down watcher"⟩) ∧
    (run (NewNotifyWorker (testHandler none none (some ⟨"my handling error"⟩) .nil))
      [.TriggerChange]).Wait.2 = some (some ⟨"my handling error"⟩) ∧
    (run (NewNotifyWorker (testHandler none none (some ⟨"my handling error"⟩) .nil))
      [.TriggerChange]).Wait.1.handler.actions = ["setup", "handler", "teardown"] := by
  decide

/-- The expectations of `TestNoticesStoppedWatcher`,
`TestErrorsOnStillAliveButClosedChannel` and `TestErrorsOnClosedChannel` hold in
the model, the last one with the `Stop` of `TearDownTest` that follows it. -/
theorem suite_closed_channel :
    (run (NewNotifyWorker (testHandler none none none .nil))
      [.Yield, .SetStopError (.err ⟨"Stopped Watcher"⟩), .WatcherStop]).Wait.2 =
      some (some ⟨"Stopped Watcher"⟩) ∧
    (run (NewNotifyWorker (testHandler none none none .nil))
      [.Yield, .SetStopError (.err ⟨"Stopped Watcher"⟩),
       .WatcherStop]).Wait.1.handler.actions = ["setup", "teardown"] ∧
    (run (NewNotifyWorker (testHandler none none none .nil))
      [.Yield, .SetClosedHandler triggeredHandler, .SetStopError .ErrStillAlive,
       .WatcherStop]).Wait.2 = some none ∧
    (run (NewNotifyWorker (testHandler none none none .nil))
      [.Yield, .SetClosedHandler triggeredHandler, .SetStopError .ErrStillAlive,
       .WatcherStop]).Wait.1.trace =
      [.Acquire none, .Classify .ErrStillAlive (.ok .ErrStillAlive),
       .WatcherStop .ErrStillAlive, .Release none] ∧
    (run (NewNotifyWorker (testHandler none none none .nil))
      [.Yield, .SetClosedHandler triggeredHandler, .WatcherStop]).Wait.2 = some none ∧
    (run (NewNotifyWorker (testHandler none none none .nil))
      [.Yield, .SetClosedHandler triggeredHandler, .WatcherStop]).Wait.1.trace =
      [.Acquire none, .Classify .nil (.ok .nil), .WatcherStop .nil, .Release none] ∧
    (run (NewNotifyWorker (testHandler none none none .nil))
      [.Yield, .SetClosedHandler triggeredHandler, .WatcherStop, .Wait]).Stop.2 =
      some none := by
  decide

/-! ### The shape of the handler's record -/

theorem terminate_state (nw : notifyWorker) : nw.terminate.state = .Dead := rfl

theorem terminate_actions (nw : notifyWorker) :
    nw.terminate.handler.actions = nw.handler.actions ++ ["teardown"] := by
  unfold notifyWorker.terminate notifyWorker.release notifyWorker.stopWatcher
    notifyHandler.TearDown
  cases hw : nw.handler.watcher <;> cases hh : nw.handler.handled <;> simp [hw, hh]

theorem Shape_terminate (A0 : List String) (nw : notifyWorker)
    (h : ∃ k, nw.handler.actions = A0 ++ "setup" :: List.replicate k "handler") :
    Shape A0 nw.terminate := by
  obtain ⟨k, hk⟩ := h
  simp only [Shape, terminate_state]
  exact ⟨k, by simp [terminate_actions, hk]⟩

theorem Shape_Kill (A0 : List String) (nw : notifyWorker) (c : Option Error)
    (h : Shape A0 nw) : Shape A0 (nw.Kill c) := by
  unfold notifyWorker.Kill
  split
  · exact h
  · split
    · exact h
    · rename_i hs
      revert h
      cases hst : nw.state <;> cases hb : nw.started <;> simp_all [Shape]

theorem Shape_acquire (A0 : List String) (nw : notifyWorker)
    (hs : nw.started = false) (hd : nw.state ≠ .Dead) (h : Shape A0 nw) :
    nw.acquire.started = true ∧ nw.acquire.state ≠ .Dead ∧ nw.acquire.fault = nw.fault ∧
      Shape A0 nw.acquire := by
  have ha : nw.handler.actions = A0 := by
    revert h
    cases hst : nw.state <;> simp_all [Shape]
  unfold notifyWorker.acquire notifyHandler.SetUp
  cases hw : nw.handler.watcher <;> cases he : nw.handler.setupError <;>
    cases hst : nw.state <;> simp_all [Shape]

theorem Shape_react (A0 : List String) (nw : notifyWorker)
    (hs : nw.started = true) (hd : nw.state ≠ .Dead) (h : Shape A0 nw) :
    Shape A0 nw.react := by
  have ha : ∃ k, nw.handler.actions = A0 ++ "setup" :: List.replicate k "handler" := by
    revert h
    cases hst : nw.state <;> simp_all [Shape]
  obtain ⟨k, hk⟩ := ha
  have hk1 : ∃ k, nw.handler.actions ++ ["handler"] =
      A0 ++ "setup" :: List.replicate k "handler" :=
    ⟨k + 1, by simp [hk, List.replicate_succ']⟩
  unfold notifyWorker.react notifyHandler.Handle
  cases hh : nw.handler.handled <;> cases he : nw.handler.handlerError
  all_goals simp only [hh, he]
  · revert h; cases hst : nw.state <;> simp_all [Shape]
  · apply Shape_terminate; simpa using hk1
  · revert h; cases hst : nw.state <;> simp_all [Shape]
  · apply Shape_terminate; simpa using hk1

theorem Shape_closed (A0 : List String) (nw : notifyWorker) (w : testNotifyWatcher)
    (hs : nw.started = true) (hd : nw.state ≠ .Dead) (h : Shape A0 nw) :
    Shape A0 (nw.closed w) := by
  have ha : ∃ k, nw.handler.actions = A0 ++ "setup" :: List.replicate k "handler" := by
    revert h
    cases hst : nw.state <;> simp_all [Shape]
  unfold notifyWorker.closed
  split
  · revert h; cases hst : nw.state <;> simp_all [Shape]
  · apply Shape_terminate; simpa using ha

theorem Shape_task (A0 : List String) (nw : notifyWorker) (h : Shape A0 nw) :
    Shape A0 nw.task := by
  unfold notifyWorker.task
  split
  · exact h
  · split
    · exact h
    · rename_i hd
      have key : ∀ nw1 : notifyWorker, nw1.started = true → nw1.state ≠ .Dead →
          Shape A0 nw1 →
          Shape A0 (match nw1.state with
            | .Dead => nw1
            | .Dying => nw1.terminate
            | .Alive =>
              match nw1.handler.watcher with
              | none => nw1
              | some w => if w.Changes.closed then nw1.closed w else nw1) := by
        intro nw1 hs1 hd1 h1
        split
        · exact h1
        · apply Shape_terminate
          revert h1
          cases hst : nw1.state <;> simp_all [Shape]
        · split
          · exact h1
          · split
            · exact Shape_closed A0 nw1 _ hs1 hd1 h1
            · exact h1
      cases hs : nw.started
      · have ⟨a1, a2, _, a4⟩ := Shape_acquire A0 nw hs (by simpa using hd) h
        simpa using key nw.acquire a1 a2 a4
      · simpa using key nw hs (by simpa using hd) h

theorem Shape_TriggerChange (A0 : List String) (nw : notifyWorker) (h : Shape A0 nw) :
    Shape A0 nw.TriggerChange := by
  have ht := Shape_task A0 nw h
  unfold notifyWorker.TriggerChange
  simp only
  split
  · rename_i hsel
    have hs : nw.task.started = true := by
      simp [notifyWorker.selecting] at hsel; exact hsel.1.1.2
    have hd : nw.task.state ≠ .Dead := by
      simp [notifyWorker.selecting] at hsel; simp [hsel.1.2]
    exact Shape_react A0 _ hs hd ht
  · exact ht

theorem Shape_watcherStop (A0 : List String) (nw : notifyWorker) (h : Shape A0 nw) :
    Shape A0 nw.watcherStop := by
  unfold notifyWorker.watcherStop
  split
  · exact h
  · exact h

theorem Shape_watcherSetStopError (A0 : List String) (nw : notifyWorker) (err : Reason)
    (h : Shape A0 nw) : Shape A0 (nw.watcherSetStopError err) := by
  unfold notifyWorker.watcherSetStopError
  split
  · exact h
  · exact h

theorem Shape_step (A0 : List String) (nw : notifyWorker) (s : Stim) (h : Shape A0 nw) :
    Shape A0 (step nw s) := by
  cases s with
  | Kill c => exact Shape_Kill A0 nw c h
  | Stop => exact Shape_task A0 _ (Shape_Kill A0 nw none h)
  | Wait => exact Shape_task A0 nw h
  | Yield => exact Shape_task A0 nw h
  | TriggerChange => exact Shape_TriggerChange A0 nw h
  | WatcherStop => exact Shape_watcherStop A0 nw h
  | SetStopError err => exact Shape_watcherSetStopError A0 nw err h
  | SetClosedHandler cl => exact h

theorem Shape_run (A0 : List String) (stims : List Stim) :
    ∀ nw : notifyWorker, Shape A0 nw → Shape A0 (run nw stims) := by
  induction stims with
  | nil => intro nw h; exact h
  | cons s rest ih => intro nw h; exact ih _ (Shape_step A0 nw s h)

theorem Wait_some (nw : notifyWorker) (r : Option Error) (h : nw.Wait.2 = some r) :
    nw.Wait.1.state = .Dead ∧ r = nw.Wait.1.reason := by
  unfold notifyWorker.Wait at h ⊢
  simp only at h ⊢
  split at h
  · rename_i hd
    exact ⟨hd, by simpa using h.symm⟩
  · simp at h

/-- C1: every run of a worker that ends (Wait returns) has appended to the
handler's record exactly one "setup", first, then only "handler" entries, then
exactly one "teardown", last, whatever the stimuli were. -/
theorem setup_first_teardown_last (h : notifyHandler) (stims : List Stim) (r : Option Error)
    (hw : (run (NewNotifyWorker h) stims).Wait.2 = some r) :
    ∃ k, (run (NewNotifyWorker h) stims).Wait.1.handler.actions =
      h.actions ++ "setup" :: (List.replicate k "handler" ++ ["teardown"]) := by
  have h0 : Shape h.actions (NewNotifyWorker h) := by simp [Shape, NewNotifyWorker]
  have h1 := Shape_task h.actions _ (Shape_run h.actions stims _ h0)
  have hd := (Wait_some _ r hw).1
  have hd1 : (run (NewNotifyWorker h) stims).task.state = .Dead := hd
  have e : (run (NewNotifyWorker h) stims).Wait.1 = (run (NewNotifyWorker h) stims).task := rfl
  rw [e]
  revert h1
  simp [Shape, hd1]

theorem setup_first_teardown_last_witness :
    (run (NewNotifyWorker (testHandler none none none .nil))
        [.TriggerChange, .Kill none]).Wait.2 = some none ∧
    ∃ k, (run (NewNotifyWorker (testHandler none none none .nil))
        [.TriggerChange, .Kill none]).Wait.1.handler.actions =
      [] ++ "setup" :: (List.replicate k "handler" ++ ["teardown"]) :=
  ⟨by decide,
   setup_first_teardown_last (testHandler none none none .nil) [.TriggerChange, .Kill none] none
    (by decide)⟩

/-! ### The death-reason race -/

theorem concrete_ofError (c : Option Error) : (Reason.ofError c).concrete = c := by
  cases c <;> rfl

theorem firstConcrete_append (l : List Reason) (r : Reason) :
    firstConcrete (l ++ [r]) = commit (firstConcrete l) r.concrete := by
  induction l with
  | nil => cases h : r.concrete <;> simp [firstConcrete, commit, h]
  | cons a l ih =>
    cases ha : a.concrete <;> simp [firstConcrete, ha, ih, commit]

theorem commit_some (e : Error) (c : Option Error) : commit (some e) c = some e := rfl

theorem commit_none (c : Option Error) : commit none c = c := rfl

theorem commit_nil (r : Option Error) : commit r none = r := by
  cases r <;> rfl

/-- Offering one more candidate keeps `RaceCore`, provided a failed React is only
offered while nothing is recorded. -/
theorem RaceCore_offer (nw nw1 : notifyWorker) (op : Op)
    (ht : nw1.trace = nw.trace ++ [op])
    (hr : nw1.reason = commit nw.reason (candidate op).concrete)
    (hre : ∀ e, op = .React (some e) → nw.reason = none)
    (h : RaceCore nw) : RaceCore nw1 := by
  obtain ⟨h1, h3⟩ := h
  refine ⟨?_, ?_⟩
  · rw [hr, ht]; simp [firstConcrete_append, h1]
  · intro e he
    rw [ht] at he
    simp only [List.mem_append, List.mem_singleton] at he
    rw [hr]
    rcases he with he | he
    · simp [h3 e he, commit_some]
    · have := hre e he.symm
      simp [this, commit_none, ← he, candidate, concrete_ofError]

theorem RaceCore_same (nw nw1 : notifyWorker)
    (ht : nw1.trace = nw.trace) (hr : nw1.reason = nw.reason)
    (h : RaceCore nw) : RaceCore nw1 := by
  unfold RaceCore at *
  rw [ht, hr]; exact h

theorem RaceCore_stopWatcher (nw : notifyWorker) (h : RaceCore nw) :
    RaceCore nw.stopWatcher := by
  unfold notifyWorker.stopWatcher
  split
  · exact h
  · rename_i w hw
    exact RaceCore_offer nw _ (.WatcherStop w.Stop.2) rfl rfl (by intro e he; cases he) h

theorem RaceCore_release (nw : notifyWorker) (h : RaceCore nw) :
    RaceCore nw.release := by
  exact RaceCore_offer nw _ (.Release nw.handler.TearDown.2) rfl
    (by simp [notifyWorker.release, candidate, concrete_ofError])
    (by intro e he; cases he) h

theorem RaceCore_terminate (nw : notifyWorker) (h : RaceCore nw) :
    RaceCore nw.terminate := by
  unfold notifyWorker.terminate
  have h1 : RaceCore { nw with state := .Dying } := RaceCore_same nw _ rfl rfl h
  exact RaceCore_same _ _ rfl rfl (RaceCore_release _ (RaceCore_stopWatcher _ h1))

theorem Race_terminate (nw : notifyWorker) (h : RaceCore nw) : Race nw.terminate :=
  ⟨RaceCore_terminate nw h, by simp [terminate_state]⟩

theorem Race_Kill (nw : notifyWorker) (c : Option Error) (h : Race nw) :
    Race (nw.Kill c) := by
  unfold notifyWorker.Kill
  split
  · exact h
  · split
    · exact h
    · refine ⟨RaceCore_offer nw _ (.Kill c) rfl ?_ (by intro e he; cases he) h.1, ?_⟩
      · simp [candidate, concrete_ofError]
      · simp

theorem Race_acquire (nw : notifyWorker) (h : Race nw) : Race nw.acquire := by
  unfold notifyWorker.acquire notifyHandler.SetUp
  cases hw : nw.handler.watcher <;> cases he : nw.handler.setupError <;> simp only [] <;>
    refine ⟨RaceCore_offer nw _ (.Acquire nw.handler.setupError) (by simp [he]) ?_
      (by intro e he; cases he) h.1, ?_⟩ <;>
    simp [candidate, concrete_ofError, he, commit_nil] <;> exact h.2

theorem Race_react (nw : notifyWorker) (ha : nw.state = .Alive) (h : Race nw) :
    Race nw.react := by
  have hn := h.2 ha
  unfold notifyWorker.react
  cases he : nw.handler.Handle.2
  · simp only [he]
    refine ⟨RaceCore_offer nw _ (.React none) rfl ?_ (by intro e he; cases he) h.1, ?_⟩
    · simp [candidate, Reason.ofError, Reason.concrete, commit_nil]
    · intro _; exact hn
  · rename_i e
    simp only [he]
    apply Race_terminate
    exact RaceCore_offer nw _ (.React (some e)) rfl
      (by simp [candidate, concrete_ofError]) (by intro _ _; exact hn) h.1

theorem Race_closed (nw : notifyWorker) (w : testNotifyWatcher) (h : Race nw) :
    Race (nw.closed w) := by
  unfold notifyWorker.closed
  split
  · rename_i msg hm
    refine ⟨RaceCore_offer nw _ (.Classify w.Err (.fault msg)) rfl ?_
      (by intro e he; cases he) h.1, h.2⟩
    simp [candidate, Reason.concrete, commit_nil]
  · rename_i v hv
    apply Race_terminate
    exact RaceCore_offer nw _ (.Classify w.Err (.ok v)) rfl rfl (by intro e he; cases he) h.1

theorem Race_task (nw : notifyWorker) (h : Race nw) : Race nw.task := by
  unfold notifyWorker.task
  split
  · exact h
  · split
    · exact h
    · have key : ∀ nw1 : notifyWorker, Race nw1 →
          Race (match nw1.state with
            | .Dead => nw1
            | .Dying => nw1.terminate
            | .Alive =>
              match nw1.handler.watcher with
              | none => nw1
              | some w => if w.Changes.closed then nw1.closed w else nw1) := by
        intro nw1 h1
        split
        · exact h1
        · exact Race_terminate _ h1.1
        · split
          · exact h1
          · split
            · exact Race_closed nw1 _ h1
            · exact h1
      cases hs : nw.started
      · simpa using key nw.acquire (Race_acquire nw h)
      · simpa using key nw h

theorem selecting_Alive (nw : notifyWorker) (h : nw.selecting = true) :
    nw.fault = none ∧ nw.started = true ∧ nw.state = .Alive ∧
      ∃ w, nw.handler.watcher = some w ∧ w.changes.closed = false := by
  unfold notifyWorker.selecting at h
  cases hw : nw.handler.watcher <;>
    simp_all [testNotifyWatcher.Changes]

theorem Race_TriggerChange (nw : notifyWorker) (h : Race nw) : Race nw.TriggerChange := by
  have ht := Race_task nw h
  unfold notifyWorker.TriggerChange
  simp only
  split
  · rename_i hsel
    exact Race_react _ (selecting_Alive _ hsel).2.2.1 ht
  · exact ht

theorem Race_step (nw : notifyWorker) (s : Stim) (h : Race nw) : Race (step nw s) := by
  cases s with
  | Kill c => exact Race_Kill nw c h
  | Stop => exact Race_task _ (Race_Kill nw none h)
  | Wait => exact Race_task nw h
  | Yield => exact Race_task nw h
  | TriggerChange => exact Race_TriggerChange nw h
  | WatcherStop =>
    simp only [step, notifyWorker.watcherStop]
    split
    · exact h
    · exact ⟨RaceCore_same nw _ rfl rfl h.1, h.2⟩
  | SetStopError err =>
    simp only [step, notifyWorker.watcherSetStopError]
    split
    · exact h
    · exact ⟨RaceCore_same nw _ rfl rfl h.1, h.2⟩
  | SetClosedHandler cl => exact ⟨RaceCore_same nw _ rfl rfl h.1, h.2⟩

theorem Race_run (stims : List Stim) :
    ∀ nw : notifyWorker, Race nw → Race (run nw stims) := by
  induction stims with
  | nil => intro nw h; exact h
  | cons s rest ih => intro nw h; exact ih _ (Race_step nw s h)

theorem Race_New (h : notifyHandler) : Race (NewNotifyWorker h) := by
  simp [Race, RaceCore, NewNotifyWorker, firstConcrete]

theorem firstConcrete_skip (pre post : List Reason) (e : Error)
    (hpre : ∀ c ∈ pre, c.concrete = none) :
    firstConcrete (pre ++ Reason.err e :: post) = some e := by
  induction pre with
  | nil => simp [firstConcrete, Reason.concrete]
  | cons a pre ih =>
    have ha : a.concrete = none := hpre a (by simp)
    simp only [List.cons_append, firstConcrete, ha]
    exact ih (fun c hc => hpre c (by simp [hc]))

/-- C2 (amended): when Wait returns, its value is the first concrete error among
the candidates offered to the race, in order of occurrence: nil and the
not-yet-finalized sentinel never win.  In particular a failed React is the value
whatever Release returns later, and candidates that carry no concrete error (a
nil Kill, say) do not keep a later concrete error from being recorded. -/
theorem first_concrete_candidate_wins (h : notifyHandler) (stims : List Stim)
    (r : Option Error) (hw : (run (NewNotifyWorker h) stims).Wait.2 = some r) :
    r = firstConcrete ((run (NewNotifyWorker h) stims).Wait.1.trace.map candidate) ∧
    (∀ e1, Op.React (some e1) ∈ (run (NewNotifyWorker h) stims).Wait.1.trace → r = some e1) ∧
    (∀ pre post e,
      (run (NewNotifyWorker h) stims).Wait.1.trace.map candidate = pre ++ Reason.err e :: post →
      (∀ c ∈ pre, c.concrete = none) → r = some e) := by
  have hR : Race (run (NewNotifyWorker h) stims).Wait.1 :=
    Race_task _ (Race_run stims _ (Race_New h))
  have hr := (Wait_some _ r hw).2
  refine ⟨?_, ?_, ?_⟩
  · rw [hr]; exact hR.1.1
  · intro e1 he; rw [hr]; exact hR.1.2 e1 he
  · intro pre post e ht hpre
    rw [hr, hR.1.1, ht]
    exact firstConcrete_skip pre post e hpre

theorem first_concrete_candidate_wins_witness :
    (run (NewNotifyWorker (testHandler none (some ⟨"failed to tear down watcher"⟩)
        (some ⟨"my handling error"⟩) .nil)) [.TriggerChange]).Wait.2 =
      some (some ⟨"my handling error"⟩) ∧
    (some ⟨"my handling error"⟩ : Option Error) =
      firstConcrete ((run (NewNotifyWorker (testHandler none
        (some ⟨"failed to tear down watcher"⟩) (some ⟨"my handling error"⟩) .nil))
        [.TriggerChange]).Wait.1.trace.map candidate) :=
  ⟨by decide,
   (first_concrete_candidate_wins (testHandler none (some ⟨"failed to tear down watcher"⟩)
      (some ⟨"my handling error"⟩) .nil) [.TriggerChange] (some ⟨"my handling error"⟩)
      (by decide)).1⟩

/-- C2 as stated fails: in the run of `TestErrorsOnStillAliveButClosedChannel` the
first non-nil candidate is the sentinel `tomb.ErrStillAlive`, offered by the
classifier, yet Wait returns nil. -/
theorem first_non_nil_does_not_win :
    (run (NewNotifyWorker (testHandler none none none .nil))
        [.SetClosedHandler triggeredHandler, .SetStopError .ErrStillAlive,
         .WatcherStop]).Wait.2 = some none ∧
    (run (NewNotifyWorker (testHandler none none none .nil))
        [.SetClosedHandler triggeredHandler, .SetStopError .ErrStillAlive,
         .WatcherStop]).Wait.1.trace.map candidate =
      [.nil, .ErrStillAlive, .ErrStillAlive, .nil] ∧
    firstNonNil [.nil, .ErrStillAlive, .ErrStillAlive, .nil] = .ErrStillAlive ∧
    Reason.ofError none ≠ .ErrStillAlive := by
  decide

/-! ### Events delivered without error -/

theorem Looping_start (h : notifyHandler) (w : testNotifyWatcher)
    (hs : h.setupError = none) (hw : h.watcher = some w) (hc : w.changes.closed = false) :
    Looping h w 0 (NewNotifyWorker h).task := by
  simp [Looping, NewNotifyWorker, notifyWorker.task, notifyWorker.acquire, notifyHandler.SetUp,
    hs, hw, hc, testNotifyWatcher.Changes]

theorem Looping_task (h : notifyHandler) (w : testNotifyWatcher) (k : Nat) (nw : notifyWorker)
    (hl : Looping h w k nw) : nw.task = nw := by
  obtain ⟨h1, h2, h3, h4, h5, h6, h7, h8, h9, h10⟩ := hl
  simp [notifyWorker.task, h1, h3, h4, h9, h10, testNotifyWatcher.Changes]

theorem Looping_selecting (h : notifyHandler) (w : testNotifyWatcher) (k : Nat)
    (nw : notifyWorker) (hl : Looping h w k nw) : nw.selecting = true := by
  obtain ⟨h1, h2, h3, h4, h5, h6, h7, h8, h9, h10⟩ := hl
  simp [notifyWorker.selecting, h1, h3, h4, h9, h10, testNotifyWatcher.Changes]

theorem Looping_react (h : notifyHandler) (w : testNotifyWatcher) (k : Nat) (nw : notifyWorker)
    (hh : h.handlerError = none) (hl : Looping h w k nw) : Looping h w (k + 1) nw.react := by
  obtain ⟨h1, h2, h3, h4, h5, h6, h7, h8, h9, h10⟩ := hl
  rw [hh] at h8
  unfold notifyWorker.react notifyHandler.Handle
  cases hd : nw.handler.handled <;>
    simp [Looping, hd, h1, h2, h3, h4, h5, h6, h7, h8, h9, h10, hh, List.replicate_succ']

theorem Looping_TriggerChange (h : notifyHandler) (w : testNotifyWatcher) (k : Nat)
    (nw : notifyWorker) (hh : h.handlerError = none) (hl : Looping h w k nw) :
    Looping h w (k + 1) nw.TriggerChange := by
  unfold notifyWorker.TriggerChange
  simp only [Looping_task h w k nw hl, Looping_selecting h w k nw hl, if_true]
  exact Looping_react h w k nw hh hl

theorem Looping_run (h : notifyHandler) (w : testNotifyWatcher)
    (hh : h.handlerError = none) (n : Nat) :
    ∀ (k : Nat) (nw : notifyWorker), Looping h w k nw →
      Looping h w (k + n) (run nw (List.replicate n .TriggerChange)) := by
  induction n with
  | zero => intro k nw hl; simpa [run] using hl
  | succ n ih =>
    intro k nw hl
    have := ih (k + 1) _ (Looping_TriggerChange h w k nw hh hl)
    simpa [run, List.replicate_succ, Nat.add_assoc, Nat.add_comm 1 n] using this

theorem Looping_Stop (h : notifyHandler) (w : testNotifyWatcher) (k : Nat) (nw : notifyWorker)
    (hl : Looping h w k nw) :
    nw.Stop.2 = some (commit w.stopError.concrete h.teardownError) ∧
    nw.Stop.1.handler.actions =
      h.actions ++ "setup" :: (List.replicate k "handler" ++ ["teardown"]) := by
  obtain ⟨h1, h2, h3, h4, h5, h6, h7, h8, h9, h10⟩ := hl
  unfold notifyWorker.Stop notifyWorker.Wait notifyWorker.Kill notifyWorker.task
  cases hd : nw.handler.handled <;> cases hst : w.stopped <;>
    simp [h1, h2, h3, h4, h5, h7, h9, hd, hst, notifyWorker.terminate, notifyWorker.release,
      notifyWorker.stopWatcher, notifyHandler.TearDown, testNotifyWatcher.Stop, commit_none]

theorem New_Stop (h : notifyHandler) (w : testNotifyWatcher)
    (hs : h.setupError = none) (hw : h.watcher = some w) :
    (NewNotifyWorker h).Stop.2 = some (commit w.stopError.concrete h.teardownError) ∧
    (NewNotifyWorker h).Stop.1.handler.actions = h.actions ++ ["setup", "teardown"] := by
  unfold notifyWorker.Stop notifyWorker.Wait notifyWorker.Kill notifyWorker.task
  cases hd : h.handled <;> cases hst : w.stopped <;>
    simp [NewNotifyWorker, notifyWorker.acquire, notifyHandler.SetUp, hs, hw, hd, hst,
      notifyWorker.terminate, notifyWorker.release,
      notifyWorker.stopWatcher, notifyHandler.TearDown, testNotifyWatcher.Stop, commit_none]

theorem run_append (nw : notifyWorker) (a b : List Stim) :
    run nw (a ++ b) = run (run nw a) b := by
  simp [run, List.foldl_append]

theorem run_replicate_TriggerChange (h : notifyHandler) (w : testNotifyWatcher)
    (hs : h.setupError = none) (hh : h.handlerError = none)
    (hw : h.watcher = some w) (hc : w.changes.closed = false) (n : Nat) :
    Looping h w (n + 1) (run (NewNotifyWorker h) (List.replicate (n + 1) .TriggerChange)) := by
  have h0 := Looping_start h w hs hw hc
  have h1 : Looping h w 1 (NewNotifyWorker h).TriggerChange := by
    unfold notifyWorker.TriggerChange
    simp only [Looping_selecting h w 0 _ h0, if_true]
    exact Looping_react h w 0 _ hh h0
  have := Looping_run h w hh n 1 _ h1
  simpa [run, List.replicate_succ, Nat.add_comm 1 n] using this

/-- C3: for every N, when the watcher delivers N events and neither the handler
nor the watcher reports an error, Stop returns nil and the handler's record is
setup, N times handler, teardown; after the first n of the events the record is
setup followed by n times handler, so Handle runs once per event, in order. -/
theorem changes_trigger_handler (h : notifyHandler) (w : testNotifyWatcher) (N : Nat)
    (hs : h.setupError = none) (hh : h.handlerError = none) (ht : h.teardownError = none)
    (hw : h.watcher = some w) (hc : w.changes.closed = false)
    (he : w.stopError.concrete = none) :
    (run (NewNotifyWorker h) (List.replicate N .TriggerChange)).Stop.2 = some none ∧
    (run (NewNotifyWorker h) (List.replicate N .TriggerChange)).Stop.1.handler.actions =
      h.actions ++ "setup" :: (List.replicate N "handler" ++ ["teardown"]) ∧
    (∀ n,
      (run (NewNotifyWorker h) (List.replicate n .TriggerChange ++ [.Yield])).handler.actions =
        h.actions ++ "setup" :: List.replicate n "handler") := by
  refine ⟨?_, ?_, ?_⟩
  · cases N with
    | zero =>
      have := (New_Stop h w hs hw).1
      simpa [run, he, ht, commit_none] using this
    | succ n =>
      have := (Looping_Stop h w (n + 1) _ (run_replicate_TriggerChange h w hs hh hw hc n)).1
      simpa [he, ht, commit_none] using this
  · cases N with
    | zero =>
      have := (New_Stop h w hs hw).2
      simpa [run] using this
    | succ n =>
      exact (Looping_Stop h w (n + 1) _ (run_replicate_TriggerChange h w hs hh hw hc n)).2
  · intro n
    rw [run_append]
    cases n with
    | zero =>
      have := Looping_start h w hs hw hc
      simpa [run, step] using this.2.2.2.2.1
    | succ n =>
      have hl := run_replicate_TriggerChange h w hs hh hw hc n
      have : run (run (NewNotifyWorker h) (List.replicate (n + 1) .TriggerChange)) [.Yield] =
          (run (NewNotifyWorker h) (List.replicate (n + 1) .TriggerChange)).task := rfl
      rw [this, Looping_task h w (n + 1) _ hl]
      exact hl.2.2.2.2.1

theorem changes_trigger_handler_witness :
    (testHandler none none none .nil).setupError = none ∧
    (testHandler none none none .nil).handlerError = none ∧
    (testHandler none none none .nil).teardownError = none ∧
    (run (NewNotifyWorker (testHandler none none none .nil))
      (List.replicate 3 .TriggerChange)).Stop.1.handler.actions =
      [] ++ "setup" :: (List.replicate 3 "handler" ++ ["teardown"]) :=
  ⟨rfl, rfl, rfl,
   (changes_trigger_handler (testHandler none none none .nil)
      { changes := Chan.make, stopped := false, stopError := .nil } 3 rfl rfl rfl rfl rfl rfl).2.1⟩

/-! ### The handler's configured errors, and finished runs -/

theorem cfg_TearDown (nh : notifyHandler) : nh.TearDown.1.cfg = nh.cfg := by
  unfold notifyHandler.TearDown
  cases hd : nh.handled <;> simp [notifyHandler.cfg]

theorem cfg_Handle (nh : notifyHandler) : nh.Handle.1.cfg = nh.cfg := by
  unfold notifyHandler.Handle
  cases hd : nh.handled <;> simp [notifyHandler.cfg]

theorem cfg_SetUp (nh : notifyHandler) : nh.SetUp.1.cfg = nh.cfg := by
  unfold notifyHandler.SetUp
  cases hd : nh.watcher <;> simp [notifyHandler.cfg]

theorem cfg_stopWatcher (nw : notifyWorker) : nw.stopWatcher.handler.cfg = nw.handler.cfg := by
  unfold notifyWorker.stopWatcher
  split <;> rfl

theorem cfg_terminate (nw : notifyWorker) : nw.terminate.handler.cfg = nw.handler.cfg := by
  have h1 : nw.terminate.handler =
      (notifyWorker.stopWatcher { nw with state := .Dying }).handler.TearDown.1 := rfl
  rw [h1, cfg_TearDown, cfg_stopWatcher]

theorem cfg_acquire (nw : notifyWorker) : nw.acquire.handler.cfg = nw.handler.cfg := by
  unfold notifyWorker.acquire notifyHandler.SetUp
  cases hw : nw.handler.watcher <;> cases he : nw.handler.setupError <;>
    simp [notifyHandler.cfg, he]

theorem cfg_closed (nw : notifyWorker) (w : testNotifyWatcher) :
    (nw.closed w).handler.cfg = nw.handler.cfg := by
  unfold notifyWorker.closed
  split
  · rfl
  · rw [cfg_terminate]

theorem cfg_react (nw : notifyWorker) : nw.react.handler.cfg = nw.handler.cfg := by
  unfold notifyWorker.react
  cases he : nw.handler.Handle.2
  · simp only [he]; exact cfg_Handle _
  · simp only [he]; rw [cfg_terminate]; exact cfg_Handle _

theorem cfg_task (nw : notifyWorker) : nw.task.handler.cfg = nw.handler.cfg := by
  unfold notifyWorker.task
  split
  · rfl
  · split
    · rfl
    · have key : ∀ nw1 : notifyWorker,
          (match nw1.state with
            | .Dead => nw1
            | .Dying => nw1.terminate
            | .Alive =>
              match nw1.handler.watcher with
              | none => nw1
              | some w => if w.Changes.closed then nw1.closed w else nw1).handler.cfg =
            nw1.handler.cfg := by
        intro nw1
        split
        · rfl
        · exact cfg_terminate _
        · split
          · rfl
          · split
            · exact cfg_closed _ _
            · rfl
      cases hs : nw.started
      · simpa [cfg_acquire] using key nw.acquire
      · simpa using key nw

theorem cfg_Kill (nw : notifyWorker) (c : Option Error) :
    (nw.Kill c).handler.cfg = nw.handler.cfg := by
  unfold notifyWorker.Kill
  split
  · rfl
  · split <;> rfl

theorem cfg_step (nw : notifyWorker) (s : Stim) : (step nw s).handler.cfg = nw.handler.cfg := by
  cases s with
  | Kill c => exact cfg_Kill nw c
  | Stop => exact (cfg_task _).trans (cfg_Kill nw none)
  | Wait => exact cfg_task nw
  | Yield => exact cfg_task nw
  | TriggerChange =>
    simp only [step, notifyWorker.TriggerChange]
    split
    · rw [cfg_react, cfg_task]
    · exact cfg_task nw
  | WatcherStop =>
    simp only [step, notifyWorker.watcherStop]
    split <;> rfl
  | SetStopError err =>
    simp only [step, notifyWorker.watcherSetStopError]
    split <;> rfl
  | SetClosedHandler cl => rfl

theorem cfg_run (stims : List Stim) :
    ∀ nw : notifyWorker, (run nw stims).handler.cfg = nw.handler.cfg := by
  induction stims with
  | nil => intro nw; rfl
  | cons s rest ih => intro nw; exact (ih _).trans (cfg_step nw s)

theorem Dead_task (nw : notifyWorker) (h : nw.state = .Dead) : nw.task = nw := by
  unfold notifyWorker.task
  split
  · rfl
  · simp [h]

theorem Dead_Kill (nw : notifyWorker) (c : Option Error) (h : nw.state = .Dead) :
    nw.Kill c = nw := by
  unfold notifyWorker.Kill
  split
  · rfl
  · simp [h]

theorem Dead_not_selecting (nw : notifyWorker) (h : nw.state = .Dead) :
    nw.selecting = false := by
  simp [notifyWorker.selecting, h]

theorem Finished_step (r : Option Error) (tr : List Op) (acts : List String)
    (nw : notifyWorker) (s : Stim) (h : Finished r tr acts nw) :
    Finished r tr acts (step nw s) := by
  have hd := h.1
  cases s with
  | Kill c => simpa [step, Dead_Kill nw c hd] using h
  | Stop => simpa [step, notifyWorker.Stop, notifyWorker.Wait, Dead_Kill nw none hd,
      Dead_task nw hd] using h
  | Wait => simpa [step, notifyWorker.Wait, Dead_task nw hd] using h
  | Yield => simpa [step, Dead_task nw hd] using h
  | TriggerChange =>
    simpa [step, notifyWorker.TriggerChange, Dead_task nw hd, Dead_not_selecting nw hd] using h
  | WatcherStop =>
    obtain ⟨h1, h2, h3, h4, h5⟩ := h
    simp only [step, notifyWorker.watcherStop]
    split
    · exact ⟨h1, h2, h3, h4, h5⟩
    · refine ⟨h1, h2, h3, h4, ?_⟩
      intro w1 hw1
      simp only [Option.some.injEq] at hw1
      rw [← hw1]
      simp [testNotifyWatcher.Stop]
  | SetStopError err =>
    obtain ⟨h1, h2, h3, h4, h5⟩ := h
    simp only [step, notifyWorker.watcherSetStopError]
    split
    · exact ⟨h1, h2, h3, h4, h5⟩
    · rename_i w hw
      refine ⟨h1, h2, h3, h4, ?_⟩
      intro w1 hw1
      simp only [Option.some.injEq] at hw1
      rw [← hw1]
      simpa [testNotifyWatcher.SetStopError] using h5 w hw
  | SetClosedHandler cl => exact h

theorem Finished_run (r : Option Error) (tr : List Op) (acts : List String)
    (stims : List Stim) :
    ∀ nw : notifyWorker, Finished r tr acts nw → Finished r tr acts (run nw stims) := by
  induction stims with
  | nil => intro nw h; exact h
  | cons s rest ih => intro nw h; exact ih _ (Finished_step r tr acts nw s h)

theorem Finished_Wait (r : Option Error) (tr : List Op) (acts : List String)
    (nw : notifyWorker) (h : Finished r tr acts nw) :
    nw.Wait.2 = some r ∧ Finished r tr acts nw.Wait.1 := by
  have hd := h.1
  simp only [notifyWorker.Wait, Dead_task nw hd, hd]
  exact ⟨by rw [h.2.1], h⟩

/-- What the termination sequence leaves behind. -/
theorem Finished_terminate (nw : notifyWorker) :
    ∃ r, Finished (commit (commit nw.reason r.concrete) nw.handler.teardownError)
      (nw.trace ++ (match nw.handler.watcher with
                    | some _ => [Op.WatcherStop r]
                    | none => []) ++ [Op.Release nw.handler.teardownError])
      (nw.handler.actions ++ ["teardown"]) nw.terminate ∧
      (∀ w, nw.handler.watcher = some w → r = w.stopError) := by
  unfold notifyWorker.terminate notifyWorker.release notifyWorker.stopWatcher
    notifyHandler.TearDown
  cases hw : nw.handler.watcher with
  | none =>
    refine ⟨.nil, ?_, by simp⟩
    cases hd : nw.handler.handled <;>
      simp [Finished, hw, hd, Reason.concrete, commit_nil]
  | some w =>
    refine ⟨w.stopError, ?_, by simp⟩
    cases hd : nw.handler.handled <;> cases hs : w.stopped <;>
      simp [Finished, hw, hd, hs, testNotifyWatcher.Stop]

/-! ### A failing React -/

theorem Fresh_of_not_Alive (A0 : List String) (nw : notifyWorker) (h : nw.state ≠ .Alive) :
    Fresh A0 nw := by
  intro ha; exact absurd ha h

theorem Fresh_Kill (A0 : List String) (nw : notifyWorker) (c : Option Error)
    (h : Fresh A0 nw) : Fresh A0 (nw.Kill c) := by
  unfold notifyWorker.Kill
  split
  · exact h
  · split
    · exact h
    · exact Fresh_of_not_Alive _ _ (by simp)

theorem Fresh_acquire (A0 : List String) (nw : notifyWorker) (hs : nw.started = false)
    (hf : nw.fault = none) (h : Fresh A0 nw) : Fresh A0 nw.acquire := by
  unfold notifyWorker.acquire notifyHandler.SetUp
  cases hst : nw.state
  · have h1 := (h hst hf).1 hs
    cases hw : nw.handler.watcher <;> cases he : nw.handler.setupError <;>
      simp [Fresh, hst, h1.1, h1.2, he]
  · cases hw : nw.handler.watcher <;> cases he : nw.handler.setupError <;>
      simp [Fresh, hst, he]
  · cases hw : nw.handler.watcher <;> cases he : nw.handler.setupError <;>
      simp [Fresh, hst, he]

theorem closed_not_Fresh_state (nw : notifyWorker) (w : testNotifyWatcher) :
    (nw.closed w).state = .Dead ∨ (nw.closed w).fault ≠ none := by
  unfold notifyWorker.closed
  split
  · right; simp
  · left; exact terminate_state _

theorem Fresh_task (A0 : List String) (nw : notifyWorker) (h : Fresh A0 nw) :
    Fresh A0 nw.task := by
  unfold notifyWorker.task
  split
  · exact h
  · rename_i hf
    have hf1 : nw.fault = none := by simpa using hf
    split
    · exact h
    · have key : ∀ nw1 : notifyWorker, Fresh A0 nw1 →
          Fresh A0 (match nw1.state with
            | .Dead => nw1
            | .Dying => nw1.terminate
            | .Alive =>
              match nw1.handler.watcher with
              | none => nw1
              | some w => if w.Changes.closed then nw1.closed w else nw1) := by
        intro nw1 h1
        split
        · exact h1
        · exact Fresh_of_not_Alive _ _ (by simp [terminate_state])
        · split
          · exact h1
          · split
            · rcases closed_not_Fresh_state nw1 ‹_› with hc | hc
              · exact Fresh_of_not_Alive _ _ (by simp [hc])
              · intro _ hf2; exact absurd hf2 hc
            · exact h1
      cases hs : nw.started
      · simpa using key nw.acquire (Fresh_acquire A0 nw hs hf1 h)
      · simpa using key nw h

theorem react_failed (nw : notifyWorker) (e : Error) (he : nw.handler.handlerError = some e) :
    nw.react = notifyWorker.terminate
      { nw with handler := nw.handler.Handle.1, trace := nw.trace ++ [.React (some e)],
                reason := commit nw.reason (some e) } := by
  unfold notifyWorker.react notifyHandler.Handle
  cases hd : nw.handler.handled <;> simp [he, hd]

theorem Fresh_TriggerChange (A0 : List String) (nw : notifyWorker)
    (hh : nw.handler.handlerError ≠ none) (h : Fresh A0 nw) : Fresh A0 nw.TriggerChange := by
  have ht := Fresh_task A0 nw h
  unfold notifyWorker.TriggerChange
  simp only
  split
  · obtain ⟨e, he⟩ := Option.ne_none_iff_exists'.mp hh
    have he1 : nw.task.handler.handlerError = some e := by
      have := cfg_task nw
      simp only [notifyHandler.cfg, Prod.mk.injEq] at this
      rw [this.2.2, he]
    rw [react_failed _ e he1]
    exact Fresh_of_not_Alive _ _ (by simp [terminate_state])
  · exact ht

theorem Fresh_step (A0 : List String) (nw : notifyWorker) (s : Stim)
    (hh : nw.handler.handlerError ≠ none) (h : Fresh A0 nw) : Fresh A0 (step nw s) := by
  cases s with
  | Kill c => exact Fresh_Kill A0 nw c h
  | Stop => exact Fresh_task A0 _ (Fresh_Kill A0 nw none h)
  | Wait => exact Fresh_task A0 nw h
  | Yield => exact Fresh_task A0 nw h
  | TriggerChange => exact Fresh_TriggerChange A0 nw hh h
  | WatcherStop =>
    simp only [step, notifyWorker.watcherStop]
    split
    · exact h
    · exact h
  | SetStopError err =>
    simp only [step, notifyWorker.watcherSetStopError]
    split
    · exact h
    · exact h
  | SetClosedHandler cl => exact h

theorem handlerError_step (nw : notifyWorker) (s : Stim) :
    (step nw s).handler.handlerError = nw.handler.handlerError := by
  have := cfg_step nw s
  simp only [notifyHandler.cfg, Prod.mk.injEq] at this
  exact this.2.2

theorem Fresh_run (A0 : List String) (stims : List Stim) :
    ∀ nw : notifyWorker, nw.handler.handlerError ≠ none → Fresh A0 nw →
      Fresh A0 (run nw stims) := by
  induction stims with
  | nil => intro nw _ h; exact h
  | cons s rest ih =>
    intro nw hh h
    exact ih _ (by rw [handlerError_step]; exact hh) (Fresh_step A0 nw s hh h)

/-- C4: if React returns a non-nil error e on a delivered event, the run ends
there: whatever the test did before and does afterwards, Wait returns exactly e,
the trace is Acquire, the failed React, the watcher's Stop, Release (one React,
the watcher stopped before the one Release), the handler's record is setup,
handler, teardown, and the watcher is stopped. -/
theorem handle_error_stops_worker (h : notifyHandler) (e : Error) (pre post : List Stim)
    (hh : h.handlerError = some e)
    (hsel : (run (NewNotifyWorker h) pre).task.selecting = true) :
    (run (NewNotifyWorker h) (pre ++ .TriggerChange :: post)).Wait.2 = some (some e) ∧
    (∃ r, (run (NewNotifyWorker h) (pre ++ .TriggerChange :: post)).Wait.1.trace =
      [.Acquire none, .React (some e), .WatcherStop r, .Release h.teardownError]) ∧
    (run (NewNotifyWorker h) (pre ++ .TriggerChange :: post)).Wait.1.handler.actions =
      h.actions ++ ["setup", "handler", "teardown"] ∧
    (∀ w, (run (NewNotifyWorker h) (pre ++ .TriggerChange :: post)).Wait.1.handler.watcher =
      some w → w.stopped = true) := by
  obtain ⟨hf, hst, ha, w, hw, _⟩ := selecting_Alive _ hsel
  have hcfg : (run (NewNotifyWorker h) pre).task.handler.cfg = h.cfg :=
    (cfg_task _).trans (cfg_run pre _)
  simp only [notifyHandler.cfg, Prod.mk.injEq] at hcfg
  have hfresh : Fresh h.actions (run (NewNotifyWorker h) pre).task :=
    Fresh_task _ _ (Fresh_run h.actions pre _ (by simp [NewNotifyWorker, hh])
      (by simp [Fresh, NewNotifyWorker]))
  have hrace : Race (run (NewNotifyWorker h) pre).task :=
    Race_task _ (Race_run pre _ (Race_New h))
  have hn := hrace.2 ha
  obtain ⟨hacts, htr⟩ := (hfresh ha hf).2 hst
  have hstep : run (NewNotifyWorker h) (pre ++ .TriggerChange :: post) =
      run (run (NewNotifyWorker h) pre).task.react post := by
    rw [run_append]
    have h1 : step (run (NewNotifyWorker h) pre) .TriggerChange =
        (run (NewNotifyWorker h) pre).task.react := by
      simp [step, notifyWorker.TriggerChange, hsel]
    show run (step (run (NewNotifyWorker h) pre) .TriggerChange) post = _
    rw [h1]
  have he1 : (run (NewNotifyWorker h) pre).task.handler.handlerError = some e := by
    rw [hcfg.2.2, hh]
  obtain ⟨r, hfin, _⟩ := Finished_terminate
    { (run (NewNotifyWorker h) pre).task with
        handler := (run (NewNotifyWorker h) pre).task.handler.Handle.1,
        trace := (run (NewNotifyWorker h) pre).task.trace ++ [.React (some e)],
        reason := commit (run (NewNotifyWorker h) pre).task.reason (some e) }
  rw [← react_failed _ e he1] at hfin
  have hHw : (run (NewNotifyWorker h) pre).task.handler.Handle.1.watcher = some w := by
    unfold notifyHandler.Handle
    cases hd : (run (NewNotifyWorker h) pre).task.handler.handled <;> simp [hd, hw]
  have hHa : (run (NewNotifyWorker h) pre).task.handler.Handle.1.actions =
      h.actions ++ ["setup", "handler"] := by
    unfold notifyHandler.Handle
    cases hd : (run (NewNotifyWorker h) pre).task.handler.handled <;> simp [hd, hacts]
  have hHt : (run (NewNotifyWorker h) pre).task.handler.Handle.1.teardownError =
      h.teardownError := by
    have := cfg_Handle (run (NewNotifyWorker h) pre).task.handler
    simp only [notifyHandler.cfg, Prod.mk.injEq] at this
    rw [this.2.1, hcfg.2.1]
  simp only [hHw, hHa, hHt, hn, htr, commit_none, commit_some] at hfin
  have hfin2 := Finished_Wait _ _ _ _ (Finished_run _ _ _ post _ hfin)
  rw [← hstep] at hfin2
  obtain ⟨hw1, _, _, htr1, hact1, hstop1⟩ := hfin2
  exact ⟨hw1, ⟨r, by simpa using htr1⟩, by simpa using hact1, hstop1⟩

theorem handle_error_stops_worker_witness :
    (testHandler none none (some ⟨"my handling error"⟩) .nil).handlerError =
      some ⟨"my handling error"⟩ ∧
    (run (NewNotifyWorker (testHandler none none (some ⟨"my handling error"⟩) .nil))
      []).task.selecting = true ∧
    (run (NewNotifyWorker (testHandler none none (some ⟨"my handling error"⟩) .nil))
      ([] ++ .TriggerChange :: [])).Wait.2 = some (some ⟨"my handling error"⟩) :=
  ⟨rfl, by decide,
   (handle_error_stops_worker (testHandler none none (some ⟨"my handling error"⟩) .nil)
      ⟨"my handling error"⟩ [] [] rfl (by decide)).1⟩

/-! ### The default classifier -/

theorem closedHandler_terminate (nw : notifyWorker) :
    nw.terminate.closedHandler = nw.closedHandler := by
  unfold notifyWorker.terminate notifyWorker.release notifyWorker.stopWatcher
  cases hw : nw.handler.watcher <;> simp

theorem closedHandler_acquire (nw : notifyWorker) :
    nw.acquire.closedHandler = nw.closedHandler := by
  unfold notifyWorker.acquire notifyHandler.SetUp
  cases hw : nw.handler.watcher <;> cases he : nw.handler.setupError <;> simp [he]

theorem closedHandler_closed (nw : notifyWorker) (w : testNotifyWatcher) :
    (nw.closed w).closedHandler = nw.closedHandler := by
  unfold notifyWorker.closed
  split
  · rfl
  · rw [closedHandler_terminate]

theorem closedHandler_react (nw : notifyWorker) :
    nw.react.closedHandler = nw.closedHandler := by
  unfold notifyWorker.react
  cases he : nw.handler.Handle.2
  · simp only [he]
  · simp only [he]; rw [closedHandler_terminate]

theorem closedHandler_task (nw : notifyWorker) :
    nw.task.closedHandler = nw.closedHandler := by
  unfold notifyWorker.task
  split
  · rfl
  · split
    · rfl
    · have key : ∀ nw1 : notifyWorker,
          (match nw1.state with
            | .Dead => nw1
            | .Dying => nw1.terminate
            | .Alive =>
              match nw1.handler.watcher with
              | none => nw1
              | some w => if w.Changes.closed then nw1.closed w else nw1).closedHandler =
            nw1.closedHandler := by
        intro nw1
        split
        · rfl
        · exact closedHandler_terminate _
        · split
          · rfl
          · split
            · exact closedHandler_closed _ _
            · rfl
      cases hs : nw.started
      · simpa [closedHandler_acquire] using key nw.acquire
      · simpa using key nw

theorem closedHandler_Kill (nw : notifyWorker) (c : Option Error) :
    (nw.Kill c).closedHandler = nw.closedHandler := by
  unfold notifyWorker.Kill
  split
  · rfl
  · split <;> rfl

theorem closedHandler_step (nw : notifyWorker) (s : Stim)
    (hs : ∀ cl, s ≠ .SetClosedHandler cl) :
    (step nw s).closedHandler = nw.closedHandler := by
  cases s with
  | Kill c => exact closedHandler_Kill nw c
  | Stop => exact (closedHandler_task _).trans (closedHandler_Kill nw none)
  | Wait => exact closedHandler_task nw
  | Yield => exact closedHandler_task nw
  | TriggerChange =>
    simp only [step, notifyWorker.TriggerChange]
    split
    · rw [closedHandler_react, closedHandler_task]
    · exact closedHandler_task nw
  | WatcherStop =>
    simp only [step, notifyWorker.watcherStop]
    split <;> rfl
  | SetStopError err =>
    simp only [step, notifyWorker.watcherSetStopError]
    split <;> rfl
  | SetClosedHandler cl => exact absurd rfl (hs cl)

theorem closedHandler_run (stims : List Stim) :
    ∀ nw : notifyWorker, (∀ cl, Stim.SetClosedHandler cl ∉ stims) →
      (run nw stims).closedHandler = nw.closedHandler := by
  induction stims with
  | nil => intro nw _; rfl
  | cons s rest ih =>
    intro nw hs
    have h1 : ∀ cl, s ≠ .SetClosedHandler cl := by
      intro cl hc; exact hs cl (by simp [hc])
    have h2 : ∀ cl, Stim.SetClosedHandler cl ∉ rest := by
      intro cl hc; exact hs cl (by simp [hc])
    exact (ih _ h2).trans (closedHandler_step nw s h1)

/-- C5: the default classifier, the one `SetClosedHandler` hands back as the
previous one as long as no other has been installed, raises the fault "watcher
was stopped cleanly" on a nil reason, raises the fault "watcher is still running"
on `tomb.ErrStillAlive`, and returns every other error unchanged, without a
fault. -/
theorem default_closed_handler (h : notifyHandler) (stims : List Stim)
    (hs : ∀ cl, Stim.SetClosedHandler cl ∉ stims) :
    ((run (NewNotifyWorker h) stims).SetClosedHandler noopHandler).2
        (CannedErrer.mk .nil).Err = .fault "watcher was stopped cleanly" ∧
    ((run (NewNotifyWorker h) stims).SetClosedHandler noopHandler).2
        (CannedErrer.mk .ErrStillAlive).Err = .fault "watcher is still running" ∧
    (∀ e : Error,
      ((run (NewNotifyWorker h) stims).SetClosedHandler noopHandler).2
        (CannedErrer.mk (.err e)).Err = .ok (.err e)) := by
  have hcl : ((run (NewNotifyWorker h) stims).SetClosedHandler noopHandler).2 = MustErr :=
    closedHandler_run stims _ hs
  rw [hcl]
  exact ⟨rfl, rfl, fun _ => rfl⟩

theorem default_closed_handler_witness :
    (∀ cl, Stim.SetClosedHandler cl ∉ [Stim.Yield]) ∧
    ((run (NewNotifyWorker (testHandler none none none .nil)) [.Yield]).SetClosedHandler
        noopHandler).2 (CannedErrer.mk .nil).Err = .fault "watcher was stopped cleanly" :=
  ⟨by simp,
   (default_closed_handler (testHandler none none none .nil) [.Yield] (by simp)).1⟩

/-! ### An unrequested closure of the channel -/

theorem Events_of_not_Alive (A0 : List String) (nw : notifyWorker) (h : nw.state ≠ .Alive) :
    Events A0 nw := by
  intro ha; exact absurd ha h

theorem Events_Kill (A0 : List String) (nw : notifyWorker) (c : Option Error)
    (h : Events A0 nw) : Events A0 (nw.Kill c) := by
  unfold notifyWorker.Kill
  split
  · exact h
  · split
    · exact h
    · exact Events_of_not_Alive _ _ (by simp)

theorem Events_acquire (A0 : List String) (nw : notifyWorker) (hs : nw.started = false)
    (hf : nw.fault = none) (h : Events A0 nw) : Events A0 nw.acquire := by
  unfold notifyWorker.acquire notifyHandler.SetUp
  cases hst : nw.state
  · have h1 := (h hst hf).1 hs
    cases hw : nw.handler.watcher <;> cases he : nw.handler.setupError <;>
      simp [Events, hst, h1.1, h1.2, he]
  · cases hw : nw.handler.watcher <;> cases he : nw.handler.setupError <;>
      simp [Events, hst, he]
  · cases hw : nw.handler.watcher <;> cases he : nw.handler.setupError <;>
      simp [Events, hst, he]

theorem Events_task (A0 : List String) (nw : notifyWorker) (h : Events A0 nw) :
    Events A0 nw.task := by
  unfold notifyWorker.task
  split
  · exact h
  · rename_i hf
    have hf1 : nw.fault = none := by simpa using hf
    split
    · exact h
    · have key : ∀ nw1 : notifyWorker, Events A0 nw1 →
          Events A0 (match nw1.state with
            | .Dead => nw1
            | .Dying => nw1.terminate
            | .Alive =>
              match nw1.handler.watcher with
              | none => nw1
              | some w => if w.Changes.closed then nw1.closed w else nw1) := by
        intro nw1 h1
        split
        · exact h1
        · exact Events_of_not_Alive _ _ (by simp [terminate_state])
        · split
          · exact h1
          · split
            · rcases closed_not_Fresh_state nw1 ‹_› with hc | hc
              · exact Events_of_not_Alive _ _ (by simp [hc])
              · intro _ hf2; exact absurd hf2 hc
            · exact h1
      cases hs : nw.started
      · simpa using key nw.acquire (Events_acquire A0 nw hs hf1 h)
      · simpa using key nw h

theorem Events_react (A0 : List String) (nw : notifyWorker) (ha : nw.state = .Alive)
    (hf : nw.fault = none) (hs : nw.started = true) (h : Events A0 nw) :
    Events A0 nw.react := by
  obtain ⟨k, hk1, hk2⟩ := (h ha hf).2 hs
  unfold notifyWorker.react notifyHandler.Handle
  cases hd : nw.handler.handled <;> cases he : nw.handler.handlerError
  all_goals simp only [hd, he]
  · intro _ _
    refine ⟨by simp [hs], fun _ => ⟨k + 1, ?_, ?_⟩⟩
    · simp [hk1, List.replicate_succ']
    · simp [hk2, List.replicate_succ']
  · exact Events_of_not_Alive _ _ (by simp [terminate_state])
  · intro _ _
    refine ⟨by simp [hs], fun _ => ⟨k + 1, ?_, ?_⟩⟩
    · simp [hk1, List.replicate_succ']
    · simp [hk2, List.replicate_succ']
  · exact Events_of_not_Alive _ _ (by simp [terminate_state])

theorem Events_step (A0 : List String) (nw : notifyWorker) (s : Stim)
    (h : Events A0 nw) : Events A0 (step nw s) := by
  cases s with
  | Kill c => exact Events_Kill A0 nw c h
  | Stop => exact Events_task A0 _ (Events_Kill A0 nw none h)
  | Wait => exact Events_task A0 nw h
  | Yield => exact Events_task A0 nw h
  | TriggerChange =>
    have ht := Events_task A0 nw h
    simp only [step, notifyWorker.TriggerChange]
    split
    · rename_i hsel
      obtain ⟨hf, hst, ha, _⟩ := selecting_Alive _ hsel
      exact Events_react A0 _ ha hf hst ht
    · exact ht
  | WatcherStop =>
    simp only [step, notifyWorker.watcherStop]
    split
    · exact h
    · exact h
  | SetStopError err =>
    simp only [step, notifyWorker.watcherSetStopError]
    split
    · exact h
    · exact h
  | SetClosedHandler cl => exact h

theorem Events_run (A0 : List String) (stims : List Stim) :
    ∀ nw : notifyWorker, Events A0 nw → Events A0 (run nw stims) := by
  induction stims with
  | nil => intro nw h; exact h
  | cons s rest ih => intro nw h; exact ih _ (Events_step A0 nw s h)

theorem Events_New (h : notifyHandler) : Events h.actions (NewNotifyWorker h) := by
  simp [Events, NewNotifyWorker]

/-- The state in which the background task blocks after Acquire, whether Acquire
had already run or runs now. -/
theorem acquired_of_Alive (h : notifyHandler) (pre : List Stim)
    (hs : h.setupError = none)
    (ha : (run (NewNotifyWorker h) pre).state = .Alive)
    (hf : (run (NewNotifyWorker h) pre).fault = none) :
    ∃ nw1 : notifyWorker, ∃ k,
      (if (run (NewNotifyWorker h) pre).started then run (NewNotifyWorker h) pre
        else (run (NewNotifyWorker h) pre).acquire) = nw1 ∧
      nw1.state = .Alive ∧ nw1.fault = none ∧ nw1.reason = none ∧
      nw1.closedHandler = (run (NewNotifyWorker h) pre).closedHandler ∧
      nw1.handler.watcher = (run (NewNotifyWorker h) pre).handler.watcher ∧
      nw1.handler.teardownError = h.teardownError ∧
      nw1.handler.actions = h.actions ++ "setup" :: List.replicate k "handler" ∧
      nw1.trace = .Acquire none :: List.replicate k (.React none) := by
  have hcfg := cfg_run pre (NewNotifyWorker h)
  simp only [notifyHandler.cfg, Prod.mk.injEq] at hcfg
  have hse : (run (NewNotifyWorker h) pre).handler.setupError = none := by
    rw [hcfg.1]; exact hs
  have hte : (run (NewNotifyWorker h) pre).handler.teardownError = h.teardownError := by
    rw [hcfg.2.1]; rfl
  have hev := Events_run h.actions pre _ (Events_New h) ha hf
  have hn := (Race_run pre _ (Race_New h)).2 ha
  cases hst : (run (NewNotifyWorker h) pre).started
  · obtain ⟨h1, h2⟩ := hev.1 hst
    refine ⟨_, 0, rfl, ?_⟩
    unfold notifyWorker.acquire notifyHandler.SetUp
    cases hw : (run (NewNotifyWorker h) pre).handler.watcher <;>
      simp [hse, ha, hf, hn, hte, h1, h2]
  · obtain ⟨k, h1, h2⟩ := hev.2 hst
    exact ⟨_, k, rfl, by simp [ha, hf, hn, hte, h1, h2]⟩

theorem task_closed (nw nw1 : notifyWorker) (w : testNotifyWatcher)
    (hf : nw.fault = none) (ha : nw.state = .Alive)
    (h1 : (if nw.started then nw else nw.acquire) = nw1)
    (ha1 : nw1.state = .Alive) (hw : nw1.handler.watcher = some w)
    (hc : w.changes.closed = true) :
    nw.task = nw1.closed w := by
  unfold notifyWorker.task
  simp only [hf, ha, h1, ha1, hw, testNotifyWatcher.Changes, hc]
  simp

theorem closed_ok (nw : notifyWorker) (w : testNotifyWatcher) (v : Reason)
    (hv : nw.closedHandler w.stopError = .ok v) :
    nw.closed w = notifyWorker.terminate
      { nw with reason := commit nw.reason v.concrete,
                trace := nw.trace ++ [.Classify w.stopError (.ok v)] } := by
  unfold notifyWorker.closed
  simp only [testNotifyWatcher.Err, hv]

theorem firstConcrete_three (a b : Reason) (c : Option Error) :
    firstConcrete [a, b, .ofError c] = commit (commit a.concrete b.concrete) c := by
  cases a <;> cases b <;> cases c <;> rfl

/-- C6 (amended): when the test stops the watcher while the supervisor is Alive,
so that its channel closes unrequested, the classifier is given the watcher's
reason and, if it returns a verdict v, no React runs for the closure, the
watcher is stopped, Release runs, and Wait returns the first concrete error
among the verdict, the watcher's Stop error and Release's error.  With the
default classifier and a concrete watcher error that is the watcher's error;
with a classifier that returns nil it is the watcher's Stop error if that is
concrete, else Release's error. -/
theorem closed_channel_is_classified (h : notifyHandler) (pre : List Stim)
    (w : testNotifyWatcher) (v : Reason)
    (hs : h.setupError = none)
    (ha : (run (NewNotifyWorker h) pre).state = .Alive)
    (hf : (run (NewNotifyWorker h) pre).fault = none)
    (hw : (run (NewNotifyWorker h) pre).handler.watcher = some w)
    (hst : w.stopped = false)
    (hv : (run (NewNotifyWorker h) pre).closedHandler w.stopError = .ok v) :
    (run (NewNotifyWorker h) (pre ++ [.WatcherStop])).Wait.2 =
      some (firstConcrete [v, w.stopError, .ofError h.teardownError]) ∧
    ∃ k,
      (run (NewNotifyWorker h) (pre ++ [.WatcherStop])).Wait.1.trace =
        .Acquire none :: List.replicate k (.React none) ++
          [.Classify w.stopError (.ok v), .WatcherStop w.stopError,
           .Release h.teardownError] ∧
      (run (NewNotifyWorker h) (pre ++ [.WatcherStop])).Wait.1.handler.actions =
        h.actions ++ "setup" :: (List.replicate k "handler" ++ ["teardown"]) := by
  have hrun : run (NewNotifyWorker h) (pre ++ [.WatcherStop]) =
      (run (NewNotifyWorker h) pre).watcherStop := by
    rw [run_append]; rfl
  have hws : (run (NewNotifyWorker h) pre).watcherStop =
      { run (NewNotifyWorker h) pre with
          handler := { (run (NewNotifyWorker h) pre).handler with watcher := some w.Stop.1 } } := by
    unfold notifyWorker.watcherStop
    simp [hw]
  have ha2 : (run (NewNotifyWorker h) (pre ++ [.WatcherStop])).state = .Alive := by
    rw [hrun, hws]; exact ha
  have hf2 : (run (NewNotifyWorker h) (pre ++ [.WatcherStop])).fault = none := by
    rw [hrun, hws]; exact hf
  have hw2 : (run (NewNotifyWorker h) (pre ++ [.WatcherStop])).handler.watcher =
      some w.Stop.1 := by
    rw [hrun, hws]
  have hcl2 : (run (NewNotifyWorker h) (pre ++ [.WatcherStop])).closedHandler =
      (run (NewNotifyWorker h) pre).closedHandler := by
    rw [hrun, hws]
  obtain ⟨nw1, k, e1, a1, f1, r1, c1, w1, t1, ac1, tr1⟩ :=
    acquired_of_Alive h (pre ++ [.WatcherStop]) hs ha2 hf2
  rw [hw2] at w1
  rw [hcl2] at c1
  have hSe : w.Stop.1.stopError = w.stopError := by
    simp [testNotifyWatcher.Stop, hst]
  have hSc : w.Stop.1.changes.closed = true := by
    simp [testNotifyWatcher.Stop, hst, Chan.close]
  have hSs : w.Stop.1.Stop.2 = w.stopError := by
    simp [testNotifyWatcher.Stop, hst]
  have htask := task_closed _ nw1 w.Stop.1 hf2 ha2 e1 a1 w1 hSc
  have hv1 : nw1.closedHandler w.Stop.1.stopError = .ok v := by
    rw [c1, hSe]; exact hv
  rw [closed_ok nw1 w.Stop.1 v hv1] at htask
  obtain ⟨r, hfin, hr⟩ := Finished_terminate
    { nw1 with reason := commit nw1.reason v.concrete,
               trace := nw1.trace ++ [.Classify w.Stop.1.stopError (.ok v)] }
  rw [← htask] at hfin
  have hr1 : r = w.stopError := by
    rw [hr w.Stop.1 w1, hSe]
  simp only [w1, r1, t1, ac1, tr1, hr1, hSe, commit_none] at hfin
  obtain ⟨hd, hre, htr, hac, _⟩ := hfin
  have hwait : (run (NewNotifyWorker h) (pre ++ [.WatcherStop])).Wait.2 =
      some (run (NewNotifyWorker h) (pre ++ [.WatcherStop])).task.reason := by
    simp [notifyWorker.Wait, hd]
  refine ⟨?_, k, ?_, ?_⟩
  · rw [hwait, hre, firstConcrete_three]
  · show (run (NewNotifyWorker h) (pre ++ [.WatcherStop])).task.trace = _
    rw [htr]; simp
  · show (run (NewNotifyWorker h) (pre ++ [.WatcherStop])).task.handler.actions = _
    rw [hac]; simp

theorem closed_channel_is_classified_witness :
    (run (NewNotifyWorker (testHandler none none none (.err ⟨"Stopped Watcher"⟩)))
      []).state = .Alive ∧
    MustErr (Reason.err ⟨"Stopped Watcher"⟩) = .ok (.err ⟨"Stopped Watcher"⟩) ∧
    (run (NewNotifyWorker (testHandler none none none (.err ⟨"Stopped Watcher"⟩)))
      ([] ++ [.WatcherStop])).Wait.2 =
      some (firstConcrete [.err ⟨"Stopped Watcher"⟩, .err ⟨"Stopped Watcher"⟩,
        .ofError none]) :=
  ⟨rfl, rfl,
   (closed_channel_is_classified (testHandler none none none (.err ⟨"Stopped Watcher"⟩)) []
      { changes := Chan.make, stopped := false, stopError := .err ⟨"Stopped Watcher"⟩ }
      (.err ⟨"Stopped Watcher"⟩) rfl rfl rfl rfl rfl rfl).1⟩

/-- C6 as stated fails: with the watcher reporting "Stopped Watcher" and the
classifier overridden by `noopHandler`, the classifier returns nil, yet Wait
returns "Stopped Watcher", the error the watcher's Stop returned. -/
theorem nil_verdict_is_not_the_result :
    noopHandler (Reason.err ⟨"Stopped Watcher"⟩) = .ok .nil ∧
    (run (NewNotifyWorker (testHandler none none none .nil))
      [.SetClosedHandler noopHandler, .SetStopError (.err ⟨"Stopped Watcher"⟩),
       .WatcherStop]).Wait.2 = some (some ⟨"Stopped Watcher"⟩) ∧
    (run (NewNotifyWorker (testHandler none none none .nil))
      [.SetClosedHandler noopHandler, .SetStopError (.err ⟨"Stopped Watcher"⟩),
       .WatcherStop]).Wait.1.trace =
      [.Acquire none, .Classify (.err ⟨"Stopped Watcher"⟩) (.ok .nil),
       .WatcherStop (.err ⟨"Stopped Watcher"⟩), .Release none] := by
  decide

/-! ### The sentinel reported at an unrequested closure -/

/-- C7 (amended): when the watcher reports `tomb.ErrStillAlive`, the test stops it so
that its channel closes unrequested, and the installed classifier returns the
sentinel unchanged, the classifier is given the sentinel, the sentinel is not
what Wait returns: Wait returns what Release returned, nil when Release
succeeds, and the handler's record is setup, teardown. -/
theorem still_alive_is_turned_into_nil (h : notifyHandler) (w : testNotifyWatcher)
    (cl : ClosedHandler) (hs : h.setupError = none) (hw : h.watcher = some w)
    (hst : w.stopped = false) (hcl : cl .ErrStillAlive = .ok .ErrStillAlive) :
    (run (NewNotifyWorker h)
      [.SetClosedHandler cl, .SetStopError .ErrStillAlive, .WatcherStop]).Wait.2 =
      some h.teardownError ∧
    (run (NewNotifyWorker h)
      [.SetClosedHandler cl, .SetStopError .ErrStillAlive, .WatcherStop]).Wait.1.trace =
      [.Acquire none, .Classify .ErrStillAlive (.ok .ErrStillAlive),
       .WatcherStop .ErrStillAlive, .Release h.teardownError] ∧
    (run (NewNotifyWorker h)
      [.SetClosedHandler cl, .SetStopError .ErrStillAlive, .WatcherStop]).Wait.1.handler.actions =
      h.actions ++ ["setup", "teardown"] := by
  cases hd : h.handled <;>
    simp [run, step, NewNotifyWorker, notifyWorker.SetClosedHandler,
      notifyWorker.watcherSetStopError, notifyWorker.watcherStop, notifyWorker.Wait,
      notifyWorker.task, notifyWorker.acquire, notifyWorker.closed, notifyWorker.terminate,
      notifyWorker.stopWatcher, notifyWorker.release, notifyHandler.SetUp,
      notifyHandler.TearDown, testNotifyWatcher.Stop, testNotifyWatcher.SetStopError,
      testNotifyWatcher.Err, testNotifyWatcher.Changes, Chan.close, commit, Reason.concrete,
      hs, hw, hst, hcl, hd]

theorem still_alive_is_turned_into_nil_witness :
    (testHandler none none none .nil).setupError = none ∧
    triggeredHandler .ErrStillAlive = .ok .ErrStillAlive ∧
    (run (NewNotifyWorker (testHandler none none none .nil))
      [.SetClosedHandler triggeredHandler, .SetStopError .ErrStillAlive,
       .WatcherStop]).Wait.2 = some none :=
  ⟨rfl, rfl,
   (still_alive_is_turned_into_nil (testHandler none none none .nil)
      { changes := Chan.make, stopped := false, stopError := .nil } triggeredHandler
      rfl rfl rfl rfl).1⟩

/-- C7 as stated fails: with a Release that fails, the same closure makes Wait
return Release's error, not nil. -/
theorem still_alive_with_failing_release :
    (run (NewNotifyWorker (testHandler none (some ⟨"failed to tear down watcher"⟩) none .nil))
      [.SetClosedHandler triggeredHandler, .SetStopError .ErrStillAlive,
       .WatcherStop]).Wait.2 = some (some ⟨"failed to tear down watcher"⟩) ∧
    (run (NewNotifyWorker (testHandler none (some ⟨"failed to tear down watcher"⟩) none .nil))
      [.SetClosedHandler triggeredHandler, .SetStopError .ErrStillAlive,
       .WatcherStop]).Wait.1.trace =
      [.Acquire none, .Classify .ErrStillAlive (.ok .ErrStillAlive),
       .WatcherStop .ErrStillAlive, .Release (some ⟨"failed to tear down watcher"⟩)] := by
  decide

/-! ### A failing Acquire -/

theorem SetupFailed_Kill (A0 : List String) (e : Error) (nw : notifyWorker)
    (h : SetupFailed A0 e nw) : SetupFailed A0 e (nw.Kill none) := by
  obtain ⟨h1, h2, h3, h4⟩ := h
  cases hs : nw.started
  · obtain ⟨a1, a2, a3, a4⟩ := h3 hs
    unfold notifyWorker.Kill
    cases hst : nw.state
    · refine ⟨by simp [h1], by simp [h1, h2], ?_, by simp [h1, hs]⟩
      intro _
      simp only [h1, Option.isSome_none, Bool.false_eq_true, if_false]
      refine ⟨by simp, by simp [a2, commit], a3, ?_⟩
      intro op hop
      simp only [List.mem_append, List.mem_singleton] at hop
      rcases hop with hop | hop
      · exact a4 op hop
      · exact hop
    · refine ⟨by simp [h1], by simp [h1, h2], ?_, by simp [h1, hs]⟩
      intro _
      simp only [h1, Option.isSome_none, Bool.false_eq_true, if_false]
      refine ⟨by simp, by simp [a2, commit], a3, ?_⟩
      intro op hop
      simp only [List.mem_append, List.mem_singleton] at hop
      rcases hop with hop | hop
      · exact a4 op hop
      · exact hop
    · exact absurd hst a1
  · rw [Dead_Kill nw none (h4 hs).1]
    exact ⟨h1, h2, h3, h4⟩

theorem SetupFailed_task (A0 : List String) (e : Error) (nw : notifyWorker)
    (h : SetupFailed A0 e nw) :
    SetupFailed A0 e nw.task ∧ nw.task.started = true := by
  obtain ⟨h1, h2, h3, h4⟩ := h
  cases hs : nw.started
  · obtain ⟨a1, a2, a3, a4⟩ := h3 hs
    have hacq : nw.acquire =
        { nw with handler := nw.handler.SetUp.1, started := true, state := .Dying,
                  reason := some e, trace := nw.trace ++ [.Acquire (some e)] } := by
      unfold notifyWorker.acquire notifyHandler.SetUp
      cases hw : nw.handler.watcher <;> simp [h2, a2, commit]
    have htask : nw.task = nw.acquire.terminate := by
      unfold notifyWorker.task
      cases hst : nw.state
      · simp [h1, hs, hacq]
      · simp [h1, hs, hacq]
      · exact absurd hst a1
    obtain ⟨r, hfin, _⟩ := Finished_terminate nw.acquire
    rw [← htask] at hfin
    have hSa : nw.handler.SetUp.1.actions = A0 ++ ["setup"] := by
      unfold notifyHandler.SetUp
      cases hw : nw.handler.watcher <;> simp [a3]
    obtain ⟨f1, f2, f3, f4, f5⟩ := hfin
    have hst1 : nw.task.started = true := by
      rw [htask]
      unfold notifyWorker.terminate notifyWorker.release notifyWorker.stopWatcher
      rw [hacq]
      cases hw : nw.handler.SetUp.1.watcher <;> simp [hw]
    have hfa : nw.task.fault = none := by
      rw [htask]
      unfold notifyWorker.terminate notifyWorker.release notifyWorker.stopWatcher
      rw [hacq]
      cases hw : nw.handler.SetUp.1.watcher <;> simp [hw, h1]
    have hcf : nw.task.handler.setupError = some e := by
      have := cfg_task nw
      simp only [notifyHandler.cfg, Prod.mk.injEq] at this
      rw [this.1, h2]
    refine ⟨⟨hfa, hcf, by simp [hst1], fun _ => ⟨f1, ?_, ?_, ?_, f5⟩⟩, hst1⟩
    · rw [f2, hacq]; simp [commit]
    · rw [f4, hacq]; simp [hSa]
    · intro err herr
      rw [f3, hacq] at herr
      simp only [List.mem_append, List.mem_singleton] at herr
      rcases herr with (((herr | herr) | herr) | herr)
      · have := a4 _ herr
        cases this
      · cases herr
      · split at herr <;> simp at herr
      · cases herr
  · rw [Dead_task nw (h4 hs).1]
    exact ⟨⟨h1, h2, h3, h4⟩, hs⟩

theorem SetupFailed_step (A0 : List String) (e : Error) (nw : notifyWorker) (s : Stim)
    (hk : ∀ c, s ≠ .Kill (some c)) (h : SetupFailed A0 e nw) :
    SetupFailed A0 e (step nw s) := by
  cases s with
  | Kill c =>
    cases c with
    | none => exact SetupFailed_Kill A0 e nw h
    | some c => exact absurd rfl (hk c)
  | Stop => exact (SetupFailed_task A0 e _ (SetupFailed_Kill A0 e nw h)).1
  | Wait => exact (SetupFailed_task A0 e nw h).1
  | Yield => exact (SetupFailed_task A0 e nw h).1
  | TriggerChange =>
    obtain ⟨ht, hst⟩ := SetupFailed_task A0 e nw h
    simp only [step, notifyWorker.TriggerChange,
      Dead_not_selecting nw.task (ht.2.2.2 hst).1]
    exact ht
  | WatcherStop =>
    obtain ⟨h1, h2, h3, h4⟩ := h
    simp only [step, notifyWorker.watcherStop]
    split
    · exact ⟨h1, h2, h3, h4⟩
    · refine ⟨h1, h2, h3, fun hs => ?_⟩
      obtain ⟨b1, b2, b3, b4, b5⟩ := h4 hs
      refine ⟨b1, b2, b3, b4, ?_⟩
      intro w1 hw1
      simp only [Option.some.injEq] at hw1
      rw [← hw1]
      simp [testNotifyWatcher.Stop]
  | SetStopError err =>
    obtain ⟨h1, h2, h3, h4⟩ := h
    simp only [step, notifyWorker.watcherSetStopError]
    split
    · exact ⟨h1, h2, h3, h4⟩
    · rename_i w hw
      refine ⟨h1, h2, h3, fun hs => ?_⟩
      obtain ⟨b1, b2, b3, b4, b5⟩ := h4 hs
      refine ⟨b1, b2, b3, b4, ?_⟩
      intro w1 hw1
      simp only [Option.some.injEq] at hw1
      rw [← hw1]
      simpa [testNotifyWatcher.SetStopError] using b5 w hw
  | SetClosedHandler cl => exact h

theorem SetupFailed_run (A0 : List String) (e : Error) (stims : List Stim) :
    ∀ nw : notifyWorker, (∀ c, Stim.Kill (some c) ∉ stims) → SetupFailed A0 e nw →
      SetupFailed A0 e (run nw stims) := by
  induction stims with
  | nil => intro nw _ h; exact h
  | cons s rest ih =>
    intro nw hk h
    have h1 : ∀ c, s ≠ .Kill (some c) := by
      intro c hc; exact hk c (by simp [hc])
    have h2 : ∀ c, Stim.Kill (some c) ∉ rest := by
      intro c hc; exact hk c (by simp [hc])
    exact ih _ h2 (SetupFailed_step A0 e nw s h1 h)

/-- C8: if Acquire returns a non-nil error e and the test brings no cause of its
own (no Kill carries one; none need be requested at all), then whatever else the
test does, no React is ever made, Wait returns e, the handler's record is setup,
teardown (Release ran once), and a watcher returned with the error is stopped. -/
theorem setup_failure_stops_with_teardown (h : notifyHandler) (e : Error)
    (stims : List Stim) (hs : h.setupError = some e)
    (hk : ∀ c, Stim.Kill (some c) ∉ stims) :
    (run (NewNotifyWorker h) stims).Wait.2 = some (some e) ∧
    (run (NewNotifyWorker h) stims).Wait.1.handler.actions =
      h.actions ++ ["setup", "teardown"] ∧
    (∀ err, Op.React err ∉ (run (NewNotifyWorker h) stims).Wait.1.trace) ∧
    (∀ w, (run (NewNotifyWorker h) stims).Wait.1.handler.watcher = some w →
      w.stopped = true) := by
  have h0 : SetupFailed h.actions e (NewNotifyWorker h) := by
    simp [SetupFailed, NewNotifyWorker, hs]
  obtain ⟨ht, hst⟩ := SetupFailed_task h.actions e _ (SetupFailed_run h.actions e stims _ hk h0)
  obtain ⟨b1, b2, b3, b4, b5⟩ := ht.2.2.2 hst
  refine ⟨?_, b3, b4, b5⟩
  simp only [notifyWorker.Wait, b1, b2]

theorem setup_failure_stops_with_teardown_witness :
    (testHandler (some ⟨"my special error"⟩) none none .nil).setupError =
      some ⟨"my special error"⟩ ∧
    (∀ c, Stim.Kill (some c) ∉ ([] : List Stim)) ∧
    (run (NewNotifyWorker (testHandler (some ⟨"my special error"⟩) none none .nil))
      []).Wait.2 = some (some ⟨"my special error"⟩) :=
  ⟨rfl, by simp,
   (setup_failure_stops_with_teardown (testHandler (some ⟨"my special error"⟩) none none .nil)
      ⟨"my special error"⟩ [] rfl (by simp)).1⟩

/-! ### A plain Kill -/

theorem firstConcrete_two (a : Reason) (c : Option Error) :
    firstConcrete [a, .ofError c] = commit a.concrete c := by
  cases a <;> cases c <;> rfl

/-- What a plain Kill followed by Wait does to a supervisor that is Alive. -/
theorem Kill_Wait_of_Alive (h : notifyHandler) (pre : List Stim) (w : testNotifyWatcher)
    (hs : h.setupError = none)
    (ha : (run (NewNotifyWorker h) pre).state = .Alive)
    (hf : (run (NewNotifyWorker h) pre).fault = none)
    (hw : (run (NewNotifyWorker h) pre).handler.watcher = some w) :
    ∃ tr k, Finished (commit w.stopError.concrete h.teardownError)
      (tr ++ [.WatcherStop w.stopError, .Release h.teardownError])
      (h.actions ++ "setup" :: (List.replicate k "handler" ++ ["teardown"]))
      ((run (NewNotifyWorker h) pre).Kill none).task := by
  have hcfg := cfg_run pre (NewNotifyWorker h)
  simp only [notifyHandler.cfg, Prod.mk.injEq] at hcfg
  have hse : (run (NewNotifyWorker h) pre).handler.setupError = none := by
    rw [hcfg.1]; exact hs
  have hte : (run (NewNotifyWorker h) pre).handler.teardownError = h.teardownError := by
    rw [hcfg.2.1]; rfl
  have hev := Events_run h.actions pre _ (Events_New h) ha hf
  have hn := (Race_run pre _ (Race_New h)).2 ha
  have hSe : w.Stop.2 = w.stopError := by
    cases hb : w.stopped <;> simp [testNotifyWatcher.Stop, hb]
  cases hst : (run (NewNotifyWorker h) pre).started
  · obtain ⟨h1, h2⟩ := hev.1 hst
    have htask : ((run (NewNotifyWorker h) pre).Kill none).task =
        notifyWorker.terminate
          { run (NewNotifyWorker h) pre with
              state := .Dying, started := true,
              handler := (run (NewNotifyWorker h) pre).handler.SetUp.1,
              trace := [.Kill none, .Acquire none] } := by
      unfold notifyWorker.task notifyWorker.Kill notifyWorker.acquire notifyHandler.SetUp
      simp [hf, ha, hst, hse, hn, h2, hw, commit]
    obtain ⟨r, hfin, hr⟩ := Finished_terminate
      { run (NewNotifyWorker h) pre with
          state := .Dying, started := true,
          handler := (run (NewNotifyWorker h) pre).handler.SetUp.1,
          trace := [.Kill none, .Acquire none] }
    rw [← htask] at hfin
    have hSw : (run (NewNotifyWorker h) pre).handler.SetUp.1.watcher = some w := by
      unfold notifyHandler.SetUp; simp [hw]
    have hSa : (run (NewNotifyWorker h) pre).handler.SetUp.1.actions =
        h.actions ++ ["setup"] := by
      unfold notifyHandler.SetUp; simp [hw, h1]
    have hSt : (run (NewNotifyWorker h) pre).handler.SetUp.1.teardownError =
        h.teardownError := by
      unfold notifyHandler.SetUp; simp [hw, hte]
    have hr1 : r = w.stopError := hr w hSw
    simp only [hSw, hSa, hSt, hn, hr1, commit_none] at hfin
    exact ⟨[.Kill none, .Acquire none], 0, by simpa using hfin⟩
  · obtain ⟨k, h1, h2⟩ := hev.2 hst
    have htask : ((run (NewNotifyWorker h) pre).Kill none).task =
        notifyWorker.terminate
          { run (NewNotifyWorker h) pre with
              state := .Dying,
              trace := (run (NewNotifyWorker h) pre).trace ++ [.Kill none] } := by
      unfold notifyWorker.task notifyWorker.Kill
      simp [hf, ha, hst, hn, commit]
    obtain ⟨r, hfin, hr⟩ := Finished_terminate
      { run (NewNotifyWorker h) pre with
          state := .Dying,
          trace := (run (NewNotifyWorker h) pre).trace ++ [.Kill none] }
    rw [← htask] at hfin
    have hr1 : r = w.stopError := hr w hw
    simp only [hw, h1, hte, hn, hr1, commit_none] at hfin
    exact ⟨(run (NewNotifyWorker h) pre).trace ++ [.Kill none], k, by simpa using hfin⟩

/-- C9 (amended): after a plain Kill of a supervisor that is Alive and whose
Acquire does not fail, the termination sequence stops the watcher, then calls
Release, and Wait returns the watcher's Stop error if it is a concrete error
(neither nil nor `tomb.ErrStillAlive`), otherwise Release's error, nil if there
is none; with no event handled the handler's record is setup, teardown. -/
theorem plain_kill_stops_then_releases (h : notifyHandler) (pre : List Stim)
    (w : testNotifyWatcher) (hs : h.setupError = none)
    (ha : (run (NewNotifyWorker h) pre).state = .Alive)
    (hf : (run (NewNotifyWorker h) pre).fault = none)
    (hw : (run (NewNotifyWorker h) pre).handler.watcher = some w) :
    (run (NewNotifyWorker h) (pre ++ [.Kill none])).Wait.2 =
      some (firstConcrete [w.stopError, .ofError h.teardownError]) ∧
    (∃ tr, (run (NewNotifyWorker h) (pre ++ [.Kill none])).Wait.1.trace =
      tr ++ [.WatcherStop w.stopError, .Release h.teardownError]) ∧
    (∃ k, (run (NewNotifyWorker h) (pre ++ [.Kill none])).Wait.1.handler.actions =
      h.actions ++ "setup" :: (List.replicate k "handler" ++ ["teardown"])) ∧
    (pre = [] → (run (NewNotifyWorker h) (pre ++ [.Kill none])).Wait.1.handler.actions =
      h.actions ++ ["setup", "teardown"]) := by
  have hrun : run (NewNotifyWorker h) (pre ++ [.Kill none]) =
      (run (NewNotifyWorker h) pre).Kill none := by
    rw [run_append]; rfl
  obtain ⟨tr, k, hfin⟩ := Kill_Wait_of_Alive h pre w hs ha hf hw
  rw [← hrun] at hfin
  obtain ⟨hd, hre, htr, hac, _⟩ := hfin
  refine ⟨?_, ⟨tr, htr⟩, ⟨k, hac⟩, ?_⟩
  · simp only [notifyWorker.Wait, hd, hre, firstConcrete_two]
  · intro hp
    subst hp
    have hw0 : h.watcher = some w := by simpa [run, NewNotifyWorker] using hw
    have := (New_Stop h w hs hw0).2
    simpa [run, step, notifyWorker.Stop] using this

theorem plain_kill_stops_then_releases_witness :
    (run (NewNotifyWorker (testHandler none (some ⟨"failed to tear down watcher"⟩) none .nil))
      []).state = .Alive ∧
    (run (NewNotifyWorker (testHandler none (some ⟨"failed to tear down watcher"⟩) none .nil))
      ([] ++ [.Kill none])).Wait.2 =
      some (firstConcrete [.nil, .ofError (some ⟨"failed to tear down watcher"⟩)]) :=
  ⟨rfl,
   (plain_kill_stops_then_releases
      (testHandler none (some ⟨"failed to tear down watcher"⟩) none .nil) []
      { changes := Chan.make, stopped := false, stopError := .nil } rfl rfl rfl rfl).1⟩

/-- C9 as stated fails: when the watcher's Stop returns the non-nil
`tomb.ErrStillAlive` after a plain Kill, Wait does not return it; it returns
Release's error. -/
theorem still_alive_stop_error_is_not_returned :
    (run (NewNotifyWorker (testHandler none (some ⟨"failed to tear down watcher"⟩) none .nil))
      [.Yield, .SetStopError .ErrStillAlive, .Kill none]).Wait.2 =
      some (some ⟨"failed to tear down watcher"⟩) ∧
    (run (NewNotifyWorker (testHandler none (some ⟨"failed to tear down watcher"⟩) none .nil))
      [.Yield, .SetStopError .ErrStillAlive, .Kill none]).Wait.1.trace =
      [.Acquire none, .Kill none, .WatcherStop .ErrStillAlive,
       .Release (some ⟨"failed to tear down watcher"⟩)] ∧
    Reason.ErrStillAlive ≠ Reason.nil ∧
    Reason.ofError (some ⟨"failed to tear down watcher"⟩) ≠ Reason.ErrStillAlive := by
  decide

/-! ### Stop is idempotent -/

theorem acquire_Dying (nw : notifyWorker) (h : nw.state = .Dying) :
    nw.acquire.state = .Dying := by
  unfold notifyWorker.acquire notifyHandler.SetUp
  cases hw : nw.handler.watcher <;> cases he : nw.handler.setupError <;> simp [he, h]

theorem task_of_Dying (nw : notifyWorker) (hf : nw.fault = none) (h : nw.state = .Dying) :
    nw.task.state = .Dead := by
  unfold notifyWorker.task
  cases hs : nw.started
  · simp [hf, h, hs, acquire_Dying nw h, terminate_state]
  · simp [hf, h, hs, terminate_state]

theorem Stop_Dead (nw : notifyWorker) (hf : nw.fault = none) : nw.Stop.1.state = .Dead := by
  unfold notifyWorker.Stop notifyWorker.Wait
  simp only
  cases hst : nw.state
  · have hk : (nw.Kill none).state = .Dying := by simp [notifyWorker.Kill, hf, hst]
    have hkf : (nw.Kill none).fault = none := by simp [notifyWorker.Kill, hf, hst]
    exact task_of_Dying _ hkf hk
  · have hk : (nw.Kill none).state = .Dying := by simp [notifyWorker.Kill, hf, hst]
    have hkf : (nw.Kill none).fault = none := by simp [notifyWorker.Kill, hf, hst]
    exact task_of_Dying _ hkf hk
  · rw [Dead_Kill nw none hst, Dead_task nw hst]; exact hst

theorem faulted_Stop (nw : notifyWorker) (hf : nw.fault ≠ none) : nw.Stop.1 = nw := by
  have h1 : nw.fault.isSome = true := by
    cases h : nw.fault
    · exact absurd h hf
    · rfl
  simp [notifyWorker.Stop, notifyWorker.Wait, notifyWorker.Kill, notifyWorker.task, h1]

theorem faulted_Kill (nw : notifyWorker) (c : Option Error) (hf : nw.fault ≠ none) :
    nw.Kill c = nw := by
  have h1 : nw.fault.isSome = true := by
    cases h : nw.fault
    · exact absurd h hf
    · rfl
  simp [notifyWorker.Kill, h1]

theorem faulted_Wait (nw : notifyWorker) (hf : nw.fault ≠ none) :
    nw.Wait = (nw, nw.Stop.2) := by
  have h1 : nw.fault.isSome = true := by
    cases h : nw.fault
    · exact absurd h hf
    · rfl
  simp [notifyWorker.Stop, notifyWorker.Wait, notifyWorker.Kill, notifyWorker.task, h1]

/-- C10: Stop is idempotent.  For every supervisor, a second Stop returns what the
first Stop returned and leaves the supervisor exactly as the first Stop left it,
so no Acquire, React or Release is added; a Wait after the first Stop returns the
same value; a Kill after it changes nothing, and with a cause of its own still
adds nothing to the trace or the handler's record.  Unless the classifier has
raised a fault, the first Stop does return, and the later calls return at once. -/
theorem stop_is_idempotent (nw : notifyWorker) :
    nw.Stop.1.Stop = (nw.Stop.1, nw.Stop.2) ∧
    nw.Stop.1.Wait = (nw.Stop.1, nw.Stop.2) ∧
    nw.Stop.1.Kill none = nw.Stop.1 ∧
    (∀ c, (nw.Stop.1.Kill c).trace = nw.Stop.1.trace ∧
      (nw.Stop.1.Kill c).handler = nw.Stop.1.handler) ∧
    (nw.fault = none → ∃ r, nw.Stop.2 = some r) := by
  by_cases hf : nw.fault = none
  · have hd := Stop_Dead nw hf
    have h2 : nw.Stop.2 = some nw.Stop.1.reason := by
      have hd1 : (nw.Kill none).task.state = .Dead := hd
      simp [notifyWorker.Stop, notifyWorker.Wait, hd1]
    have hw : nw.Stop.1.Wait = (nw.Stop.1, nw.Stop.2) := by
      rw [h2]
      simp [notifyWorker.Wait, Dead_task _ hd, hd]
    refine ⟨?_, hw, Dead_Kill _ none hd, fun c => ?_, fun _ => ⟨_, h2⟩⟩
    · show (nw.Stop.1.Kill none).Wait = _
      rw [Dead_Kill _ none hd]; exact hw
    · rw [Dead_Kill _ c hd]; exact ⟨rfl, rfl⟩
  · have h1 := faulted_Stop nw hf
    refine ⟨?_, ?_, ?_, fun c => ?_, fun h => absurd h hf⟩
    · rw [h1]
      show (nw.Kill none).Wait = _
      rw [faulted_Kill nw none hf]; exact faulted_Wait nw hf
    · rw [h1]; exact faulted_Wait nw hf
    · rw [h1]; exact faulted_Kill nw none hf
    · rw [h1, faulted_Kill nw c hf]; exact ⟨rfl, rfl⟩

theorem stop_is_idempotent_witness :
    (run (NewNotifyWorker (testHandler none none none .nil)) [.TriggerChange]).fault = none ∧
    ∃ r, (run (NewNotifyWorker (testHandler none none none .nil)) [.TriggerChange]).Stop.2 =
      some r :=
  ⟨rfl, (stop_is_idempotent _).2.2.2.2 rfl⟩

end worker

namespace osenv

theorem osVal_of_error {E : Type} (G : String → OSType × Option E) (series : String)
    (v : osVarType) (os : OSType) (err : E) (h : G series = (os, some err)) :
    osVal G series v = ("", some (.fromSeries err)) := by
  simp [osVal, h]

theorem osVal_of_Ubuntu {E : Type} (G : String → OSType × Option E) (series : String)
    (v : osVarType) (h : G series = (.Ubuntu, none)) :
    osVal G series v = (linuxVals.index v, none) := by
  simp [osVal, h]

theorem osVal_of_Windows {E : Type} (G : String → OSType × Option E) (series : String)
    (v : osVarType) (h : G series = (.Windows, none)) :
    osVal G series v = (winVals.index v, none) := by
  simp [osVal, h]

theorem osVal_of_other {E : Type} (G : String → OSType × Option E) (series : String)
    (v : osVarType) (n : Nat) (h : G series = (.other n, none)) :
    osVal G series v = ("", some (.Errorf "Unknown OS: %q" (.other n))) := by
  simp [osVal, h]

/-- The four paths of each table are non-empty and differ between the tables. -/
theorem tables_distinct :
    linuxVals.index tmpDir = "/tmp" ∧ linuxVals.index logDir = "/var/log" ∧
    linuxVals.index dataDir = "/var/lib/juju" ∧
    linuxVals.index jujuRun = "/usr/local/bin/juju-run" ∧
    winVals.index tmpDir = "C:/Juju/tmp" ∧ winVals.index logDir = "C:/Juju/log" ∧
    winVals.index dataDir = "C:/Juju/lib/juju" ∧
    winVals.index jujuRun = "C:/Juju/bin/juju-run" := by
  decide

/-- C17: TempDir, LogDir, DataDir and JujuRun look the series' OS up in a table.
When `version.GetOSFromSeries` fails they return the empty string and that error;
for an Ubuntu series the Linux paths; for a Windows series the Windows paths; for
any other OS the empty string and the "Unknown OS" error.  Hence a nil error comes
with a non-empty path, and each Windows path differs from the Linux one. -/
theorem paths_by_os {E : Type} (G : String → OSType × Option E) (series : String) :
    (∀ os err, G series = (os, some err) →
      TempDir G series = ("", some (.fromSeries err)) ∧
      LogDir G series = ("", some (.fromSeries err)) ∧
      DataDir G series = ("", some (.fromSeries err)) ∧
      JujuRun G series = ("", some (.fromSeries err))) ∧
    (G series = (.Ubuntu, none) →
      TempDir G series = ("/tmp", none) ∧ LogDir G series = ("/var/log", none) ∧
      DataDir G series = ("/var/lib/juju", none) ∧
      JujuRun G series = ("/usr/local/bin/juju-run", none)) ∧
    (G series = (.Windows, none) →
      TempDir G series = ("C:/Juju/tmp", none) ∧ LogDir G series = ("C:/Juju/log", none) ∧
      DataDir G series = ("C:/Juju/lib/juju", none) ∧
      JujuRun G series = ("C:/Juju/bin/juju-run", none)) ∧
    (∀ n, G series = (.other n, none) →
      TempDir G series = ("", some (.Errorf "Unknown OS: %q" (.other n))) ∧
      LogDir G series = ("", some (.Errorf "Unknown OS: %q" (.other n))) ∧
      DataDir G series = ("", some (.Errorf "Unknown OS: %q" (.other n))) ∧
      JujuRun G series = ("", some (.Errorf "Unknown OS: %q" (.other n)))) ∧
    (∀ f ∈ [TempDir G, LogDir G, DataDir G, JujuRun G],
      (f series).2 = none → (f series).1 ≠ "") ∧
    (∀ s1 s2, G s1 = (.Ubuntu, none) → G s2 = (.Windows, none) →
      TempDir G s1 ≠ TempDir G s2 ∧ LogDir G s1 ≠ LogDir G s2 ∧
      DataDir G s1 ≠ DataDir G s2 ∧ JujuRun G s1 ≠ JujuRun G s2) := by
  obtain ⟨l1, l2, l3, l4, w1, w2, w3, w4⟩ := tables_distinct
  refine ⟨?_, ?_, ?_, ?_, ?_, ?_⟩
  · intro os err h
    simp [TempDir, LogDir, DataDir, JujuRun, osVal_of_error G series _ os err h]
  · intro h
    simp [TempDir, LogDir, DataDir, JujuRun, osVal_of_Ubuntu G series _ h, l1, l2, l3, l4]
  · intro h
    simp [TempDir, LogDir, DataDir, JujuRun, osVal_of_Windows G series _ h, w1, w2, w3, w4]
  · intro n h
    simp [TempDir, LogDir, DataDir, JujuRun, osVal_of_other G series _ n h]
  · intro f hf hnil
    have key : ∀ v, v = tmpDir ∨ v = logDir ∨ v = dataDir ∨ v = jujuRun →
        (osVal G series v).2 = none → (osVal G series v).1 ≠ "" := by
      intro v hv
      rcases hG : G series with ⟨os, _ | err⟩
      · cases os with
        | Ubuntu =>
          rw [osVal_of_Ubuntu G series v hG]
          rcases hv with rfl | rfl | rfl | rfl <;> simp [l1, l2, l3, l4]
        | Windows =>
          rw [osVal_of_Windows G series v hG]
          rcases hv with rfl | rfl | rfl | rfl <;> simp [w1, w2, w3, w4]
        | other n =>
          rw [osVal_of_other G series v n hG]
          simp
      · rw [osVal_of_error G series v os err hG]
        simp
    simp only [List.mem_cons, List.mem_singleton, List.not_mem_nil, or_false] at hf
    rcases hf with rfl | rfl | rfl | rfl
    · exact key tmpDir (by simp) hnil
    · exact key logDir (by simp) hnil
    · exact key dataDir (by simp) hnil
    · exact key jujuRun (by simp) hnil
  · intro s1 s2 h1 h2
    simp [TempDir, LogDir, DataDir, JujuRun, osVal_of_Ubuntu G s1 _ h1,
      osVal_of_Windows G s2 _ h2, l1, l2, l3, l4, w1, w2, w3, w4]

theorem paths_by_os_witness :
    sampleSeries "win8" = (.Windows, none) ∧
    TempDir sampleSeries "win8" = ("C:/Juju/tmp", none) ∧
    LogDir sampleSeries "win8" = ("C:/Juju/log", none) ∧
    DataDir sampleSeries "win8" = ("C:/Juju/lib/juju", none) ∧
    JujuRun sampleSeries "win8" = ("C:/Juju/bin/juju-run", none) :=
  ⟨by decide, (paths_by_os sampleSeries "win8").2.2.1 (by decide)⟩

end osenv

namespace time

theorem civil_bounds (days : Int) :
    1 ≤ (civil days).month ∧ (civil days).month ≤ 12 ∧
    1 ≤ (civil days).day ∧ (civil days).day ≤ 31 := by
  simp only [civil]
  split <;> omega


theorem unixToAbsolute_eq : unixToAbsolute = 9223372028741760000 := by decide

theorem uint64_of_range (x : Int) (h0 : 0 ≤ x) (h1 : x < 18446744073709551616) :
    (uint64 x : Int) = x := by
  unfold uint64
  rw [Int.toNat_of_nonneg (Int.emod_nonneg _ (by norm_num)), Int.emod_eq_of_lt h0 h1]

theorem abs_In_UTC (t : Time) : (t.In UTC).abs = uint64 (t.sec + unixToAbsolute) := by
  simp [Time.abs, Time.In, UTC]

theorem toDigits_length_le (n e : Nat) (he : 0 < e) (h : n < 10 ^ e) :
    (Nat.toDigits 10 n).length ≤ e := by
  unfold Nat.toDigits
  exact Nat.toDigitsCore_length 10 (by decide) (n + 1) n e h he

theorem appendInt_length (x : Int) (w : Nat) (hw : 0 < w) (h0 : 0 ≤ x) (h1 : x < 10 ^ w) :
    (appendInt x w).length = w := by
  have hn : x.natAbs < 10 ^ w := by
    have : (x.natAbs : Int) < ((10 ^ w : Nat) : Int) := by
      rw [Int.natAbs_of_nonneg h0]; exact_mod_cast h1
    exact_mod_cast this
  have hl := toDigits_length_le x.natAbs w hw hn
  have hneg : ¬ x < 0 := by omega
  simp only [appendInt, hneg, if_false, List.nil_append, List.length_append,
    List.length_replicate]
  omega

end time

namespace apiserver

theorem formatTime_eq (t : time.Time) :
    formatTime t = String.mk
      (time.appendInt (t.In time.UTC).Date.year 4 ++ '-' ::
        (time.appendInt (t.In time.UTC).Date.month 2 ++ '-' ::
        (time.appendInt (t.In time.UTC).Date.day 2 ++ ' ' ::
        (time.appendInt (t.In time.UTC).Hour 2 ++ ':' ::
        (time.appendInt (t.In time.UTC).Minute 2 ++ ':' ::
         time.appendInt (t.In time.UTC).Second 2))))) := by
  simp [formatTime, time.Time.Format, time.Time.format]

/-- C12: formatTime renders the UTC wall clock of the instant as
`YYYY-MM-DD HH:MM:SS`.  The output depends on the second of the instant only, so
two values for the same instant in different zones give the same text and
nanoseconds are dropped; the fields are the zero-padded year, month (1..12), day
(1..31), hour (0..23), minute and second (0..59) that Go reads off its 64-bit
count of absolute seconds; for every instant of an `int64` second from the first
of January of the year -292277022399 on, these are the date and the clock of the
proleptic Gregorian calendar at UTC; and when the year is in 0000..9999 the output
has exactly 19 characters. -/
theorem formatTime_utc (t u : time.Time) :
    (t.Equal u = true → formatTime t = formatTime u) ∧
    (t.sec = u.sec → formatTime t = formatTime u) ∧
    formatTime t = String.mk
      (time.appendInt (t.In time.UTC).Date.year 4 ++ '-' ::
        (time.appendInt (t.In time.UTC).Date.month 2 ++ '-' ::
        (time.appendInt (t.In time.UTC).Date.day 2 ++ ' ' ::
        (time.appendInt (t.In time.UTC).Hour 2 ++ ':' ::
        (time.appendInt (t.In time.UTC).Minute 2 ++ ':' ::
         time.appendInt (t.In time.UTC).Second 2))))) ∧
    (t.In time.UTC).abs = time.uint64 (t.sec + time.unixToAbsolute) ∧
    (1 ≤ (t.In time.UTC).Date.month ∧ (t.In time.UTC).Date.month ≤ 12 ∧
      1 ≤ (t.In time.UTC).Date.day ∧ (t.In time.UTC).Date.day ≤ 31 ∧
      0 ≤ (t.In time.UTC).Hour ∧ (t.In time.UTC).Hour ≤ 23 ∧
      0 ≤ (t.In time.UTC).Minute ∧ (t.In time.UTC).Minute ≤ 59 ∧
      0 ≤ (t.In time.UTC).Second ∧ (t.In time.UTC).Second ≤ 59) ∧
    (-9223372028715321600 ≤ t.sec → t.sec < 9223372036854775808 →
      (t.In time.UTC).Date = time.civil (t.sec / 86400) ∧
      (t.In time.UTC).Hour = t.sec % 86400 / 3600 ∧
      (t.In time.UTC).Minute = t.sec % 3600 / 60 ∧
      (t.In time.UTC).Second = t.sec % 60) ∧
    (0 ≤ (t.In time.UTC).Date.year → (t.In time.UTC).Date.year ≤ 9999 →
      (formatTime t).length = 19 ∧
      (time.appendInt (t.In time.UTC).Date.year 4).length = 4 ∧
      (time.appendInt (t.In time.UTC).Date.month 2).length = 2 ∧
      (time.appendInt (t.In time.UTC).Date.day 2).length = 2 ∧
      (time.appendInt (t.In time.UTC).Hour 2).length = 2 ∧
      (time.appendInt (t.In time.UTC).Minute 2).length = 2 ∧
      (time.appendInt (t.In time.UTC).Second 2).length = 2) := by
  have hb : 1 ≤ (t.In time.UTC).Date.month ∧ (t.In time.UTC).Date.month ≤ 12 ∧
      1 ≤ (t.In time.UTC).Date.day ∧ (t.In time.UTC).Date.day ≤ 31 :=
    time.civil_bounds _
  have habs := time.abs_In_UTC t
  have hsec : t.sec = u.sec → formatTime t = formatTime u := by
    intro h
    rw [formatTime_eq, formatTime_eq]
    simp only [time.Time.Date, time.Time.Hour, time.Time.Minute, time.Time.Second,
      time.abs_In_UTC, h]
  have hnn : (0 : Int) ≤ ((t.In time.UTC).abs : Int) := Int.ofNat_nonneg _
  have hclock : 0 ≤ (t.In time.UTC).Hour ∧ (t.In time.UTC).Hour ≤ 23 ∧
      0 ≤ (t.In time.UTC).Minute ∧ (t.In time.UTC).Minute ≤ 59 ∧
      0 ≤ (t.In time.UTC).Second ∧ (t.In time.UTC).Second ≤ 59 := by
    simp only [time.Time.Hour, time.Time.Minute, time.Time.Second, time.secondsPerDay]
    omega
  refine ⟨?_, hsec, formatTime_eq t, habs, ⟨hb.1, hb.2.1, hb.2.2.1, hb.2.2.2, hclock⟩,
    ?_, ?_⟩
  · intro h
    apply hsec
    simp only [time.Time.Equal, Bool.and_eq_true, beq_iff_eq] at h
    exact h.1
  · intro h0 h1
    have hu := time.unixToAbsolute_eq
    have hcast : (((t.In time.UTC).abs : Nat) : Int) = t.sec + time.unixToAbsolute := by
      rw [habs]
      exact time.uint64_of_range _ (by rw [hu]; omega) (by rw [hu]; omega)
    simp only [time.Time.Date, time.Time.Hour, time.Time.Minute, time.Time.Second, hcast,
      hu, time.secondsPerDay]
    refine ⟨?_, by omega, by omega, by omega⟩
    congr 1
    omega
  · intro hy0 hy1
    have l4 := time.appendInt_length (t.In time.UTC).Date.year 4 (by decide) hy0
      (by norm_num; omega)
    have lm := time.appendInt_length (t.In time.UTC).Date.month 2 (by decide)
      (by have := hb.1; exact le_trans (by decide) this) (by norm_num; have := hb.2.1; omega)
    have ld := time.appendInt_length (t.In time.UTC).Date.day 2 (by decide)
      (by have := hb.2.2.1; exact le_trans (by decide) this)
      (by norm_num; have := hb.2.2.2; omega)
    have lh := time.appendInt_length (t.In time.UTC).Hour 2 (by decide)
      hclock.1 (by norm_num; have := hclock.2.1; omega)
    have lmi := time.appendInt_length (t.In time.UTC).Minute 2 (by decide)
      hclock.2.2.1 (by norm_num; have := hclock.2.2.2.1; omega)
    have ls := time.appendInt_length (t.In time.UTC).Second 2 (by decide)
      hclock.2.2.2.2.1 (by norm_num; have := hclock.2.2.2.2.2; omega)
    refine ⟨?_, l4, lm, ld, lh, lmi, ls⟩
    rw [formatTime_eq]
    simp only [String.length, List.length_append, List.length_cons, l4, lm, ld, lh, lmi, ls]

theorem formatTime_utc_witness :
    (0 : Int) ≤ ((time.Unix 1000000000 5 time.UTC).In time.UTC).Date.year ∧
    ((time.Unix 1000000000 5 time.UTC).In time.UTC).Date.year ≤ 9999 ∧
    (formatTime (time.Unix 1000000000 5 time.UTC)).length = 19 ∧
    formatTime (time.Unix 1000000000 5 time.UTC) = "2001-09-09 01:46:40" ∧
    (-9223372028715321600 : Int) ≤ (time.Unix 1000000000 5 time.UTC).sec ∧
    (time.Unix 1000000000 5 time.UTC).sec < 9223372036854775808 ∧
    ((time.Unix 1000000000 5 time.UTC).In time.UTC).Date =
      time.civil ((time.Unix 1000000000 5 time.UTC).sec / 86400) :=
  ⟨by decide, by decide,
   ((formatTime_utc (time.Unix 1000000000 5 time.UTC)
      (time.Unix 1000000000 5 time.UTC)).2.2.2.2.2.2 (by decide) (by decide)).1,
   by decide, by decide, by decide,
   ((formatTime_utc (time.Unix 1000000000 5 time.UTC)
      (time.Unix 1000000000 5 time.UTC)).2.2.2.2.2.1 (by decide) (by decide)).1⟩

/-- C11: formatLogRecord(r) is the entity, a colon and a blank, the formatted time,
the level, the module, the location and the message, each after a single blank,
and one newline at the end. -/
theorem formatLogRecord_line {L : Type} (levelString : L → String) (r : LogRecord L) :
    formatLogRecord levelString r =
      r.Entity ++ ": " ++ formatTime r.Time ++ " " ++ levelString r.Level ++ " " ++
        r.Module ++ " " ++ r.Location ++ " " ++ r.Message ++ "\n" := by
  apply String.ext
  simp [formatLogRecord, fmt.Sprintf, fmt.sprintf, fmt.extra, String.data_append]

/-- Known instants, checked against the model of `time`: the epoch, one second
before it, a leap day, the last day of February 2100, the ends of the years
0000..9999, another zone, nanoseconds carried into the seconds, and the least
`int64` second, where the count of absolute seconds has wrapped. -/
theorem formatTime_samples :
    formatTime (time.Unix 0 0 time.UTC) = "1970-01-01 00:00:00" ∧
    formatTime (time.Unix (-1) 999999999 time.UTC) = "1969-12-31 23:59:59" ∧
    formatTime (time.Unix 951782400 0 time.UTC) = "2000-02-29 00:00:00" ∧
    formatTime (time.Unix 4107542399 0 time.UTC) = "2100-02-28 23:59:59" ∧
    formatTime (time.Unix 4107542400 0 time.UTC) = "2100-03-01 00:00:00" ∧
    formatTime (time.Unix (-62167219200) 0 time.UTC) = "0000-01-01 00:00:00" ∧
    formatTime (time.Unix 253402300799 0 time.UTC) = "9999-12-31 23:59:59" ∧
    formatTime (time.Unix 1000000000 0 { name := "CET", offset := fun _ => 3600 }) =
      "2001-09-09 01:46:40" ∧
    formatTime (time.Unix 0 1000000000 time.UTC) = "1970-01-01 00:00:01" ∧
    formatTime (time.Unix 0 (-1) time.UTC) = "1969-12-31 23:59:59" ∧
    formatTime (time.Unix (-9223372036854775808) 0 time.UTC) =
      "292277026596-12-04 15:30:08" := by
  decide

theorem int_of_small (x : Nat) (h : x < 2 ^ 63) : int x = (x : Int) := by
  have h1 : x % uintRange = x := Nat.mod_eq_of_lt (by unfold uintRange; omega)
  unfold int
  rw [h1, if_pos h]

/-- What makeLogTailerParams does: the filters are copied; InitialLines is 0 when
fromTheStart is set and `int(backlog)` otherwise, which is the backlog itself as
long as it is below `2^63`. -/
theorem makeLogTailerParams_fields {L : Type} (reqParams : debugLogParams L) :
    (makeLogTailerParams reqParams).MinLevel = reqParams.filterLevel ∧
    (makeLogTailerParams reqParams).NoTail = reqParams.noTail ∧
    (makeLogTailerParams reqParams).IncludeEntity = reqParams.includeEntity ∧
    (makeLogTailerParams reqParams).ExcludeEntity = reqParams.excludeEntity ∧
    (makeLogTailerParams reqParams).IncludeModule = reqParams.includeModule ∧
    (makeLogTailerParams reqParams).ExcludeModule = reqParams.excludeModule ∧
    (reqParams.fromTheStart = true → (makeLogTailerParams reqParams).InitialLines = 0) ∧
    (reqParams.fromTheStart = false →
      (makeLogTailerParams reqParams).InitialLines = int reqParams.backlog) ∧
    (reqParams.fromTheStart = false → reqParams.backlog < 2 ^ 63 →
      (makeLogTailerParams reqParams).InitialLines = (reqParams.backlog : Int)) := by
  unfold makeLogTailerParams
  cases h : reqParams.fromTheStart
  · simp
    intro hb
    exact int_of_small _ hb
  · simp

/-- C14 on the code: with `fromTheStart` false and a backlog of `2^63`, a value a
`uint` holds, makeLogTailerParams sets InitialLines to `-2^63`, not to the
backlog. -/
theorem makeLogTailerParams_large_backlog :
    (makeLogTailerParams
      ({ maxLines := 0, fromTheStart := false, noTail := false,
         backlog := 9223372036854775808, filterLevel := 0,
         includeEntity := [], excludeEntity := [], includeModule := [],
         excludeModule := [] } : debugLogParams Nat)).InitialLines =
      -9223372036854775808 ∧
    (9223372036854775808 : Nat) < uintRange ∧
    (-9223372036854775808 : Int) ≠ ((9223372036854775808 : Nat) : Int) := by
  decide

theorem delivered_logs {L : Type} (recs : List (LogRecord L)) (rest : List (Select L)) :
    delivered (recs.map Select.log ++ rest) = recs ++ delivered rest := by
  induction recs with
  | nil => rfl
  | cons r recs ih => simp [delivered, ih]

theorem uintRange_eq : uintRange = 18446744073709551616 := by decide

/-- A run of records whose writes succeed and which does not reach the line limit
is written out in order, and the loop goes on with what follows. -/
theorem loop_logs {L : Type} (levelString : L → String) (maxLines : Nat) (tailer : LogTailer)
    (rest : List (Select L)) (recs : List (LogRecord L)) :
    ∀ (lineCount : Nat) (socket : Socket),
      lineCount < uintRange →
      (∀ i, i < recs.length → socket.writeErr (socket.writes.length + i) = none) →
      (maxLines = 0 ∨ (lineCount + recs.length < maxLines ∧ maxLines < uintRange)) →
      loop levelString maxLines tailer lineCount socket (recs.map Select.log ++ rest) =
        loop levelString maxLines tailer ((lineCount + recs.length) % uintRange)
          { socket with writes := socket.writes ++ recs.map (formatLogRecord levelString) }
          rest := by
  induction recs with
  | nil =>
    intro lineCount socket hlt _ _
    simp [Nat.mod_eq_of_lt hlt]
  | cons r recs ih =>
    intro lineCount socket hlt hw hlim
    have hw0 : socket.writeErr socket.writes.length = none := by
      simpa using hw 0 (by simp)
    have hnot : (decide (maxLines > 0) && ((lineCount + 1) % uintRange == maxLines)) = false := by
      rcases hlim with h0 | ⟨h1, h2⟩
      · simp [h0]
      · have : (lineCount + 1) % uintRange = lineCount + 1 :=
          Nat.mod_eq_of_lt (by simp only [List.length_cons] at h1; omega)
        simp only [List.length_cons] at h1
        simp [this]
        omega
    have hstep : loop levelString maxLines tailer lineCount socket
        ((r :: recs).map Select.log ++ rest) =
        loop levelString maxLines tailer ((lineCount + 1) % uintRange)
          { socket with writes := socket.writes ++ [formatLogRecord levelString r] }
          (recs.map Select.log ++ rest) := by
      simp only [List.map_cons, List.cons_append, loop, Socket.Write, hw0, hnot]
      simp
    rw [hstep]
    have hw1 : ∀ i, i < recs.length →
        ({ socket with writes := socket.writes ++ [formatLogRecord levelString r] } :
          Socket).writeErr
          (({ socket with writes := socket.writes ++ [formatLogRecord levelString r] } :
            Socket).writes.length + i) = none := by
      intro i hi
      have := hw (i + 1) (by simp; omega)
      simpa [Nat.add_assoc, Nat.add_comm 1 i] using this
    have hlt1 : (lineCount + 1) % uintRange < uintRange :=
      Nat.mod_lt _ (by rw [uintRange_eq]; decide)
    have hlim1 : maxLines = 0 ∨
        ((lineCount + 1) % uintRange + recs.length < maxLines ∧ maxLines < uintRange) := by
      rcases hlim with h0 | ⟨h1, h2⟩
      · exact Or.inl h0
      · right
        simp only [List.length_cons] at h1
        have : (lineCount + 1) % uintRange = lineCount + 1 := Nat.mod_eq_of_lt (by omega)
        rw [this]
        exact ⟨by omega, h2⟩
    rw [ih ((lineCount + 1) % uintRange) _ hlt1 hw1 hlim1]
    have hmod : ((lineCount + 1) % uintRange + recs.length) % uintRange =
        (lineCount + (r :: recs).length) % uintRange := by
      simp only [List.length_cons, uintRange_eq]
      omega
    rw [hmod]
    simp

/-- However the loop ends, it has written the formatted records of a prefix of the
delivered records, in order. -/
theorem loop_prefix {L : Type} (levelString : L → String) (maxLines : Nat) (tailer : LogTailer)
    (events : List (Select L)) :
    ∀ (lineCount : Nat) (socket : Socket),
      ∃ k, (loop levelString maxLines tailer lineCount socket events).1.writes =
        socket.writes ++ ((delivered events).take k).map (formatLogRecord levelString) := by
  induction events with
  | nil => intro lineCount socket; exact ⟨0, by simp [loop]⟩
  | cons ev rest ih =>
    intro lineCount socket
    cases ev with
    | stop => exact ⟨0, by simp [loop]⟩
    | closed => exact ⟨0, by simp [loop]⟩
    | log r =>
      cases hw : socket.writeErr socket.writes.length with
      | some err => exact ⟨1, by simp [loop, Socket.Write, hw, delivered]⟩
      | none =>
        by_cases hlim : (decide (maxLines > 0) &&
            ((lineCount + 1) % uintRange == maxLines)) = true
        · exact ⟨1, by simp [loop, Socket.Write, hw, hlim, delivered]⟩
        · obtain ⟨k, hk⟩ := ih ((lineCount + 1) % uintRange)
            { socket with writes := socket.writes ++ [formatLogRecord levelString r] }
          refine ⟨k + 1, ?_⟩
          simp only [loop, Socket.Write, hw, hlim]
          simp only [Bool.false_eq_true, if_false]
          rw [hk]
          simp [delivered]

/-- With a line limit `maxLines` not yet reached, the loop adds no more writes than
are left up to the limit. -/
theorem loop_writes_le {L : Type} (levelString : L → String) (maxLines : Nat)
    (tailer : LogTailer) (hmax : maxLines < uintRange) (events : List (Select L)) :
    ∀ (lineCount : Nat) (socket : Socket), lineCount < maxLines →
      (loop levelString maxLines tailer lineCount socket events).1.writes.length + lineCount ≤
        socket.writes.length + maxLines := by
  induction events with
  | nil => intro lineCount socket h; simp [loop]; omega
  | cons ev rest ih =>
    intro lineCount socket h
    cases ev with
    | stop => simp [loop]; omega
    | closed => simp [loop]; omega
    | log r =>
      have hmod : (lineCount + 1) % uintRange = lineCount + 1 :=
        Nat.mod_eq_of_lt (by omega)
      cases hw : socket.writeErr socket.writes.length with
      | some err => simp [loop, Socket.Write, hw]; omega
      | none =>
        have hpos : 0 < maxLines := by omega
        by_cases hlim : lineCount + 1 = maxLines
        · have hb : (decide (maxLines > 0) && (lineCount + 1 == maxLines)) = true := by
            simp [hlim, hpos]
          simp only [loop, Socket.Write, hw, hmod, hb, if_true, List.length_append,
            List.length_singleton]
          omega
        · have hb : (decide (maxLines > 0) && (lineCount + 1 == maxLines)) = false := by
            simp [hlim]
          have := ih (lineCount + 1)
            { socket with writes := socket.writes ++ [formatLogRecord levelString r] }
            (by omega)
          simp only [loop, Socket.Write, hw, hmod, hb, Bool.false_eq_true, if_false]
          simp only [List.length_append, List.length_singleton] at this
          omega

theorem sendOk_writes (s : Socket) : s.sendOk.writes = s.writes := rfl

theorem sendOk_writeErr (s : Socket) : s.sendOk.writeErr = s.writeErr := rfl

/-- The outcome of the handler once the tailer is there, in terms of the loop. -/
theorem handle_ok {L S : Type} (levelString : L → String)
    (newLogTailer : S → LogTailerParams L → Except Error LogTailer)
    (st : S) (reqParams : debugLogParams L) (socket : Socket) (events : List (Select L))
    (tailer : LogTailer) (hn : newLogTailer st (makeLogTailerParams reqParams) = .ok tailer) :
    (handleDebugLogDBRequest levelString newLogTailer st reqParams socket events).ret =
      (loop levelString reqParams.maxLines tailer 0 socket.sendOk events).2 ∧
    (handleDebugLogDBRequest levelString newLogTailer st reqParams socket events).socket =
      (loop levelString reqParams.maxLines tailer 0 socket.sendOk events).1 := by
  unfold handleDebugLogDBRequest
  simp only [hn]
  rcases h : loop levelString reqParams.maxLines tailer 0 socket.sendOk events with ⟨s2, _ | r⟩
  · simp
  · simp

/-- C13: with a line limit `maxLines = n > 0`, when the tailer delivers n records
(and maybe more after them), every write succeeds and no stop is signalled, the
handler writes exactly those n records, in order, and returns nil; whatever
happens, it never makes more than n writes; and with `maxLines = 0` the line count
does not end the loop: after any number of records the handler is still
waiting. -/
theorem max_lines_ends_the_loop {L S : Type} (levelString : L → String)
    (newLogTailer : S → LogTailerParams L → Except Error LogTailer)
    (st : S) (reqParams : debugLogParams L) (socket : Socket)
    (hmax : reqParams.maxLines < uintRange) :
    (∀ (tailer : LogTailer) (recs : List (LogRecord L)) (rest : List (Select L)),
      newLogTailer st (makeLogTailerParams reqParams) = .ok tailer →
      (∀ i, socket.writeErr i = none) → 0 < reqParams.maxLines →
      recs.length = reqParams.maxLines →
      (handleDebugLogDBRequest levelString newLogTailer st reqParams socket
        (recs.map Select.log ++ rest)).ret = some none ∧
      (handleDebugLogDBRequest levelString newLogTailer st reqParams socket
        (recs.map Select.log ++ rest)).socket.writes =
        socket.writes ++ recs.map (formatLogRecord levelString)) ∧
    (0 < reqParams.maxLines → ∀ events,
      (handleDebugLogDBRequest levelString newLogTailer st reqParams socket
        events).socket.writes.length ≤ socket.writes.length + reqParams.maxLines) ∧
    (∀ (tailer : LogTailer) (recs : List (LogRecord L)),
      newLogTailer st (makeLogTailerParams reqParams) = .ok tailer →
      (∀ i, socket.writeErr i = none) → reqParams.maxLines = 0 →
      (handleDebugLogDBRequest levelString newLogTailer st reqParams socket
        (recs.map Select.log)).ret = none ∧
      (handleDebugLogDBRequest levelString newLogTailer st reqParams socket
        (recs.map Select.log)).socket.writes =
        socket.writes ++ recs.map (formatLogRecord levelString)) := by
  refine ⟨?_, ?_, ?_⟩
  · intro tailer recs rest hn hw hpos hlen
    obtain ⟨hret, hsock⟩ := handle_ok levelString newLogTailer st reqParams socket
      (recs.map Select.log ++ rest) tailer hn
    rw [hret, hsock]
    -- split off the last of the n records
    have hne : recs ≠ [] := by
      intro h; rw [h] at hlen; simp at hlen; omega
    obtain ⟨init, last, rfl⟩ : ∃ init last, recs = init ++ [last] :=
      ⟨recs.dropLast, recs.getLast hne, (List.dropLast_append_getLast hne).symm⟩
    have hlen1 : init.length + 1 = reqParams.maxLines := by simpa using hlen
    have h1 := loop_logs levelString reqParams.maxLines tailer
      (Select.log last :: rest) init 0 socket.sendOk (by rw [uintRange_eq]; decide)
      (fun i _ => hw _) (Or.inr ⟨by omega, hmax⟩)
    have hmod : (0 + init.length) % uintRange = init.length := by
      rw [Nat.zero_add]; exact Nat.mod_eq_of_lt (by omega)
    have hmod1 : (init.length + 1) % uintRange = reqParams.maxLines := by
      rw [hlen1]; exact Nat.mod_eq_of_lt hmax
    have hev : (init ++ [last]).map Select.log ++ rest =
        init.map Select.log ++ Select.log last :: rest := by simp
    rw [hev, h1, hmod]
    simp [loop, Socket.Write, hw, hmod1, hpos, sendOk_writes, sendOk_writeErr]
  · intro hpos events
    cases hn : newLogTailer st (makeLogTailerParams reqParams) with
    | error err => simp [handleDebugLogDBRequest, hn]
    | ok tailer =>
      obtain ⟨_, hsock⟩ := handle_ok levelString newLogTailer st reqParams socket events
        tailer hn
      rw [hsock]
      have := loop_writes_le levelString reqParams.maxLines tailer hmax events 0
        socket.sendOk hpos
      simpa [sendOk_writes] using this
  · intro tailer recs hn hw h0
    obtain ⟨hret, hsock⟩ := handle_ok levelString newLogTailer st reqParams socket
      (recs.map Select.log) tailer hn
    rw [hret, hsock]
    have h1 := loop_logs levelString reqParams.maxLines tailer [] recs 0 socket.sendOk
      (by rw [uintRange_eq]; decide) (fun i _ => hw _) (Or.inl h0)
    simp only [List.append_nil] at h1
    rw [h1]
    simp [loop, sendOk_writes]

theorem max_lines_ends_the_loop_witness :
    (sampleParams 2 0).maxLines < uintRange ∧
    (handleDebugLogDBRequest sampleLevelString (sampleNewLogTailer none) () (sampleParams 2 0)
      (sampleSocket 5)
      ([sampleRecord 0 "a", sampleRecord 1 "b"].map Select.log ++
        [Select.log (sampleRecord 2 "c")])).socket.writes.length ≤
      (sampleSocket 5).writes.length + (sampleParams 2 0).maxLines ∧
    (handleDebugLogDBRequest sampleLevelString (sampleNewLogTailer none) () (sampleParams 2 0)
      (sampleSocket 5)
      ([sampleRecord 0 "a", sampleRecord 1 "b"].map Select.log ++
        [Select.log (sampleRecord 2 "c")])).socket.writes =
      ["machine-0: 1970-01-01 00:00:00 INFO juju.worker worker.go:42 a\n",
       "machine-0: 1970-01-01 00:00:01 INFO juju.worker worker.go:42 b\n"] :=
  ⟨by decide,
   (max_lines_ends_the_loop sampleLevelString (sampleNewLogTailer none) () (sampleParams 2 0)
      (sampleSocket 5) (by decide)).2.1 (by decide) _,
   by decide⟩

/-- C18: the lines the handler writes to the socket are formatLogRecord of a prefix
of the records the tailer delivers, in delivery order, one write per record; and
when the write of a record fails, that record ends the prefix: nothing is written
after it and the handler returns the write's error annotated "sending failed". -/
theorem writes_follow_delivery {L S : Type} (levelString : L → String)
    (newLogTailer : S → LogTailerParams L → Except Error LogTailer)
    (st : S) (reqParams : debugLogParams L) (socket : Socket) :
    (∀ events : List (Select L), ∃ k,
      (handleDebugLogDBRequest levelString newLogTailer st reqParams socket
        events).socket.writes =
        socket.writes ++ ((delivered events).take k).map (formatLogRecord levelString)) ∧
    (∀ (tailer : LogTailer) (recs : List (LogRecord L)) (r : LogRecord L)
        (rest : List (Select L)) (e : Error),
      newLogTailer st (makeLogTailerParams reqParams) = .ok tailer →
      (∀ i, i < recs.length → socket.writeErr (socket.writes.length + i) = none) →
      socket.writeErr (socket.writes.length + recs.length) = some e →
      (reqParams.maxLines = 0 ∨
        (recs.length < reqParams.maxLines ∧ reqParams.maxLines < uintRange)) →
      (handleDebugLogDBRequest levelString newLogTailer st reqParams socket
        (recs.map Select.log ++ Select.log r :: rest)).ret =
        some (some (.annotated e "sending failed")) ∧
      (handleDebugLogDBRequest levelString newLogTailer st reqParams socket
        (recs.map Select.log ++ Select.log r :: rest)).socket.writes =
        socket.writes ++ (recs ++ [r]).map (formatLogRecord levelString)) := by
  refine ⟨?_, ?_⟩
  · intro events
    cases hn : newLogTailer st (makeLogTailerParams reqParams) with
    | error err => exact ⟨0, by simp [handleDebugLogDBRequest, hn]⟩
    | ok tailer =>
      obtain ⟨_, hsock⟩ := handle_ok levelString newLogTailer st reqParams socket events
        tailer hn
      obtain ⟨k, hk⟩ := loop_prefix levelString reqParams.maxLines tailer events 0
        socket.sendOk
      exact ⟨k, by rw [hsock, hk, sendOk_writes]⟩
  · intro tailer recs r rest e hn hw he hlim
    obtain ⟨hret, hsock⟩ := handle_ok levelString newLogTailer st reqParams socket
      (recs.map Select.log ++ Select.log r :: rest) tailer hn
    rw [hret, hsock]
    have h1 := loop_logs levelString reqParams.maxLines tailer
      (Select.log r :: rest) recs 0 socket.sendOk (by rw [uintRange_eq]; decide)
      (fun i hi => hw i hi)
      (by rcases hlim with h | ⟨h, h'⟩
          · exact Or.inl h
          · exact Or.inr ⟨by omega, h'⟩)
    rw [h1]
    simp [loop, Socket.Write, sendOk_writes, sendOk_writeErr, he, Annotate]

theorem writes_follow_delivery_witness :
    (sampleSocket 1).writeErr ((sampleSocket 1).writes.length + 1) =
      some (.New "broken pipe") ∧
    (handleDebugLogDBRequest sampleLevelString (sampleNewLogTailer none) () (sampleParams 0 0)
      (sampleSocket 1)
      ([sampleRecord 0 "a"].map Select.log ++
        Select.log (sampleRecord 1 "b") :: [Select.log (sampleRecord 2 "c")])).ret =
      some (some (.annotated (.New "broken pipe") "sending failed")) ∧
    (handleDebugLogDBRequest sampleLevelString (sampleNewLogTailer none) () (sampleParams 0 0)
      (sampleSocket 1)
      ([sampleRecord 0 "a"].map Select.log ++
        Select.log (sampleRecord 1 "b") :: [Select.log (sampleRecord 2 "c")])).socket.writes =
      (sampleSocket 1).writes ++
        ([sampleRecord 0 "a"] ++ [sampleRecord 1 "b"]).map (formatLogRecord sampleLevelString) :=
  ⟨by decide,
   (writes_follow_delivery sampleLevelString (sampleNewLogTailer none) () (sampleParams 0 0)
      (sampleSocket 1)).2 { err := none, stopped := false } [sampleRecord 0 "a"]
      (sampleRecord 1 "b") [Select.log (sampleRecord 2 "c")] (.New "broken pipe") rfl
      (by decide) (by decide) (Or.inl rfl)⟩

/-- C19: when the tailer's log channel closes before a stop signal and before the
line limit, the handler returns `errors.Annotate(tailer.Err(), "tailer stopped")`:
the tailer's error wrapped with that message when there is one, and nil when
`tailer.Err()` is nil, which is also what it returns on a stop signal. -/
theorem tailer_stopped {L S : Type} (levelString : L → String)
    (newLogTailer : S → LogTailerParams L → Except Error LogTailer)
    (st : S) (reqParams : debugLogParams L) (socket : Socket)
    (tailer : LogTailer) (recs : List (LogRecord L)) (rest : List (Select L))
    (hn : newLogTailer st (makeLogTailerParams reqParams) = .ok tailer)
    (hw : ∀ i, i < recs.length → socket.writeErr (socket.writes.length + i) = none)
    (hlim : reqParams.maxLines = 0 ∨
      (recs.length < reqParams.maxLines ∧ reqParams.maxLines < uintRange)) :
    (handleDebugLogDBRequest levelString newLogTailer st reqParams socket
      (recs.map Select.log ++ Select.closed :: rest)).ret =
      some (Annotate tailer.err "tailer stopped") ∧
    (∀ e, tailer.err = some e →
      (handleDebugLogDBRequest levelString newLogTailer st reqParams socket
        (recs.map Select.log ++ Select.closed :: rest)).ret =
        some (some (.annotated e "tailer stopped")) ∧
      (Error.annotated e "tailer stopped").Cause = e.Cause ∧
      (Error.annotated e "tailer stopped").message = "tailer stopped: " ++ e.message) ∧
    (tailer.err = none →
      (handleDebugLogDBRequest levelString newLogTailer st reqParams socket
        (recs.map Select.log ++ Select.closed :: rest)).ret = some none) ∧
    (handleDebugLogDBRequest levelString newLogTailer st reqParams socket
      (recs.map Select.log ++ Select.stop :: rest)).ret = some none := by
  have hlim1 : reqParams.maxLines = 0 ∨
      (0 + recs.length < reqParams.maxLines ∧ reqParams.maxLines < uintRange) := by
    rcases hlim with h | ⟨h, h'⟩
    · exact Or.inl h
    · exact Or.inr ⟨by omega, h'⟩
  have hclosed : (handleDebugLogDBRequest levelString newLogTailer st reqParams socket
      (recs.map Select.log ++ Select.closed :: rest)).ret =
      some (Annotate tailer.err "tailer stopped") := by
    rw [(handle_ok levelString newLogTailer st reqParams socket _ tailer hn).1,
      loop_logs levelString reqParams.maxLines tailer (Select.closed :: rest) recs 0
        socket.sendOk (by rw [uintRange_eq]; decide) (fun i hi => hw i hi) hlim1]
    simp [loop]
  refine ⟨hclosed, ?_, ?_, ?_⟩
  · intro e he
    rw [hclosed, he]
    exact ⟨rfl, rfl, rfl⟩
  · intro he
    rw [hclosed, he]
    rfl
  · rw [(handle_ok levelString newLogTailer st reqParams socket _ tailer hn).1,
      loop_logs levelString reqParams.maxLines tailer (Select.stop :: rest) recs 0
        socket.sendOk (by rw [uintRange_eq]; decide) (fun i hi => hw i hi) hlim1]
    simp [loop]

theorem tailer_stopped_witness :
    sampleNewLogTailer (some (.New "tailer died")) () (makeLogTailerParams (sampleParams 0 0)) =
      .ok { err := some (.New "tailer died"), stopped := false } ∧
    (handleDebugLogDBRequest sampleLevelString (sampleNewLogTailer (some (.New "tailer died")))
      () (sampleParams 0 0) (sampleSocket 5)
      ([sampleRecord 0 "a"].map Select.log ++ Select.closed :: [])).ret =
      some (Annotate (some (.New "tailer died")) "tailer stopped") :=
  ⟨rfl,
   (tailer_stopped sampleLevelString (sampleNewLogTailer (some (.New "tailer died"))) ()
      (sampleParams 0 0) (sampleSocket 5) { err := some (.New "tailer died"), stopped := false }
      [sampleRecord 0 "a"] [] rfl (by decide) (Or.inl rfl)).1⟩

end apiserver

namespace crossmodel

theorem modify_length_append {α : Type} (f : α → α) (a : α) (rest : List α) :
    ∀ pre : List α, (pre ++ a :: rest).modify f pre.length = pre ++ f a :: rest
  | [] => by simp [List.modify]
  | b :: pre => by
    simp only [List.cons_append, List.length_cons, List.modify_succ_cons,
      modify_length_append f a rest pre]

theorem offerFor_eq {Li Ep PE : Type} [Inhabited Ep] (env : Env Li Ep PE) (lister : Li)
    (pre rest : List (params.OfferedServiceResult Ep PE)) (url : String) :
    offerFor env (lister, pre ++ params.OfferedServiceResult.zero :: rest) pre.length url =
      ((env.ListOffers lister { ServiceURL := url }).1,
        pre ++ entry env.ServerError url (env.ListOffers lister { ServiceURL := url }).2
          :: rest) := by
  unfold offerFor
  rcases h : env.ListOffers lister { ServiceURL := url } with ⟨l1, offs, _ | err⟩
  · rcases offs with _ | ⟨o1, _ | ⟨o2, t⟩⟩
    · simp [entry, modify_length_append, params.OfferedServiceResult.zero]
    · simp [entry, modify_length_append, params.OfferedServiceResult.zero]
    · simp [entry, modify_length_append, params.OfferedServiceResult.zero]
  · simp [entry, modify_length_append, params.OfferedServiceResult.zero]

theorem fold_offerFor {Li Ep PE : Type} [Inhabited Ep] (env : Env Li Ep PE) :
    ∀ (urls : List String) (lister : Li) (pre : List (params.OfferedServiceResult Ep PE)),
      ((urls.enumFrom pre.length).foldl (fun acc iu => offerFor env acc iu.1 iu.2)
        (lister, pre ++ List.replicate urls.length params.OfferedServiceResult.zero)).2 =
        pre ++ (calls env lister urls).map
          (fun c => entry env.ServerError c.1.ServiceURL c.2)
  | [], lister, pre => by simp [calls]
  | url :: urls, lister, pre => by
    have h := fold_offerFor env urls (env.ListOffers lister { ServiceURL := url }).1
      (pre ++ [entry env.ServerError url (env.ListOffers lister { ServiceURL := url }).2])
    simp only [List.length_append, List.length_singleton, List.append_assoc,
      List.singleton_append] at h
    simp only [List.enumFrom_cons, List.foldl_cons, List.length_cons, List.replicate_succ,
      offerFor_eq, calls, List.map_cons]
    exact h

theorem OfferedServices_results {St Li Res Au Ep PE : Type} [Inhabited Ep]
    (env : Env Li Ep PE) (s : OfferedServiceAPI St Li Res Au)
    (filter : params.OfferedServiceQueryParams) :
    (s.OfferedServices env filter).2.1.Results =
      (calls env s.offeredServices filter.ServiceUrls).map
        (fun c => entry env.ServerError c.1.ServiceURL c.2) := by
  have h := fold_offerFor env filter.ServiceUrls s.offeredServices []
  simpa [OfferedServiceAPI.OfferedServices, List.enum] using h

theorem calls_filters {Li Ep PE : Type} (env : Env Li Ep PE) :
    ∀ (urls : List String) (lister : Li),
      (calls env lister urls).map Prod.fst = urls.map (fun url => { ServiceURL := url })
  | [], _ => rfl
  | url :: urls, lister => by simp [calls, calls_filters env urls]

theorem calls_length {Li Ep PE : Type} (env : Env Li Ep PE) (urls : List String)
    (lister : Li) : (calls env lister urls).length = urls.length := by
  have h := congrArg List.length (calls_filters env urls lister)
  simpa using h

theorem calls_stateless {Ep PE : Type}
    (answer : OfferedServiceFilter → List (OfferedService Ep) × Option Error)
    (ServerError : Error → Option PE) :
    ∀ urls : List String, calls (stateless answer ServerError) () urls =
      urls.map (fun url => ({ ServiceURL := url }, answer { ServiceURL := url }))
  | [] => rfl
  | url :: urls => by
    show (_, _) :: calls (stateless answer ServerError) () urls = _
    rw [calls_stateless answer ServerError urls]
    rfl

theorem calls_recording {Li Ep PE : Type} (env : Env Li Ep PE) :
    ∀ (urls : List String) (lister : Li) (log : List OfferedServiceFilter),
      calls (recording env) (lister, log) urls = calls env lister urls
  | [], _, _ => rfl
  | url :: urls, lister, log => by
    show (_, _) :: calls (recording env)
      ((env.ListOffers lister { ServiceURL := url }).1, log ++ [{ ServiceURL := url }]) urls = _
    rw [calls_recording env urls]
    rfl

theorem offerFor_lister {Li Ep PE : Type} (env : Env Li Ep PE)
    (acc : Li × List (params.OfferedServiceResult Ep PE)) (i : Nat) (url : String) :
    (offerFor env acc i url).1 = (env.ListOffers acc.1 { ServiceURL := url }).1 := by
  unfold offerFor
  rcases h : env.ListOffers acc.1 { ServiceURL := url } with ⟨l1, offs, _ | err⟩
  · rcases offs with _ | ⟨o1, _ | ⟨o2, t⟩⟩ <;> simp
  · simp

theorem fold_recording {Li Ep PE : Type} (env : Env Li Ep PE) :
    ∀ (urls : List String) (k : Nat)
      (acc : (Li × List OfferedServiceFilter) × List (params.OfferedServiceResult Ep PE)),
      ((urls.enumFrom k).foldl (fun acc iu => offerFor (recording env) acc iu.1 iu.2)
        acc).1.2 = acc.1.2 ++ urls.map (fun url => { ServiceURL := url })
  | [], _, _ => by simp
  | url :: urls, k, acc => by
    simp only [List.enumFrom_cons, List.foldl_cons, fold_recording env urls (k + 1),
      offerFor_lister, List.map_cons]
    simp [recording]

theorem OfferedServices_stateless {St Res Au Ep PE : Type} [Inhabited Ep]
    (answer : OfferedServiceFilter → List (OfferedService Ep) × Option Error)
    (ServerError : Error → Option PE) (s : OfferedServiceAPI St Unit Res Au)
    (filter : params.OfferedServiceQueryParams) :
    (s.OfferedServices (stateless answer ServerError) filter).2.1.Results =
      filter.ServiceUrls.map (fun url => entry ServerError url (answer { ServiceURL := url })) := by
  rw [OfferedServices_results, calls_stateless, List.map_map]
  rfl

theorem OfferedServices_recording {St Li Res Au Ep PE : Type} [Inhabited Ep]
    (env : Env Li Ep PE) (s : OfferedServiceAPI St (Li × List OfferedServiceFilter) Res Au)
    (filter : params.OfferedServiceQueryParams) :
    (s.OfferedServices (recording env) filter).1.offeredServices.2 =
      s.offeredServices.2 ++ filter.ServiceUrls.map (fun url => { ServiceURL := url }) := by
  simp only [OfferedServiceAPI.OfferedServices, List.enum, fold_recording]

theorem entry_cases {Ep PE : Type} [Inhabited Ep] (ServerError : Error → Option PE)
    (url : String) (offs : List (OfferedService Ep)) (err : Option Error) :
    (∀ e, err = some e →
      (entry ServerError url (offs, err)).Error = ServerError e ∧
      (entry ServerError url (offs, err)).Result = params.OfferedService.zero) ∧
    (err = none → offs.length = 0 →
      (entry ServerError url (offs, err)).Error =
        ServerError (.NotFoundf "offered service at %q" url) ∧
      (entry ServerError url (offs, err)).Result = params.OfferedService.zero) ∧
    (err = none → 1 < offs.length →
      (entry ServerError url (offs, err)).Error =
        ServerError (.Errorf "expected 1 result, got %d" offs.length) ∧
      (entry ServerError url (offs, err)).Result = params.OfferedService.zero) ∧
    (∀ offer, err = none → offs = [offer] →
      (entry ServerError url (offs, err)).Error = none ∧
      (entry ServerError url (offs, err)).Result.ServiceURL = offer.ServiceURL ∧
      (entry ServerError url (offs, err)).Result.ServiceName = offer.ServiceName ∧
      (entry ServerError url (offs, err)).Result.CharmName = offer.CharmName ∧
      (entry ServerError url (offs, err)).Result.Description = offer.Description ∧
      (entry ServerError url (offs, err)).Result.Registered = offer.Registered ∧
      (entry ServerError url (offs, err)).Result.Endpoints = offer.Endpoints) ∧
    ((entry ServerError url (offs, err)).Error = none ∨
      (entry ServerError url (offs, err)).Result = params.OfferedService.zero) := by
  rcases err with _ | e
  · rcases offs with _ | ⟨o1, _ | ⟨o2, t⟩⟩
    · simp [entry]
    · simp [entry]
    · simp [entry]
  · simp [entry]

/-- C15: `OfferedServices` returns a nil top-level error and one entry per URL of
the filter; entry `i` is made from the URL `i` and from the answer of the call of
`ListOffers` for that URL alone, so that two listers that agree on a URL give the
same entry for it whatever they answer elsewhere; the lister is called once per
URL, in order, with `ServiceURL` set to the URL; nothing else of the facade
changes. -/
theorem one_entry_per_url {St Li Res Au Ep PE : Type} [Inhabited Ep]
    (env : Env Li Ep PE) (s : OfferedServiceAPI St Li Res Au)
    (filter : params.OfferedServiceQueryParams) :
    (s.OfferedServices env filter).2.2 = none ∧
    (s.OfferedServices env filter).2.1.Results.length = filter.ServiceUrls.length ∧
    (s.OfferedServices env filter).2.1.Results =
      (calls env s.offeredServices filter.ServiceUrls).map
        (fun c => entry env.ServerError c.1.ServiceURL c.2) ∧
    (calls env s.offeredServices filter.ServiceUrls).map Prod.fst =
      filter.ServiceUrls.map (fun url => { ServiceURL := url }) ∧
    (∀ log : List OfferedServiceFilter,
      (((s.withLister (s.offeredServices, log)).OfferedServices (recording env)
        filter).1.offeredServices.2 =
        log ++ filter.ServiceUrls.map (fun url => { ServiceURL := url })) ∧
      ((s.withLister (s.offeredServices, log)).OfferedServices (recording env) filter).2 =
        (s.OfferedServices env filter).2) ∧
    (∀ (answer answer1 : OfferedServiceFilter → List (OfferedService Ep) × Option Error)
      (i : Nat) (url : String), filter.ServiceUrls[i]? = some url →
      answer { ServiceURL := url } = answer1 { ServiceURL := url } →
      ((s.withLister ()).OfferedServices (stateless answer env.ServerError)
        filter).2.1.Results[i]? =
      ((s.withLister ()).OfferedServices (stateless answer1 env.ServerError)
        filter).2.1.Results[i]?) ∧
    (s.OfferedServices env filter).1.st = s.st ∧
    (s.OfferedServices env filter).1.resources = s.resources ∧
    (s.OfferedServices env filter).1.authorizer = s.authorizer := by
  refine ⟨rfl, ?_, OfferedServices_results env s filter, calls_filters env _ _, ?_, ?_,
    rfl, rfl, rfl⟩
  · rw [OfferedServices_results, List.length_map, calls_length]
  · intro log
    refine ⟨OfferedServices_recording env _ filter, ?_⟩
    have h1 := OfferedServices_results (recording env)
      (s.withLister (s.offeredServices, log)) filter
    have h2 := OfferedServices_results env s filter
    have h0 : (s.withLister (s.offeredServices, log)).offeredServices =
        (s.offeredServices, log) := rfl
    rw [h0, calls_recording] at h1
    have h3 : ((s.withLister (s.offeredServices, log)).OfferedServices (recording env)
        filter).2.1.Results = (s.OfferedServices env filter).2.1.Results := by
      rw [h1, h2]; rfl
    have h4 : ∀ a b : params.OfferedServiceResults Ep PE × Option Error,
        a.1.Results = b.1.Results → a.2 = b.2 → a = b := by
      rintro ⟨⟨a⟩, a2⟩ ⟨⟨b⟩, b2⟩ h h0
      simp only at h h0
      rw [h, h0]
    exact h4 _ _ h3 rfl
  · intro answer answer1 i url hi hanswer
    rw [OfferedServices_stateless, OfferedServices_stateless, List.getElem?_map,
      List.getElem?_map, hi]
    simp [hanswer]

/-- The witness of C15: four URLs, of which one is unknown, one has one offer, one
makes the lister fail and one has two offers. -/
theorem one_entry_per_url_witness :
    ((sampleAPI ⟨[], true⟩).OfferedServices sampleEnv
      { ServiceUrls := ["nowhere", "local:/u/me/db", "broken", "local:/u/me/twice"] }).2.2
      = none ∧
    ((sampleAPI ⟨[], true⟩).OfferedServices sampleEnv
      { ServiceUrls := ["nowhere", "local:/u/me/db", "broken", "local:/u/me/twice"] }
      ).2.1.Results.length = 4 :=
  ⟨(one_entry_per_url sampleEnv (sampleAPI ⟨[], true⟩)
      { ServiceUrls := ["nowhere", "local:/u/me/db", "broken", "local:/u/me/twice"] }).1,
   (one_entry_per_url sampleEnv (sampleAPI ⟨[], true⟩)
      { ServiceUrls := ["nowhere", "local:/u/me/db", "broken", "local:/u/me/twice"] }).2.1⟩

/-- C16: entry `i` of the result of `OfferedServices` is made from the answer of
the call of `ListOffers` for URL `i`: an error `err` gives `ServerError(err)` and
the zero `Result`; no offer gives the not-found error made from "offered service
at %q" and the URL; `k > 1` offers give the error made from "expected 1 result,
got %d" and `k`; one offer gives a nil `Error` and a `Result` with the six fields
of the offer; and no entry has both an `Error` and a `Result` other than zero. -/
theorem entry_is_record_or_error {St Li Res Au Ep PE : Type} [Inhabited Ep]
    (env : Env Li Ep PE) (s : OfferedServiceAPI St Li Res Au)
    (filter : params.OfferedServiceQueryParams) (i : Nat)
    (hi : i < filter.ServiceUrls.length) :
    ∃ (url : String) (offs : List (OfferedService Ep)) (err : Option Error)
      (r : params.OfferedServiceResult Ep PE),
      filter.ServiceUrls[i]? = some url ∧
      (calls env s.offeredServices filter.ServiceUrls)[i]? =
        some ({ ServiceURL := url }, offs, err) ∧
      (s.OfferedServices env filter).2.1.Results[i]? = some r ∧
      (∀ e, err = some e → r.Error = env.ServerError e ∧
        r.Result = params.OfferedService.zero) ∧
      (err = none → offs.length = 0 →
        r.Error = env.ServerError (.NotFoundf "offered service at %q" url) ∧
        r.Result = params.OfferedService.zero) ∧
      (err = none → 1 < offs.length →
        r.Error = env.ServerError (.Errorf "expected 1 result, got %d" offs.length) ∧
        r.Result = params.OfferedService.zero) ∧
      (∀ offer, err = none → offs = [offer] →
        r.Error = none ∧
        r.Result.ServiceURL = offer.ServiceURL ∧
        r.Result.ServiceName = offer.ServiceName ∧
        r.Result.CharmName = offer.CharmName ∧
        r.Result.Description = offer.Description ∧
        r.Result.Registered = offer.Registered ∧
        r.Result.Endpoints = offer.Endpoints) ∧
      (r.Error = none ∨ r.Result = params.OfferedService.zero) := by
  have hlen := calls_length env filter.ServiceUrls s.offeredServices
  have hc : i < (calls env s.offeredServices filter.ServiceUrls).length := by omega
  have hf := congrArg (fun l => l[i]?) (calls_filters env filter.ServiceUrls s.offeredServices)
  simp only [List.getElem?_map, List.getElem?_eq_getElem hc, List.getElem?_eq_getElem hi,
    Option.map_some'] at hf
  rcases hcall : (calls env s.offeredServices filter.ServiceUrls)[i] with ⟨f, offs, err⟩
  rw [hcall] at hf
  simp only [Option.some.injEq] at hf
  subst hf
  refine ⟨filter.ServiceUrls[i], offs, err,
    entry env.ServerError filter.ServiceUrls[i] (offs, err),
    List.getElem?_eq_getElem hi, ?_, ?_, entry_cases env.ServerError _ offs err⟩
  · rw [List.getElem?_eq_getElem hc, hcall]
  · rw [OfferedServices_results, List.getElem?_map, List.getElem?_eq_getElem hc, hcall]
    rfl

theorem entry_is_record_or_error_witness :
    1 < (["nowhere", "local:/u/me/db", "broken", "local:/u/me/twice"] : List String).length ∧
    ∃ r, ((sampleAPI ⟨[], true⟩).OfferedServices sampleEnv
        { ServiceUrls := ["nowhere", "local:/u/me/db", "broken", "local:/u/me/twice"] }
        ).2.1.Results[1]? = some r ∧
      (r.Error = none ∨ r.Result = params.OfferedService.zero) :=
  ⟨by decide,
   (entry_is_record_or_error sampleEnv (sampleAPI ⟨[], true⟩)
      { ServiceUrls := ["nowhere", "local:/u/me/db", "broken", "local:/u/me/twice"] } 1
      (by decide)).elim
    (fun _ h => h.elim (fun _ h => h.elim (fun _ h => h.elim (fun r h =>
      ⟨r, h.2.2.1, h.2.2.2.2.2.2.2⟩))))⟩

/-- C20: `WatchOfferedServices` gets a watcher from the state access and receives
once from its `Changes()` channel.  When the receive delivers `changes` it hands
the watcher to `Register`, and returns the id so obtained, those changes and a nil
error.  When the channel is closed with nothing to deliver it leaves the resources
as they are and returns the zero result and `EnsureErr` of the watcher.  It returns
unless the channel is open and never delivers, and the resources differ afterwards
only if the receive delivered. -/
theorem watch_registers_after_first_receive {St Li Res Au K : Type} (env : WatchEnv St Res K)
    (s : OfferedServiceAPI St Li Res Au) :
    (∀ changes c, (env.WatchOfferedServices s.st).2.changes.recv = some ((changes, true), c) →
      s.WatchOfferedServices env = some
        ({ s with
            st := (env.WatchOfferedServices s.st).1
            resources := (env.Register s.resources
              { (env.WatchOfferedServices s.st).2 with changes := c }).1 },
          { StringsWatcherId := (env.Register s.resources
              { (env.WatchOfferedServices s.st).2 with changes := c }).2,
            Changes := changes },
          none)) ∧
    ((env.WatchOfferedServices s.st).2.changes = { pending := [], closed := true } →
      s.WatchOfferedServices env = some
        ({ s with st := (env.WatchOfferedServices s.st).1 },
          params.StringsWatchResult.zero,
          env.EnsureErr (env.WatchOfferedServices s.st).2)) ∧
    (s.WatchOfferedServices env = none ↔
      (env.WatchOfferedServices s.st).2.changes = { pending := [], closed := false }) ∧
    (∀ out, s.WatchOfferedServices env = some out → out.1.resources ≠ s.resources →
      ∃ changes c,
        (env.WatchOfferedServices s.st).2.changes.recv = some ((changes, true), c)) := by
  rcases hw : env.WatchOfferedServices s.st with ⟨st, watch⟩
  rcases watch with ⟨⟨_ | ⟨v, rest⟩, _ | _⟩, k⟩ <;>
    simp [OfferedServiceAPI.WatchOfferedServices, hw, Chan.recv]

theorem watch_registers_after_first_receive_witness :
    (sampleWatchEnv.WatchOfferedServices (sampleAPI ⟨[["a", "b"]], false⟩).st).2.changes.recv =
      some ((["a", "b"], true), ⟨[], false⟩) ∧
    (sampleAPI ⟨[["a", "b"]], false⟩).WatchOfferedServices sampleWatchEnv = some
      ({ st := ⟨[["a", "b"]], false⟩, offeredServices := (),
         resources := [{ changes := ⟨[], false⟩, rest := () }], authorizer := () },
        { StringsWatcherId := "1", Changes := ["a", "b"] }, none) :=
  ⟨rfl,
   (watch_registers_after_first_receive sampleWatchEnv (sampleAPI ⟨[["a", "b"]], false⟩)).1
      ["a", "b"] ⟨[], false⟩ rfl⟩

/-- C21: `createOfferedServiceAPI` returns the nil facade and `common.ErrPerm`
exactly when `authorizer.AuthEnvironManager()` is false; when it is true it
returns a nil error and a facade whose `st`, `offeredServices`, `resources` and
`authorizer` are the four arguments. -/
theorem createOfferedServiceAPI_permission {St Li Res Au E : Type}
    (AuthEnvironManager : Au → Bool) (ErrPerm : Option E) (st : St)
    (offeredServiceLister : Li) (resources : Res) (authorizer : Au) :
    (createOfferedServiceAPI AuthEnvironManager ErrPerm st offeredServiceLister resources
        authorizer = (none, ErrPerm) ↔ AuthEnvironManager authorizer = false) ∧
    ((createOfferedServiceAPI AuthEnvironManager ErrPerm st offeredServiceLister resources
        authorizer).1 = none ↔ AuthEnvironManager authorizer = false) ∧
    (AuthEnvironManager authorizer = true →
      createOfferedServiceAPI AuthEnvironManager ErrPerm st offeredServiceLister resources
        authorizer =
        (some { st := st, offeredServices := offeredServiceLister, resources := resources,
                authorizer := authorizer }, none)) ∧
    (AuthEnvironManager authorizer = true →
      ∃ api, createOfferedServiceAPI AuthEnvironManager ErrPerm st offeredServiceLister
          resources authorizer = (some api, none) ∧
        api.st = st ∧ api.offeredServices = offeredServiceLister ∧
        api.resources = resources ∧ api.authorizer = authorizer) := by
  unfold createOfferedServiceAPI
  cases h : AuthEnvironManager authorizer
  · simp
  · simp

theorem createOfferedServiceAPI_permission_witness :
    (fun b : Bool => b) true = true ∧
    createOfferedServiceAPI (fun b : Bool => b) (some (Error.New "permission denied"))
      "state" "lister" [1, 2] true =
      (some { st := "state", offeredServices := "lister", resources := [1, 2],
              authorizer := true }, none) ∧
    createOfferedServiceAPI (fun b : Bool => b) (some (Error.New "permission denied"))
      "state" "lister" [1, 2] false = (none, some (Error.New "permission denied")) :=
  ⟨rfl,
   (createOfferedServiceAPI_permission (fun b : Bool => b)
      (some (Error.New "permission denied")) "state" "lister" [1, 2] true).2.2.1 rfl,
   (createOfferedServiceAPI_permission (fun b : Bool => b)
      (some (Error.New "permission denied")) "state" "lister" [1, 2] false).1.2 rfl⟩

end crossmodel

namespace status

theorem machineStatus_form {R : Type} (Marshal : Value → R) (s : machineStatus) :
    ((∀ err, s.Err = some err →
        s.MarshalYAML = (.errorStatus { StatusError := err.Error }, none) ∧
        s.MarshalJSON Marshal = Marshal (.errorStatus { StatusError := err.Error })) ∧
      (s.Err = none →
        s.MarshalYAML = (.machineStatusNoMarshal s, none) ∧
        s.MarshalJSON Marshal = Marshal (.machineStatusNoMarshal s)) ∧
      (s.MarshalYAML.1.isErrorStatus = true ↔ s.Err ≠ none) ∧
      s.MarshalJSON Marshal = Marshal s.MarshalYAML.1 ∧
      ((∀ x v, Marshal (.errorStatus x) = Marshal v → v.isErrorStatus = true) →
        ((∃ x, s.MarshalJSON Marshal = Marshal (.errorStatus x)) ↔ s.Err ≠ none))) := by
  cases h : s.Err with
  | none =>
    refine ⟨by simp, ?_, ?_, ?_, ?_⟩
    · intro _; simp [machineStatus.MarshalYAML, machineStatus.MarshalJSON, h]
    · simp [machineStatus.MarshalYAML, h, Value.isErrorStatus]
    · simp [machineStatus.MarshalYAML, machineStatus.MarshalJSON, h]
    · intro hsep
      simp only [machineStatus.MarshalJSON, h, ne_eq, not_true_eq_false, iff_false, not_exists]
      intro x hx
      have := hsep x _ hx.symm
      simp [Value.isErrorStatus] at this
  | some e =>
    refine ⟨?_, by simp, ?_, ?_, ?_⟩
    · intro err herr
      cases herr
      simp [machineStatus.MarshalYAML, machineStatus.MarshalJSON, h]
    · simp [machineStatus.MarshalYAML, h, Value.isErrorStatus]
    · simp [machineStatus.MarshalYAML, machineStatus.MarshalJSON, h]
    · intro _
      simp only [machineStatus.MarshalJSON, h, ne_eq, reduceCtorEq, not_false_eq_true, iff_true]
      exact ⟨_, rfl⟩

theorem applicationStatus_form {R : Type} (Marshal : Value → R) (s : applicationStatus) :
    ((∀ err, s.Err = some err →
        s.MarshalYAML = (.errorStatus { StatusError := err.Error }, none) ∧
        s.MarshalJSON Marshal = Marshal (.errorStatus { StatusError := err.Error })) ∧
      (s.Err = none →
        s.MarshalYAML = (.applicationStatusNoMarshal s, none) ∧
        s.MarshalJSON Marshal = Marshal (.applicationStatusNoMarshal s)) ∧
      (s.MarshalYAML.1.isErrorStatus = true ↔ s.Err ≠ none) ∧
      s.MarshalJSON Marshal = Marshal s.MarshalYAML.1 ∧
      ((∀ x v, Marshal (.errorStatus x) = Marshal v → v.isErrorStatus = true) →
        ((∃ x, s.MarshalJSON Marshal = Marshal (.errorStatus x)) ↔ s.Err ≠ none))) := by
  cases h : s.Err with
  | none =>
    refine ⟨by simp, ?_, ?_, ?_, ?_⟩
    · intro _; simp [applicationStatus.MarshalYAML, applicationStatus.MarshalJSON, h]
    · simp [applicationStatus.MarshalYAML, h, Value.isErrorStatus]
    · simp [applicationStatus.MarshalYAML, applicationStatus.MarshalJSON, h]
    · intro hsep
      simp only [applicationStatus.MarshalJSON, h, ne_eq, not_true_eq_false, iff_false, not_exists]
      intro x hx
      have := hsep x _ hx.symm
      simp [Value.isErrorStatus] at this
  | some e =>
    refine ⟨?_, by simp, ?_, ?_, ?_⟩
    · intro err herr
      cases herr
      simp [applicationStatus.MarshalYAML, applicationStatus.MarshalJSON, h]
    · simp [applicationStatus.MarshalYAML, h, Value.isErrorStatus]
    · simp [applicationStatus.MarshalYAML, applicationStatus.MarshalJSON, h]
    · intro _
      simp only [applicationStatus.MarshalJSON, h, ne_eq, reduceCtorEq, not_false_eq_true, iff_true]
      exact ⟨_, rfl⟩

theorem statusInfoContents_form {R : Type} (Marshal : Value → R) (s : statusInfoContents) :
    ((∀ err, s.Err = some err →
        s.MarshalYAML = (.errorStatus { StatusError := err.Error }, none) ∧
        s.MarshalJSON Marshal = Marshal (.errorStatus { StatusError := err.Error })) ∧
      (s.Err = none →
        s.MarshalYAML = (.statusInfoContentsNoMarshal s, none) ∧
        s.MarshalJSON Marshal = Marshal (.statusInfoContentsNoMarshal s)) ∧
      (s.MarshalYAML.1.isErrorStatus = true ↔ s.Err ≠ none) ∧
      s.MarshalJSON Marshal = Marshal s.MarshalYAML.1 ∧
      ((∀ x v, Marshal (.errorStatus x) = Marshal v → v.isErrorStatus = true) →
        ((∃ x, s.MarshalJSON Marshal = Marshal (.errorStatus x)) ↔ s.Err ≠ none))) := by
  cases h : s.Err with
  | none =>
    refine ⟨by simp, ?_, ?_, ?_, ?_⟩
    · intro _; simp [statusInfoContents.MarshalYAML, statusInfoContents.MarshalJSON, h]
    · simp [statusInfoContents.MarshalYAML, h, Value.isErrorStatus]
    · simp [statusInfoContents.MarshalYAML, statusInfoContents.MarshalJSON, h]
    · intro hsep
      simp only [statusInfoContents.MarshalJSON, h, ne_eq, not_true_eq_false, iff_false, not_exists]
      intro x hx
      have := hsep x _ hx.symm
      simp [Value.isErrorStatus] at this
  | some e =>
    refine ⟨?_, by simp, ?_, ?_, ?_⟩
    · intro err herr
      cases herr
      simp [statusInfoContents.MarshalYAML, statusInfoContents.MarshalJSON, h]
    · simp [statusInfoContents.MarshalYAML, h, Value.isErrorStatus]
    · simp [statusInfoContents.MarshalYAML, statusInfoContents.MarshalJSON, h]
    · intro _
      simp only [statusInfoContents.MarshalJSON, h, ne_eq, reduceCtorEq, not_false_eq_true, iff_true]
      exact ⟨_, rfl⟩

theorem unitStatus_form {R : Type} (Marshal : Value → R) (s : unitStatus) :
    ((∀ err, s.WorkloadStatusInfo.Err = some err →
        s.MarshalYAML = (.errorStatus { StatusError := err.Error }, none) ∧
        s.MarshalJSON Marshal = Marshal (.errorStatus { StatusError := err.Error })) ∧
      (s.WorkloadStatusInfo.Err = none →
        s.MarshalYAML = (.unitStatusNoMarshal s, none) ∧
        s.MarshalJSON Marshal = Marshal (.unitStatusNoMarshal s)) ∧
      (s.MarshalYAML.1.isErrorStatus = true ↔ s.WorkloadStatusInfo.Err ≠ none) ∧
      s.MarshalJSON Marshal = Marshal s.MarshalYAML.1 ∧
      ((∀ x v, Marshal (.errorStatus x) = Marshal v → v.isErrorStatus = true) →
        ((∃ x, s.MarshalJSON Marshal = Marshal (.errorStatus x)) ↔ s.WorkloadStatusInfo.Err ≠ none))) := by
  cases h : s.WorkloadStatusInfo.Err with
  | none =>
    refine ⟨by simp, ?_, ?_, ?_, ?_⟩
    · intro _; simp [unitStatus.MarshalYAML, unitStatus.MarshalJSON, h]
    · simp [unitStatus.MarshalYAML, h, Value.isErrorStatus]
    · simp [unitStatus.MarshalYAML, unitStatus.MarshalJSON, h]
    · intro hsep
      simp only [unitStatus.MarshalJSON, h, ne_eq, not_true_eq_false, iff_false, not_exists]
      intro x hx
      have := hsep x _ hx.symm
      simp [Value.isErrorStatus] at this
  | some e =>
    refine ⟨?_, by simp, ?_, ?_, ?_⟩
    · intro err herr
      cases herr
      simp [unitStatus.MarshalYAML, unitStatus.MarshalJSON, h]
    · simp [unitStatus.MarshalYAML, h, Value.isErrorStatus]
    · simp [unitStatus.MarshalYAML, unitStatus.MarshalJSON, h]
    · intro _
      simp only [unitStatus.MarshalJSON, h, ne_eq, reduceCtorEq, not_false_eq_true, iff_true]
      exact ⟨_, rfl⟩

/-- C22: for a `machineStatus`, an `applicationStatus` and a `statusInfoContents`,
`MarshalYAML` returns, and `MarshalJSON` hands to `json.Marshal`, the value
`errorStatus` with the text of the value's own `Err` when that `Err` is non-nil,
and the whole struct (as its `...NoMarshal` type) when it is nil; for a
`unitStatus` the `Err` that decides is the one of `WorkloadStatusInfo`, whatever
`JujuStatusInfo.Err` is.  The value is an `errorStatus` exactly when that `Err` is
non-nil; `MarshalJSON` is `json.Marshal` of the value `MarshalYAML` returns; and
when `json.Marshal` never renders an `errorStatus` like something else, the JSON is
that of an `errorStatus` exactly when the `Err` is non-nil. -/
theorem marshalers_choose_one_form {R : Type} (Marshal : Value → R) (m : machineStatus)
    (a : applicationStatus) (c : statusInfoContents) (u : unitStatus) :
    ((∀ err, m.Err = some err →
        m.MarshalYAML = (.errorStatus { StatusError := err.Error }, none) ∧
        m.MarshalJSON Marshal = Marshal (.errorStatus { StatusError := err.Error })) ∧
      (m.Err = none →
        m.MarshalYAML = (.machineStatusNoMarshal m, none) ∧
        m.MarshalJSON Marshal = Marshal (.machineStatusNoMarshal m)) ∧
      (m.MarshalYAML.1.isErrorStatus = true ↔ m.Err ≠ none) ∧
      m.MarshalJSON Marshal = Marshal m.MarshalYAML.1 ∧
      ((∀ x v, Marshal (.errorStatus x) = Marshal v → v.isErrorStatus = true) →
        ((∃ x, m.MarshalJSON Marshal = Marshal (.errorStatus x)) ↔ m.Err ≠ none))) ∧
    ((∀ err, a.Err = some err →
        a.MarshalYAML = (.errorStatus { StatusError := err.Error }, none) ∧
        a.MarshalJSON Marshal = Marshal (.errorStatus { StatusError := err.Error })) ∧
      (a.Err = none →
        a.MarshalYAML = (.applicationStatusNoMarshal a, none) ∧
        a.MarshalJSON Marshal = Marshal (.applicationStatusNoMarshal a)) ∧
      (a.MarshalYAML.1.isErrorStatus = true ↔ a.Err ≠ none) ∧
      a.MarshalJSON Marshal = Marshal a.MarshalYAML.1 ∧
      ((∀ x v, Marshal (.errorStatus x) = Marshal v → v.isErrorStatus = true) →
        ((∃ x, a.MarshalJSON Marshal = Marshal (.errorStatus x)) ↔ a.Err ≠ none))) ∧
    ((∀ err, c.Err = some err →
        c.MarshalYAML = (.errorStatus { StatusError := err.Error }, none) ∧
        c.MarshalJSON Marshal = Marshal (.errorStatus { StatusError := err.Error })) ∧
      (c.Err = none →
        c.MarshalYAML = (.statusInfoContentsNoMarshal c, none) ∧
        c.MarshalJSON Marshal = Marshal (.statusInfoContentsNoMarshal c)) ∧
      (c.MarshalYAML.1.isErrorStatus = true ↔ c.Err ≠ none) ∧
      c.MarshalJSON Marshal = Marshal c.MarshalYAML.1 ∧
      ((∀ x v, Marshal (.errorStatus x) = Marshal v → v.isErrorStatus = true) →
        ((∃ x, c.MarshalJSON Marshal = Marshal (.errorStatus x)) ↔ c.Err ≠ none))) ∧
    ((∀ err, u.WorkloadStatusInfo.Err = some err →
        u.MarshalYAML = (.errorStatus { StatusError := err.Error }, none) ∧
        u.MarshalJSON Marshal = Marshal (.errorStatus { StatusError := err.Error })) ∧
      (u.WorkloadStatusInfo.Err = none →
        u.MarshalYAML = (.unitStatusNoMarshal u, none) ∧
        u.MarshalJSON Marshal = Marshal (.unitStatusNoMarshal u)) ∧
      (u.MarshalYAML.1.isErrorStatus = true ↔ u.WorkloadStatusInfo.Err ≠ none) ∧
      u.MarshalJSON Marshal = Marshal u.MarshalYAML.1 ∧
      ((∀ x v, Marshal (.errorStatus x) = Marshal v → v.isErrorStatus = true) →
        ((∃ x, u.MarshalJSON Marshal = Marshal (.errorStatus x)) ↔ u.WorkloadStatusInfo.Err ≠ none))) ∧
    (u.WorkloadStatusInfo.Err = none → u.JujuStatusInfo.Err ≠ none →
      u.MarshalYAML = (.unitStatusNoMarshal u, none) ∧
      u.MarshalJSON Marshal = Marshal (.unitStatusNoMarshal u)) :=
  ⟨machineStatus_form Marshal m, applicationStatus_form Marshal a,
    statusInfoContents_form Marshal c, unitStatus_form Marshal u,
    fun h _ => (unitStatus_form Marshal u).2.1 h⟩

theorem marshalers_choose_one_form_witness :
    (sampleUnit none (some ⟨"agent lost"⟩)).WorkloadStatusInfo.Err = none ∧
    (sampleUnit none (some ⟨"agent lost"⟩)).JujuStatusInfo.Err ≠ none ∧
    (sampleUnit none (some ⟨"agent lost"⟩)).MarshalYAML =
      (.unitStatusNoMarshal (sampleUnit none (some ⟨"agent lost"⟩)), none) ∧
    (sampleMachine (some ⟨"machine gone"⟩)).Err = some ⟨"machine gone"⟩ ∧
    (sampleMachine (some ⟨"machine gone"⟩)).MarshalYAML =
      (.errorStatus { StatusError := "machine gone" }, none) ∧
    (∀ x v, Value.errorStatus x = v → v.isErrorStatus = true) ∧
    (∃ x, (sampleMachine (some ⟨"machine gone"⟩)).MarshalJSON (fun v => v) =
      .errorStatus x) :=
  ⟨rfl, by simp [sampleUnit, sampleInfo],
   ((marshalers_choose_one_form (fun v => v) (sampleMachine none) (sampleApplication none)
      (sampleInfo none) (sampleUnit none (some ⟨"agent lost"⟩))).2.2.2.2 rfl
      (by simp [sampleUnit, sampleInfo])).1,
   rfl,
   ((marshalers_choose_one_form (fun v => v) (sampleMachine (some ⟨"machine gone"⟩))
      (sampleApplication none) (sampleInfo none) (sampleUnit none none)).1.1
      ⟨"machine gone"⟩ rfl).1,
   fun _ _ h => by subst h; rfl,
   ((marshalers_choose_one_form (fun v => v) (sampleMachine (some ⟨"machine gone"⟩))
      (sampleApplication none) (sampleInfo none) (sampleUnit none none)).1.2.2.2.2
      (fun x v h => by
        have h1 : Value.errorStatus x = v := h
        subst h1; rfl)).2 (by simp [sampleMachine])⟩

end status
